import Mathlib

/-!
# Local trajectory builder (cartographer, mapping_2d) : a shallow embedding

The definitions below follow
`cartographer/mapping_2d/local_trajectory_builder.{h,cc}` function by function.

Conventions of the embedding.

* `float` and `double` are both read as exact rationals (`ℚ`); `cast<float>()` is therefore
  the identity and is not written.
* `common::Time` is a signed 64 bit tick count, read as an integer; `Time_min` is
  `common::Time::min()`.
* A member object whose class lives outside the two source files (IMU tracker, pose tracker,
  motion filter, scan matchers, active submaps) is a value of an abstract type, and each of
  its methods is a function that returns the updated object next to its result.  All of
  them are gathered in the record `Ext`.
* `Rigid3d` is the pair (translation, rotation); its product, inverse and identity are the
  instances `Mul`, `Inv`, `One` the definitions are parametrised by.
* A failed `CHECK` is the error branch of `Except Abort`.
-/

namespace Cartographer

/-! ## Data model -/

/-- The type `common::Time`: a tick count. -/
abbrev Time := Int

/-- The value `common::Time::min()`: the least 64 bit tick count. -/
def Time_min : Time := -9223372036854775808

/-- The type `Eigen::Vector2d`. -/
structure Vec2 where
  x : ℚ
  y : ℚ
deriving DecidableEq

/-- The type `Eigen::Vector3f` / `Eigen::Vector3d`. -/
structure Vec3 where
  x : ℚ
  y : ℚ
  z : ℚ
deriving DecidableEq

/-- The vector `Eigen::Vector3f::Zero()`. -/
def Vec3.Zero : Vec3 := ⟨0, 0, 0⟩

/-- Componentwise sum. -/
def Vec3.add (a b : Vec3) : Vec3 := ⟨a.x + b.x, a.y + b.y, a.z + b.z⟩

/-- Componentwise difference. -/
def Vec3.sub (a b : Vec3) : Vec3 := ⟨a.x - b.x, a.y - b.y, a.z - b.z⟩

/-- Scalar times vector. -/
def Vec3.smul (k : ℚ) (a : Vec3) : Vec3 := ⟨k * a.x, k * a.y, k * a.z⟩

/-- The first two components, `v.head<2>()`. -/
def Vec3.head2 (a : Vec3) : Vec2 := ⟨a.x, a.y⟩

/-- Componentwise sum. -/
def Vec2.add (a b : Vec2) : Vec2 := ⟨a.x + b.x, a.y + b.y⟩

/-- Componentwise difference. -/
def Vec2.sub (a b : Vec2) : Vec2 := ⟨a.x - b.x, a.y - b.y⟩

/-- Vector divided by a scalar. -/
def Vec2.div (a : Vec2) (k : ℚ) : Vec2 := ⟨a.x / k, a.y / k⟩

/-- The vector `Eigen::Vector2d::Zero()`. -/
def Vec2.Zero : Vec2 := ⟨0, 0⟩

/-- The type `transform::Rigid3d` (and `Rigid3f`): a translation and a rotation. -/
structure Rigid3d (Rot : Type) where
  translation : Vec3
  rotation : Rot
deriving DecidableEq

/-- The type `sensor::RangeData`: an origin, the returns and the misses. -/
structure RangeData where
  origin : Vec3
  returns : List Vec3
  misses : List Vec3
deriving DecidableEq

/-- The fields of `proto::LocalTrajectoryBuilderOptions` read by the two source files. -/
structure Options where
  use_imu_data : Bool
  imu_gravity_time_constant : ℚ
  min_range : ℚ
  max_range : ℚ
  missing_data_ray_length : ℚ
  scans_per_accumulation : Int
  voxel_filter_size : ℚ
  min_z : ℚ
  max_z : ℚ
  use_online_correlative_scan_matching : Bool
  num_odometry_states : Int

/-- An entry of the odometry history: `mapping::OdometryState`. -/
structure OdometryState (Rot : Type) where
  time : Time
  odometer_pose : Rigid3d Rot
  state_pose : Rigid3d Rot
deriving DecidableEq

/-- Modelled from the spec: `mapping::OdometryStateTracker`, whose header is not among the
sources.  The spec calls it a bounded ring buffer of (time, raw odometer pose, filter-frame
pose) triples whose capacity is `num_odometry_states`. -/
structure OdometryStateTracker (Rot : Type) where
  odometry_states : List (OdometryState Rot)
  window_size : Nat
deriving DecidableEq

/-- Modelled from the spec: appending to the bounded history; the oldest entries leave
when the capacity is exceeded. -/
def OdometryStateTracker.AddOdometryState {Rot : Type} (tr : OdometryStateTracker Rot)
    (st : OdometryState Rot) : OdometryStateTracker Rot :=
  { tr with
    odometry_states :=
      (tr.odometry_states ++ [st]).drop ((tr.odometry_states ++ [st]).length - tr.window_size) }

/-- Modelled from the spec: the newest entry of the history, if there is one.  The source
reads `newest()` only behind `!empty()`, which is the `some` case here. -/
def OdometryStateTracker.newest {Rot : Type} (tr : OdometryStateTracker Rot) :
    Option (OdometryState Rot) :=
  tr.odometry_states.getLast?

/-- The type `PoseEstimate` returned by `pose_estimate()`. -/
structure PoseEstimate (Rot : Type) where
  time : Time
  pose : Rigid3d Rot
  point_cloud : List Vec3
deriving DecidableEq

/-- The collaborators of the builder: every class and free function used by
`local_trajectory_builder.cc` whose code is in another file. -/
structure Ext (Rot : Type) where
  /-- The type `transform::Rigid2d`. -/
  Rigid2d : Type
  /-- The class `mapping::ImuTracker`. -/
  ImuTracker : Type
  /-- The class `kalman_filter::PoseTracker`. -/
  PoseTracker : Type
  /-- The class `mapping_3d::MotionFilter`. -/
  MotionFilter : Type
  /-- The class `ActiveSubmaps`. -/
  ActiveSubmaps : Type
  /-- A shared pointer to a `Submap`. -/
  Submap : Type
  /-- The class `ProbabilityGrid`. -/
  ProbabilityGrid : Type
  /-- The class `RealTimeCorrelativeScanMatcher`. -/
  RealTimeCorrelativeScanMatcher : Type
  /-- The class `CeresScanMatcher`. -/
  CeresScanMatcher : Type
  /-- Eigen: `v.norm()`. -/
  norm : Vec3 → ℚ
  /-- Eigen: `Quaterniond(1.0, 0, 0, 0)`. -/
  Quaterniond_1000 : Rot
  /-- Eigen: product of two quaternions. -/
  quat_mul : Rot → Rot → Rot
  /-- Eigen: `AngleAxisd(angle, Vector3d::UnitZ())` as a quaternion. -/
  AngleAxisZ : ℚ → Rot
  /-- The function `transform::GetYaw` of a quaternion. -/
  GetYaw : Rot → ℚ
  /-- The function `transform::GetYaw` of a rigid transform. -/
  GetYawRigid : Rigid3d Rot → ℚ
  /-- The factory `Rigid3d::Rotation`. -/
  Rotation : Rot → Rigid3d Rot
  /-- The function `transform::Project2D`. -/
  Project2D : Rigid3d Rot → Rigid2d
  /-- The function `transform::Embed3D`. -/
  Embed3D : Rigid2d → Rigid3d Rot
  /-- The function `common::ToSeconds` of a difference of two times. -/
  ToSeconds : Int → ℚ
  /-- The function `sensor::TransformRangeData`. -/
  TransformRangeData : RangeData → Rigid3d Rot → RangeData
  /-- The function `sensor::TransformPointCloud`. -/
  TransformPointCloud : List Vec3 → Rigid3d Rot → List Vec3
  /-- The function `sensor::CropRangeData`. -/
  CropRangeData : RangeData → ℚ → ℚ → RangeData
  /-- The function `sensor::VoxelFiltered`. -/
  VoxelFiltered : List Vec3 → ℚ → List Vec3
  /-- The constructor `ImuTracker(imu_gravity_time_constant, time)`. -/
  ImuTracker_new : ℚ → Time → ImuTracker
  /-- The method `ImuTracker::Advance`. -/
  ImuTracker_Advance : ImuTracker → Time → ImuTracker
  /-- The method `ImuTracker::orientation`. -/
  ImuTracker_orientation : ImuTracker → Rot
  /-- The method `ImuTracker::AddImuLinearAccelerationObservation`. -/
  ImuTracker_AddImuLinearAccelerationObservation : ImuTracker → Vec3 → Rot → ImuTracker
  /-- The method `ImuTracker::AddImuAngularVelocityObservation`. -/
  ImuTracker_AddImuAngularVelocityObservation : ImuTracker → Vec3 → ImuTracker
  /-- The constructor `PoseTracker(options, time)`, the options being the fixed dictionary
  of `AddImuData`. -/
  PoseTracker_new : Time → PoseTracker
  /-- The method `PoseTracker::AddPoseObservation`, with the fixed covariance. -/
  PoseTracker_AddPoseObservation : PoseTracker → Time → Rigid3d Rot → PoseTracker
  /-- The method `PoseTracker::GetPoseEstimateMeanAndCovariance`; its outputs are only
  logged. -/
  PoseTracker_GetPoseEstimateMeanAndCovariance : PoseTracker → Time → PoseTracker
  /-- The method `PoseTracker::AddImuLinearAccelerationObservation`. -/
  PoseTracker_AddImuLinearAccelerationObservation :
    PoseTracker → Time → Vec3 → Rot → PoseTracker
  /-- The method `PoseTracker::AddImuAngularVelocityObservation`. -/
  PoseTracker_AddImuAngularVelocityObservation : PoseTracker → Time → Vec3 → PoseTracker
  /-- The method `RealTimeCorrelativeScanMatcher::Match`: the score and the pose estimate
  written through the last argument. -/
  RealTime_Match : RealTimeCorrelativeScanMatcher → Rigid2d → List Vec3 → ProbabilityGrid →
    Rigid2d → RealTimeCorrelativeScanMatcher × ℚ × Rigid2d
  /-- The method `CeresScanMatcher::Match`: the pose written through `pose_estimate`. -/
  Ceres_Match : CeresScanMatcher → Rigid2d → Rigid2d → List Vec3 → ProbabilityGrid →
    CeresScanMatcher × Rigid2d
  /-- The method `MotionFilter::IsSimilar`. -/
  MotionFilter_IsSimilar : MotionFilter → Time → Rigid3d Rot → MotionFilter × Bool
  /-- The method `ActiveSubmaps::submaps`. -/
  submaps : ActiveSubmaps → List Submap
  /-- The method `Submap::probability_grid`. -/
  probability_grid : Submap → ProbabilityGrid
  /-- The method `ActiveSubmaps::InsertRangeData`. -/
  InsertRangeData : ActiveSubmaps → RangeData → ActiveSubmaps
  /-- The member `active_submaps_` as the constructor leaves it. -/
  ActiveSubmaps_new : ActiveSubmaps
  /-- The member `motion_filter_` as the constructor leaves it. -/
  MotionFilter_new : MotionFilter
  /-- The member `real_time_correlative_scan_matcher_` as the constructor leaves it. -/
  RealTime_new : RealTimeCorrelativeScanMatcher
  /-- The member `ceres_scan_matcher_` as the constructor leaves it. -/
  Ceres_new : CeresScanMatcher

/-- The struct `LocalTrajectoryBuilder::InsertionResult`. -/
structure InsertionResult {Rot : Type} (E : Ext Rot) where
  time : Time
  insertion_submaps : List E.Submap
  tracking_to_tracking_2d : Rigid3d Rot
  range_data_in_tracking_2d : RangeData
  pose_estimate_2d : E.Rigid2d

/-- The data members of `LocalTrajectoryBuilder` that the code reads or writes
(`options_` is passed separately; the constants `MODE_A` ... `returns_now_` are never used).
The flag `mode_odo_first_choice_` is used by the `.cc` file although the header here does
not declare it. -/
structure Builder {Rot : Type} (E : Ext Rot) where
  active_submaps_ : E.ActiveSubmaps
  last_pose_estimate_ : PoseEstimate Rot
  time_ : Time
  pose_estimate_ : Rigid3d Rot
  velocity_estimate_ : Vec2
  last_scan_match_time_ : Time
  odometry_correction_ : Rigid3d Rot
  motion_filter_ : E.MotionFilter
  real_time_correlative_scan_matcher_ : E.RealTimeCorrelativeScanMatcher
  ceres_scan_matcher_ : E.CeresScanMatcher
  imu_tracker_ : Option E.ImuTracker
  odometry_state_tracker_ : OdometryStateTracker Rot
  num_accumulated_ : Int
  first_pose_estimate_ : Rigid3d Rot
  accumulated_range_data_ : RangeData
  real_time_orientiation_ : Rot
  pose_tracker_ : Option E.PoseTracker
  times_ : Int
  mode_odo_first_choice_ : Int

/-- The ways a call can end without returning. -/
inductive Abort where
  /-- `CHECK(options_.use_imu_data())` in `AddImuData`. -/
  | check_use_imu_data
  /-- `CHECK(imu_tracker_ != nullptr)` in `Predict`. -/
  | check_imu_tracker
  /-- `CHECK_LE(time_, time)` in `Predict`. -/
  | check_time_le
  /-- `front()` of an empty vector of submaps, or a null tracker dereferenced. -/
  | undefined_behaviour
deriving DecidableEq

section Model

variable {Rot : Type} [Mul (Rigid3d Rot)] [Inv (Rigid3d Rot)] [One (Rigid3d Rot)]

/-- The builder as the constructor and the member initialisers leave it.  The header does
not declare `mode_odo_first_choice_`, so its first value is an argument. -/
def Builder.fresh (E : Ext Rot) (o : Options) (mode0 : Int) : Builder E where
  active_submaps_ := E.ActiveSubmaps_new
  last_pose_estimate_ := ⟨Time_min, 1, []⟩
  time_ := Time_min
  pose_estimate_ := 1
  velocity_estimate_ := Vec2.Zero
  last_scan_match_time_ := Time_min
  odometry_correction_ := 1
  motion_filter_ := E.MotionFilter_new
  real_time_correlative_scan_matcher_ := E.RealTime_new
  ceres_scan_matcher_ := E.Ceres_new
  imu_tracker_ := none
  odometry_state_tracker_ := ⟨[], o.num_odometry_states.toNat⟩
  num_accumulated_ := 0
  first_pose_estimate_ := 1
  accumulated_range_data_ := ⟨Vec3.Zero, [], []⟩
  real_time_orientiation_ := E.Quaterniond_1000
  pose_tracker_ := none
  times_ := 0
  mode_odo_first_choice_ := mode0

/-- `LocalTrajectoryBuilder::TransformAndFilterRangeData`. -/
def TransformAndFilterRangeData (E : Ext Rot) (o : Options)
    (tracking_to_tracking_2d : Rigid3d Rot) (range_data : RangeData) : RangeData :=
  let cropped := E.CropRangeData (E.TransformRangeData range_data tracking_to_tracking_2d)
    o.min_z o.max_z
  { origin := cropped.origin
    returns := E.VoxelFiltered cropped.returns o.voxel_filter_size
    misses := E.VoxelFiltered cropped.misses o.voxel_filter_size }

/-- `LocalTrajectoryBuilder::ScanMatch`; the pose observation is written to
`pose_estimate_`, the only pointer it is called with. -/
def ScanMatch (E : Ext Rot) (o : Options) (s : Builder E) (_time : Time)
    (pose_prediction tracking_to_tracking_2d : Rigid3d Rot)
    (range_data_in_tracking_2d : RangeData) : Except Abort (Builder E) :=
  match (E.submaps s.active_submaps_).head? with
  | none => .error .undefined_behaviour
  | some matching_submap =>
    let pose_prediction_2d := E.Project2D (pose_prediction * tracking_to_tracking_2d⁻¹)
    let filtered_point_cloud_in_tracking_2d := range_data_in_tracking_2d.returns
    let rt :=
      if o.use_online_correlative_scan_matching then
        let r := E.RealTime_Match s.real_time_correlative_scan_matcher_ pose_prediction_2d
          filtered_point_cloud_in_tracking_2d (E.probability_grid matching_submap)
          pose_prediction_2d
        (r.1, r.2.2)
      else (s.real_time_correlative_scan_matcher_, pose_prediction_2d)
    let initial_ceres_pose := rt.2
    let cm := E.Ceres_Match s.ceres_scan_matcher_ pose_prediction_2d initial_ceres_pose
      filtered_point_cloud_in_tracking_2d (E.probability_grid matching_submap)
    let tracking_2d_to_map := cm.2
    .ok { s with
          real_time_correlative_scan_matcher_ := rt.1
          ceres_scan_matcher_ := cm.1
          pose_estimate_ := E.Embed3D tracking_2d_to_map * tracking_to_tracking_2d }

/-- `LocalTrajectoryBuilder::InitializeImuTracker`. -/
def InitializeImuTracker (E : Ext Rot) (o : Options) (s : Builder E) (time : Time) :
    Builder E :=
  match s.imu_tracker_ with
  | none => { s with imu_tracker_ := some (E.ImuTracker_new o.imu_gravity_time_constant time) }
  | some _ => s

/-- `LocalTrajectoryBuilder::Predict`. -/
def Predict (E : Ext Rot) (s : Builder E) (time : Time) : Except Abort (Builder E) :=
  match s.imu_tracker_ with
  | none => .error .check_imu_tracker
  | some imu =>
    if ¬ s.time_ ≤ time then .error .check_time_le
    else
      let last_yaw := E.GetYaw (E.ImuTracker_orientation imu)
      let imu1 := E.ImuTracker_Advance imu time
      let s1 : Builder E := { s with imu_tracker_ := some imu1 }
      let s2 : Builder E :=
        if s.time_ > Time_min then
          let delta_t := E.ToSeconds (time - s.time_)
          let translation := Vec3.add s.pose_estimate_.translation
            (Vec3.smul delta_t ⟨s.velocity_estimate_.x, s.velocity_estimate_.y, 0⟩)
          let rotation := E.quat_mul
            (E.AngleAxisZ (E.GetYaw s.pose_estimate_.rotation - last_yaw))
            (E.ImuTracker_orientation imu1)
          { s1 with pose_estimate_ := ⟨translation, rotation⟩ }
        else s1
      .ok { s2 with time_ := time }

/-- The body of the loop over the returns in `AddHorizontalRangeData`: one return `hit` of
the scan in the first tracking frame, whose origin is `origin`. -/
def AddHorizontalRangeData_insert (E : Ext Rot) (o : Options) (origin : Vec3)
    (acc : RangeData) (hit : Vec3) : RangeData :=
  let delta := Vec3.sub hit origin
  let range := E.norm delta
  if range ≥ o.min_range then
    if range ≤ o.max_range then
      { acc with returns := acc.returns ++ [hit] }
    else
      { acc with
        misses := acc.misses ++
          [Vec3.add origin (Vec3.smul (o.missing_data_ray_length / range) delta)] }
  else acc

/-- The loop over the returns in `AddHorizontalRangeData`. -/
def AddHorizontalRangeData_loop (E : Ext Rot) (o : Options)
    (range_data_in_first_tracking : RangeData) (acc : RangeData) : RangeData :=
  range_data_in_first_tracking.returns.foldl
    (AddHorizontalRangeData_insert E o range_data_in_first_tracking.origin) acc

/-- How the accumulating part of `AddHorizontalRangeData` ends: the scan was dropped for
lack of an IMU tracker, the batch is not complete yet, or the batch is complete and the
composite scan is handed to `AddAccumulatedRangeData`. -/
inductive Accumulation where
  | dropped
  | pending
  | complete (composite : RangeData)
deriving DecidableEq

/-- The transform `tracking_delta` of `AddHorizontalRangeData`, read in the state reached
after `Predict` and the reset of the first scan of a batch. -/
def tracking_delta {E : Ext Rot} (s : Builder E) : Rigid3d Rot :=
  s.first_pose_estimate_⁻¹ * s.pose_estimate_

/-- The first lines of `AddHorizontalRangeData`, up to and including the reset of the
accumulator at the first scan of a batch; `none` when the scan is dropped. -/
def AddHorizontalRangeData_begin (E : Ext Rot) (o : Options) (s : Builder E) (time : Time) :
    Except Abort (Option (Builder E)) :=
  let s0 := if ¬ o.use_imu_data then InitializeImuTracker E o s time else s
  match s0.imu_tracker_ with
  | none => .ok none
  | some _ =>
    match Predict E s0 time with
    | .error e => .error e
    | .ok s1 =>
      .ok (some
        (if s1.num_accumulated_ = 0 then
          { s1 with
            first_pose_estimate_ := s1.pose_estimate_
            accumulated_range_data_ := ⟨Vec3.Zero, [], []⟩ }
        else s1))

/-- `AddHorizontalRangeData` up to the call of `AddAccumulatedRangeData`: the state it
reaches and how the accumulation ended. -/
def AddHorizontalRangeData_accumulate (E : Ext Rot) (o : Options) (s : Builder E)
    (time : Time) (range_data : RangeData) : Except Abort (Builder E × Accumulation) :=
  match AddHorizontalRangeData_begin E o s time with
  | .error e => .error e
  | .ok none => .ok (s, .dropped)
  | .ok (some s2) =>
    let range_data_in_first_tracking := E.TransformRangeData range_data (tracking_delta s2)
    let s3 : Builder E :=
      { s2 with
        accumulated_range_data_ :=
          AddHorizontalRangeData_loop E o range_data_in_first_tracking
            s2.accumulated_range_data_
        num_accumulated_ := s2.num_accumulated_ + 1 }
    if s3.num_accumulated_ ≥ o.scans_per_accumulation then
      .ok ({ s3 with num_accumulated_ := 0 },
        .complete (E.TransformRangeData s3.accumulated_range_data_ (tracking_delta s2)⁻¹))
    else .ok (s3, .pending)

/-- `AddAccumulatedRangeData`, lines 214 to 221: the odometry state added after a scan
match, so that the correction is not removed by the next odometry data. -/
def AddAccumulatedRangeData_odometry_state {E : Ext Rot} (s : Builder E) (time : Time)
    (odometry_prediction : Rigid3d Rot) : Builder E :=
  match s.odometry_state_tracker_.newest with
  | some newest =>
    if s.mode_odo_first_choice_ = 0 then
      { s with
        odometry_state_tracker_ := s.odometry_state_tracker_.AddOdometryState
          ⟨time, newest.odometer_pose,
            newest.state_pose * odometry_prediction⁻¹ * s.pose_estimate_⟩ }
    else s
  | none => s

/-- `AddAccumulatedRangeData`, lines 224 to 235: the velocity estimate. -/
def AddAccumulatedRangeData_velocity (E : Ext Rot) (s : Builder E) (time : Time)
    (model_prediction : Rigid3d Rot) : Builder E :=
  if s.last_scan_match_time_ > Time_min ∧ time > s.last_scan_match_time_ ∧
      s.times_ ≠ 299 then
    let delta_t := E.ToSeconds (time - s.last_scan_match_time_)
    { s with
      velocity_estimate_ := Vec2.add s.velocity_estimate_
        (Vec2.div (Vec2.sub s.pose_estimate_.translation.head2
          model_prediction.translation.head2) delta_t)
      last_scan_match_time_ := s.time_ }
  else s

/-- `AddAccumulatedRangeData`, lines 237 to 248: the z component is removed and the last
pose estimate recorded. -/
def AddAccumulatedRangeData_pose (E : Ext Rot) (s : Builder E) (time : Time)
    (tracking_to_tracking_2d : Rigid3d Rot) (range_data_in_tracking_2d : RangeData) :
    Builder E :=
  let translation := s.pose_estimate_.translation
  let pose : Rigid3d Rot := ⟨⟨translation.x, translation.y, 0⟩, s.pose_estimate_.rotation⟩
  let tracking_2d_to_map := pose * tracking_to_tracking_2d⁻¹
  { s with
    pose_estimate_ := pose
    last_pose_estimate_ :=
      ⟨time, pose,
        E.TransformPointCloud range_data_in_tracking_2d.returns tracking_2d_to_map⟩ }

/-- `AddAccumulatedRangeData`, lines 250 to 276: the motion filter and the insertion into
the active submaps. -/
def AddAccumulatedRangeData_insert (E : Ext Rot) (s : Builder E) (time : Time)
    (tracking_to_tracking_2d : Rigid3d Rot) (range_data_in_tracking_2d : RangeData) :
    Builder E × Option (InsertionResult E) :=
  let tracking_2d_to_map := s.pose_estimate_ * tracking_to_tracking_2d⁻¹
  let pose_estimate_2d := E.Project2D tracking_2d_to_map
  let mf := E.MotionFilter_IsSimilar s.motion_filter_ time (E.Embed3D pose_estimate_2d)
  if mf.2 then ({ s with motion_filter_ := mf.1 }, none)
  else
    let insertion_submaps := E.submaps s.active_submaps_
    ({ s with
       motion_filter_ := mf.1
       active_submaps_ := E.InsertRangeData s.active_submaps_
         (E.TransformRangeData range_data_in_tracking_2d (E.Embed3D pose_estimate_2d)) },
      some ⟨time, insertion_submaps, tracking_to_tracking_2d, range_data_in_tracking_2d,
        pose_estimate_2d⟩)

/-- The transform `tracking_to_tracking_2d` of `AddAccumulatedRangeData`: the rotation of
the pose prediction without its yaw. -/
def tracking_to_tracking_2d (E : Ext Rot) (pose_prediction : Rigid3d Rot) : Rigid3d Rot :=
  E.Rotation
    (E.quat_mul (E.AngleAxisZ (-E.GetYawRigid pose_prediction)) pose_prediction.rotation)

/-- `LocalTrajectoryBuilder::AddAccumulatedRangeData`. -/
def AddAccumulatedRangeData (E : Ext Rot) (o : Options) (s : Builder E) (time : Time)
    (range_data : RangeData) : Except Abort (Builder E × Option (InsertionResult E)) :=
  let odometry_prediction := s.pose_estimate_ * s.odometry_correction_
  let model_prediction := s.pose_estimate_
  let pose_prediction := odometry_prediction
  let range_data_in_tracking_2d :=
    TransformAndFilterRangeData E o (tracking_to_tracking_2d E pose_prediction) range_data
  if range_data_in_tracking_2d.returns.isEmpty then .ok (s, none)
  else
    match ScanMatch E o s time pose_prediction (tracking_to_tracking_2d E pose_prediction)
        range_data_in_tracking_2d with
    | .error e => .error e
    | .ok s1 =>
      let s2 : Builder E := { s1 with odometry_correction_ := 1 }
      let s3 := AddAccumulatedRangeData_odometry_state s2 time odometry_prediction
      let s4 := AddAccumulatedRangeData_velocity E s3 time model_prediction
      let s5 := AddAccumulatedRangeData_pose E s4 time
        (tracking_to_tracking_2d E pose_prediction) range_data_in_tracking_2d
      .ok (AddAccumulatedRangeData_insert E s5 time
        (tracking_to_tracking_2d E pose_prediction) range_data_in_tracking_2d)

/-- `LocalTrajectoryBuilder::AddHorizontalRangeData`. -/
def AddHorizontalRangeData (E : Ext Rot) (o : Options) (s : Builder E) (time : Time)
    (range_data : RangeData) : Except Abort (Builder E × Option (InsertionResult E)) :=
  match AddHorizontalRangeData_accumulate E o s time range_data with
  | .error e => .error e
  | .ok (s1, .complete composite) => AddAccumulatedRangeData E o s1 time composite
  | .ok (s1, _) => .ok (s1, none)

/-- `LocalTrajectoryBuilder::pose_estimate`. -/
def pose_estimate {E : Ext Rot} (s : Builder E) : PoseEstimate Rot :=
  s.last_pose_estimate_

/-- `LocalTrajectoryBuilder::AddImuData`. -/
def AddImuData (E : Ext Rot) (o : Options) (s : Builder E) (time : Time)
    (linear_acceleration angular_velocity : Vec3) (orientiation : Rot) :
    Except Abort (Builder E) :=
  if ¬ o.use_imu_data then .error .check_use_imu_data
  else
    let s1 : Builder E :=
      match s.pose_tracker_ with
      | none => { s with pose_tracker_ := some (E.PoseTracker_new time) }
      | some _ => s
    let s2 := InitializeImuTracker E o s1 time
    match Predict E s2 time with
    | .error e => .error e
    | .ok s3 =>
      match s3.imu_tracker_, s3.pose_tracker_ with
      | some imu, some pt =>
        let s4 : Builder E := { s3 with real_time_orientiation_ := orientiation }
        let imu1 := E.ImuTracker_AddImuLinearAccelerationObservation imu linear_acceleration
          s4.real_time_orientiation_
        let imu2 := E.ImuTracker_AddImuAngularVelocityObservation imu1 angular_velocity
        let pt1 := E.PoseTracker_AddImuLinearAccelerationObservation pt time
          linear_acceleration s4.real_time_orientiation_
        let pt2 := E.PoseTracker_AddImuAngularVelocityObservation pt1 time angular_velocity
        .ok { s4 with imu_tracker_ := some imu2, pose_tracker_ := some pt2 }
      | _, _ => .error .undefined_behaviour

/-- `AddOdometerData`, lines 348 to 391: the odometry correction, computed when the
history is not empty. -/
def AddOdometerData_correction {E : Ext Rot} (s : Builder E)
    (odometer_pose odometer_pose_with_imu : Rigid3d Rot) : Builder E :=
  match s.odometry_state_tracker_.newest with
  | some previous_odometry_state =>
    let delta := previous_odometry_state.odometer_pose⁻¹ * odometer_pose_with_imu
    let new_pose := previous_odometry_state.state_pose * delta
    let transform_x := odometer_pose.translation.x - s.pose_estimate_.translation.x
    let transform_y := odometer_pose.translation.y - s.pose_estimate_.translation.y
    let dist := transform_x * transform_x + transform_y * transform_y
    let s1 : Builder E :=
      if dist > 5 then { s with mode_odo_first_choice_ := 1, times_ := 300 } else s
    if s1.times_ > 1 then
      { s1 with
        odometry_correction_ := s1.pose_estimate_⁻¹ * odometer_pose_with_imu
        times_ := s1.times_ - 1 }
    else
      { s1 with
        mode_odo_first_choice_ := 0
        odometry_correction_ := s1.pose_estimate_⁻¹ * new_pose }
  | none => s

/-- `AddOdometerData` after `Predict`, lines 336 to 393, for a builder whose trackers are
`imu` and `pt`. -/
def AddOdometerData_observe (E : Ext Rot) (s : Builder E) (imu : E.ImuTracker)
    (pt : E.PoseTracker) (time : Time) (odometer_pose : Rigid3d Rot) : Builder E :=
  let odometer_pose_with_imu : Rigid3d Rot :=
    ⟨odometer_pose.translation, E.ImuTracker_orientation imu⟩
  let pt1 := E.PoseTracker_AddPoseObservation pt time odometer_pose_with_imu
  let pt2 := E.PoseTracker_GetPoseEstimateMeanAndCovariance pt1 time
  let s2 : Builder E := { s with pose_tracker_ := some pt2 }
  let s5 := AddOdometerData_correction s2 odometer_pose odometer_pose_with_imu
  { s5 with
    odometry_state_tracker_ := s5.odometry_state_tracker_.AddOdometryState
      ⟨time, odometer_pose_with_imu, s5.pose_estimate_ * s5.odometry_correction_⟩ }

/-- `LocalTrajectoryBuilder::AddOdometerData`. -/
def AddOdometerData (E : Ext Rot) (s : Builder E) (time : Time)
    (odometer_pose : Rigid3d Rot) : Except Abort (Builder E) :=
  match s.imu_tracker_, s.pose_tracker_ with
  | none, _ => .ok s
  | some _, none => .ok s
  | some _, some _ =>
    match Predict E s time with
    | .error e => .error e
    | .ok s1 =>
      match s1.imu_tracker_, s1.pose_tracker_ with
      | some imu, some pt => .ok (AddOdometerData_observe E s1 imu pt time odometer_pose)
      | _, _ => .error .undefined_behaviour

/-- One call of the inbound sensor interface. -/
inductive Call (Rot : Type) where
  | imu (time : Time) (linear_acceleration angular_velocity : Vec3) (orientiation : Rot)
  | odometer (time : Time) (odometer_pose : Rigid3d Rot)
  | range (time : Time) (range_data : RangeData)

/-- The time argument of a call. -/
def Call.time {Rot : Type} : Call Rot → Time
  | .imu t _ _ _ => t
  | .odometer t _ => t
  | .range t _ => t

/-- The effect of one call: the new state and the insertion result, if any. -/
def step (E : Ext Rot) (o : Options) (s : Builder E) :
    Call Rot → Except Abort (Builder E × Option (InsertionResult E))
  | .imu t a w q =>
    match AddImuData E o s t a w q with
    | .error e => .error e
    | .ok s1 => .ok (s1, none)
  | .odometer t p =>
    match AddOdometerData E s t p with
    | .error e => .error e
    | .ok s1 => .ok (s1, none)
  | .range t rd => AddHorizontalRangeData E o s t rd

/-- A sequence of calls, stopped by the first abort: the final state and the insertion
results in the order they were emitted. -/
def run (E : Ext Rot) (o : Options) (s : Builder E) :
    List (Call Rot) → Except Abort (Builder E × List (InsertionResult E))
  | [] => .ok (s, [])
  | c :: cs =>
    match step E o s c with
    | .error e => .error e
    | .ok (s1, r) =>
      match run E o s1 cs with
      | .error e => .error e
      | .ok (s2, rs) => .ok (s2, r.toList ++ rs)

end Model

/-! ## A concrete instance of the collaborators

Rotations are the four quarter turns about the vertical axis, so that rigid transforms form
a group that is not commutative and every function can be evaluated. -/

/-- A rotation about the z axis by a multiple of a quarter turn. -/
abbrev QuarterTurn := Fin 4

/-- The action of a quarter turn on a vector. -/
def rotZ (k : QuarterTurn) (v : Vec3) : Vec3 :=
  match k with
  | 0 => v
  | 1 => ⟨-v.y, v.x, v.z⟩
  | 2 => ⟨-v.x, -v.y, v.z⟩
  | 3 => ⟨v.y, -v.x, v.z⟩

/-- The image of a point under a rigid transform. -/
def Rigid3d.apply (t : Rigid3d QuarterTurn) (v : Vec3) : Vec3 :=
  Vec3.add (rotZ t.rotation v) t.translation

/-- Composition of rigid transforms. -/
def Rigid3d.comp (a b : Rigid3d QuarterTurn) : Rigid3d QuarterTurn :=
  ⟨a.apply b.translation, a.rotation + b.rotation⟩

/-- The inverse of a rigid transform. -/
def Rigid3d.inverse (a : Rigid3d QuarterTurn) : Rigid3d QuarterTurn :=
  ⟨Vec3.smul (-1) (rotZ (-a.rotation) a.translation), -a.rotation⟩

/-- The identity transform. -/
def Rigid3d.Identity : Rigid3d QuarterTurn := ⟨Vec3.Zero, 0⟩

instance : Mul (Rigid3d QuarterTurn) := ⟨Rigid3d.comp⟩

instance : One (Rigid3d QuarterTurn) := ⟨Rigid3d.Identity⟩

instance : Inv (Rigid3d QuarterTurn) := ⟨Rigid3d.inverse⟩

instance : Group (Rigid3d QuarterTurn) :=
  Group.ofLeftAxioms
    (by
      rintro ⟨⟨ax, ay, az⟩, ar⟩ ⟨⟨bx, by_, bz⟩, br⟩ ⟨⟨cx, cy, cz⟩, cr⟩
      show Rigid3d.comp (Rigid3d.comp _ _) _ = Rigid3d.comp _ (Rigid3d.comp _ _)
      simp only [Rigid3d.comp, Rigid3d.apply, Rigid3d.mk.injEq]
      refine ⟨?_, add_assoc _ _ _⟩
      fin_cases ar <;> fin_cases br <;>
        simp [rotZ, Vec3.add] <;> (repeat' constructor) <;> ring)
    (by
      rintro ⟨⟨ax, ay, az⟩, ar⟩
      show Rigid3d.comp Rigid3d.Identity _ = _
      simp [Rigid3d.comp, Rigid3d.Identity, Rigid3d.apply, rotZ, Vec3.add, Vec3.Zero])
    (by
      rintro ⟨⟨ax, ay, az⟩, ar⟩
      show Rigid3d.comp (Rigid3d.inverse _) _ = Rigid3d.Identity
      simp only [Rigid3d.comp, Rigid3d.inverse, Rigid3d.Identity, Rigid3d.apply,
        Rigid3d.mk.injEq]
      refine ⟨?_, neg_add_cancel _⟩
      fin_cases ar <;> simp [rotZ, Vec3.add, Vec3.smul, Vec3.Zero])

/-- A concrete choice of collaborators.  The scan matchers return the prediction and count
their invocations; the motion filter remembers the last pose it let through; a submap is
the list of returns inserted into it. -/
def demoExt : Ext QuarterTurn where
  Rigid2d := Rigid3d QuarterTurn
  ImuTracker := Time × QuarterTurn
  PoseTracker := Nat
  MotionFilter := Option (Rigid3d QuarterTurn)
  ActiveSubmaps := List Vec3 × List Vec3
  Submap := List Vec3
  ProbabilityGrid := List Vec3
  RealTimeCorrelativeScanMatcher := Nat
  CeresScanMatcher := Nat
  norm := fun v => Rat.sqrt (v.x * v.x + v.y * v.y + v.z * v.z)
  Quaterniond_1000 := 0
  quat_mul := fun a b => a + b
  AngleAxisZ := fun a => Fin.ofNat (Int.toNat (Int.emod (Rat.floor a) 4))
  GetYaw := fun q => (q.val : ℚ)
  GetYawRigid := fun t => (t.rotation.val : ℚ)
  Rotation := fun q => ⟨Vec3.Zero, q⟩
  Project2D := fun t => ⟨⟨t.translation.x, t.translation.y, 0⟩, t.rotation⟩
  Embed3D := fun t => t
  ToSeconds := fun d => (d : ℚ)
  TransformRangeData := fun rd t =>
    ⟨t.apply rd.origin, rd.returns.map t.apply, rd.misses.map t.apply⟩
  TransformPointCloud := fun pc t => pc.map t.apply
  CropRangeData := fun rd lo hi =>
    ⟨rd.origin, rd.returns.filter (fun p => decide (lo ≤ p.z ∧ p.z ≤ hi)),
      rd.misses.filter (fun p => decide (lo ≤ p.z ∧ p.z ≤ hi))⟩
  VoxelFiltered := fun pc _ => pc
  ImuTracker_new := fun _ t => (t, 0)
  ImuTracker_Advance := fun imu t => (t, imu.2)
  ImuTracker_orientation := fun imu => imu.2
  ImuTracker_AddImuLinearAccelerationObservation := fun imu _ q => (imu.1, q)
  ImuTracker_AddImuAngularVelocityObservation := fun imu _ => imu
  PoseTracker_new := fun _ => 0
  PoseTracker_AddPoseObservation := fun pt _ _ => pt + 1
  PoseTracker_GetPoseEstimateMeanAndCovariance := fun pt _ => pt
  PoseTracker_AddImuLinearAccelerationObservation := fun pt _ _ _ => pt
  PoseTracker_AddImuAngularVelocityObservation := fun pt _ _ => pt
  RealTime_Match := fun m _ _ _ init => (m + 1, 0, init)
  Ceres_Match := fun m _ init _ _ => (m + 1, init)
  MotionFilter_IsSimilar := fun mf _ pose =>
    if mf = some pose then (mf, true) else (some pose, false)
  submaps := fun a => [a.1, a.2]
  probability_grid := fun sm => sm
  InsertRangeData := fun a rd => (a.1 ++ rd.returns, a.2 ++ rd.returns)
  ActiveSubmaps_new := ([], [])
  MotionFilter_new := none
  RealTime_new := 0
  Ceres_new := 0

/-- Options for the concrete runs: no IMU, ranges between 1 and 10, misses at 5, one scan
per accumulation. -/
def demoOptions : Options where
  use_imu_data := false
  imu_gravity_time_constant := 10
  min_range := 1
  max_range := 10
  missing_data_ray_length := 5
  scans_per_accumulation := 1
  voxel_filter_size := 1 / 20
  min_z := -1
  max_z := 2
  use_online_correlative_scan_matching := true
  num_odometry_states := 1000

/-- The options of the concrete runs with the IMU enabled. -/
def demoImuOptions : Options := { demoOptions with use_imu_data := true }

/-- A scan at the origin with returns at ranges 12, 5 and 1/2. -/
def demoScan : RangeData := ⟨Vec3.Zero, [⟨12, 0, 0⟩, ⟨3, 4, 0⟩, ⟨1 / 2, 0, 0⟩], []⟩

/-- A scan without returns. -/
def emptyScan : RangeData := ⟨Vec3.Zero, [], []⟩

/-- One IMU sample at time 0, then the odometer at the origin at time 1 and one metre
further along x at time 2. -/
def demoOdometryCalls : List (Call QuarterTurn) :=
  [.imu 0 ⟨0, 0, 0⟩ ⟨0, 0, 0⟩ 0, .odometer 1 ⟨⟨0, 0, 0⟩, 0⟩, .odometer 2 ⟨⟨1, 0, 0⟩, 0⟩]

/-- The state a fresh builder reaches through `demoOdometryCalls`. -/
def demoAfterOdometry : Builder demoExt :=
  match run demoExt demoImuOptions (Builder.fresh demoExt demoImuOptions 0)
      demoOdometryCalls with
  | .ok (s, _) => s
  | .error _ => Builder.fresh demoExt demoImuOptions 0

/-- The state a fresh builder without IMU reaches through one scan at time 10. -/
def demoAfterScan : Builder demoExt :=
  match run demoExt demoOptions (Builder.fresh demoExt demoOptions 0)
      [.range 10 demoScan] with
  | .ok (s, _) => s
  | .error _ => Builder.fresh demoExt demoOptions 0

/-- Whether a call is dropped by the guards at the head of its operation: an odometer
sample when the IMU tracker or the pose tracker is not set, a scan when the IMU is enabled
and the IMU tracker is not set.  An IMU sample is never dropped. -/
def dropped {Rot : Type} {E : Ext Rot} (o : Options) (s : Builder E) : Call Rot → Bool
  | .imu _ _ _ _ => false
  | .odometer _ _ => s.imu_tracker_.isNone || s.pose_tracker_.isNone
  | .range _ _ => o.use_imu_data && s.imu_tracker_.isNone

/-- An IMU sample, the odometer at the origin, a scan, the odometer one metre further, and
a second scan. -/
def demoMixedCalls : List (Call QuarterTurn) :=
  [.imu 0 ⟨0, 0, 0⟩ ⟨0, 0, 0⟩ 0, .odometer 1 ⟨⟨0, 0, 0⟩, 0⟩, .range 2 demoScan,
    .odometer 3 ⟨⟨1, 0, 0⟩, 0⟩, .range 4 demoScan]

/-- A scan whose only return lies above the crop window of `demoOptions`. -/
def highScan : RangeData := ⟨Vec3.Zero, [⟨3, 4, 5⟩], []⟩

/-- The options of the concrete runs without IMU, with two scans per accumulation. -/
def demoPairOptions : Options := { demoOptions with scans_per_accumulation := 2 }

/-- The state a fresh builder reaches through one scan, two scans making a batch. -/
def demoAfterFirstOfPair : Builder demoExt :=
  match run demoExt demoPairOptions (Builder.fresh demoExt demoPairOptions 0)
      [.range 1 demoScan] with
  | .ok (s, _) => s
  | .error _ => Builder.fresh demoExt demoPairOptions 0

/-- The calls of `demoOdometryCalls` followed by an odometer sample four metres from the
pose estimate. -/
def demoTriggerCalls : List (Call QuarterTurn) :=
  demoOdometryCalls ++ [.odometer 3 ⟨⟨4, 0, 0⟩, 0⟩]

/-- The state a fresh builder reaches through `demoTriggerCalls`. -/
def demoAfterTrigger : Builder demoExt :=
  match run demoExt demoImuOptions (Builder.fresh demoExt demoImuOptions 0)
      demoTriggerCalls with
  | .ok (s, _) => s
  | .error _ => Builder.fresh demoExt demoImuOptions 0

/-- Whether a call is an odometer sample. -/
def isOdometer {Rot : Type} : Call Rot → Bool
  | .odometer _ _ => true
  | _ => false

/-- Two scans with two odometer samples between them, the second of them earlier than the
time cursor. -/
def demoNoImuCalls : List (Call QuarterTurn) :=
  [.range 10 demoScan, .odometer 11 ⟨⟨7, 0, 0⟩, 0⟩, .odometer 5 ⟨⟨9, 0, 0⟩, 1⟩,
    .range 12 demoScan]

/-- Whether a call returned (did not abort). -/
def succeeded {α : Type} : Except Abort α → Bool
  | .ok _ => true
  | .error _ => false

/-- The value a call returned, if it returned. -/
def returned {α : Type} : Except Abort α → Option α
  | .ok a => some a
  | .error _ => none

/-- The state in which a scan is accumulated, if the call returned and did not drop it. -/
def begun {α : Type} : Except Abort (Option α) → Option α
  | .ok (some a) => some a
  | _ => none

/-- What `AddHorizontalRangeData` did with a scan that it accumulated: the scan in the
first tracking frame, the transform `tracking_delta`, how the accumulation ended, the time
of the call, the builder at the end of the accumulating part (the one in which
`AddAccumulatedRangeData` runs when the batch is full), and what the call returned. -/
structure Accumulated {Rot : Type} (E : Ext Rot) where
  scan : RangeData
  delta : Rigid3d Rot
  outcome : Accumulation
  time : Time
  state : Builder E
  result : Except Abort (Builder E × Option (InsertionResult E))

/-- The record of a call, when the call is a scan that is accumulated: a call of
`AddHorizontalRangeData` that is not dropped and reaches the end of the accumulating part.
The field `result` is what the call itself returns. -/
def accumulated {Rot : Type} [Mul (Rigid3d Rot)] [Inv (Rigid3d Rot)] [One (Rigid3d Rot)]
    (E : Ext Rot) (o : Options) (s : Builder E) : Call Rot → Option (Accumulated E)
  | .range t rd =>
    match AddHorizontalRangeData_begin E o s t,
      AddHorizontalRangeData_accumulate E o s t rd with
    | .ok (some s0), .ok (s2, a) =>
      some ⟨E.TransformRangeData rd (tracking_delta s0), tracking_delta s0, a, t, s2,
        AddHorizontalRangeData E o s t rd⟩
    | _, _ => none
  | _ => none

/-- The records of the scans accumulated during a run, in order. -/
def accumulations {Rot : Type} [Mul (Rigid3d Rot)] [Inv (Rigid3d Rot)] [One (Rigid3d Rot)]
    (E : Ext Rot) (o : Options) : Builder E → List (Call Rot) → List (Accumulated E)
  | _, [] => []
  | s, c :: cs =>
    match step E o s c with
    | .error _ => []
    | .ok (s1, _) => (accumulated E o s c).toList ++ accumulations E o s1 cs

/-- The returns of a scan that the range policy keeps as returns. -/
def acceptedReturns {Rot : Type} (E : Ext Rot) (o : Options) (scan : RangeData) :
    List Vec3 :=
  scan.returns.filter (fun p =>
    decide (o.min_range ≤ E.norm (Vec3.sub p scan.origin) ∧
      E.norm (Vec3.sub p scan.origin) ≤ o.max_range))

/-- The synthetic miss that replaces a return `p` beyond the maximum range: the point at
distance `missing_data_ray_length` from the origin on the ray towards `p`. -/
def syntheticMiss (o : Options) (norm : Vec3 → ℚ) (origin p : Vec3) : Vec3 :=
  Vec3.add origin (Vec3.smul (o.missing_data_ray_length / norm (Vec3.sub p origin))
    (Vec3.sub p origin))

/-- The misses that the range policy makes of the returns of a scan beyond the maximum
range. -/
def convertedMisses {Rot : Type} (E : Ext Rot) (o : Options) (scan : RangeData) :
    List Vec3 :=
  (scan.returns.filter (fun p =>
    decide (o.min_range ≤ E.norm (Vec3.sub p scan.origin) ∧
      o.max_range < E.norm (Vec3.sub p scan.origin)))).map
    (syntheticMiss o E.norm scan.origin)

/-- The composite of a batch of scans given in the first tracking frame: its origin is
zero, its returns are the accepted returns of the scans of the batch, in order, and its
misses the misses made of their returns beyond the maximum range. -/
def composite {Rot : Type} (E : Ext Rot) (o : Options) (batch : List RangeData) :
    RangeData :=
  ⟨Vec3.Zero, batch.flatMap (acceptedReturns E o), batch.flatMap (convertedMisses E o)⟩

/-! ## Theorems -/

set_option linter.unusedSectionVars false

section Lemmas

variable {Rot : Type} [Mul (Rigid3d Rot)] [Inv (Rigid3d Rot)] [One (Rigid3d Rot)]

theorem returned_isSome {α : Type} (x : Except Abort α) (h : (returned x).isSome = true) :
    ∃ a, x = .ok a := by
  cases x <;> simp_all [returned]

theorem begun_isSome {α : Type} (x : Except Abort (Option α))
    (h : (begun x).isSome = true) : ∃ a, x = .ok (some a) := by
  rcases x with e | (_ | b) <;> simp_all [begun]

/-- The loop over the returns appends the returns in the band to the returns, one synthetic
miss for each return beyond the band to the misses, and nothing else. -/
theorem loop_foldl (E : Ext Rot) (o : Options) (origin : Vec3) (pts : List Vec3)
    (acc : RangeData) :
    pts.foldl (AddHorizontalRangeData_insert E o origin) acc =
      { origin := acc.origin
        returns := acc.returns ++ pts.filter (fun p =>
          decide (o.min_range ≤ E.norm (Vec3.sub p origin) ∧
            E.norm (Vec3.sub p origin) ≤ o.max_range))
        misses := acc.misses ++ (pts.filter (fun p =>
          decide (o.min_range ≤ E.norm (Vec3.sub p origin) ∧
            o.max_range < E.norm (Vec3.sub p origin)))).map
              (syntheticMiss o E.norm origin) } := by
  induction pts generalizing acc with
  | nil => simp
  | cons p ps ih =>
    rw [List.foldl_cons, ih]
    by_cases h1 : o.min_range ≤ E.norm (Vec3.sub p origin)
    · by_cases h2 : E.norm (Vec3.sub p origin) ≤ o.max_range
      · simp [AddHorizontalRangeData_insert, h1, h2, not_lt.mpr h2]
      · simp [AddHorizontalRangeData_insert, h1, h2, not_le.mp h2, syntheticMiss]
    · simp [AddHorizontalRangeData_insert, h1]

/-- What `ScanMatch` leaves alone: everything but the two matchers and the pose. -/
theorem ScanMatch_eq (E : Ext Rot) (o : Options) (s s1 : Builder E) (time : Time)
    (pp tt : Rigid3d Rot) (rd : RangeData) (h : ScanMatch E o s time pp tt rd = .ok s1) :
    ∃ rt cm pe, s1 = { s with real_time_correlative_scan_matcher_ := rt,
                               ceres_scan_matcher_ := cm, pose_estimate_ := pe } := by
  unfold ScanMatch at h
  split at h
  · cases h
  · simp only [Except.ok.injEq] at h
    exact ⟨_, _, _, h.symm⟩

theorem AddAccumulatedRangeData_odometry_state_nf {E : Ext Rot} (s : Builder E)
    (time : Time) (op : Rigid3d Rot) :
    AddAccumulatedRangeData_odometry_state s time op =
      { s with odometry_state_tracker_ :=
          (AddAccumulatedRangeData_odometry_state s time op).odometry_state_tracker_ } := by
  unfold AddAccumulatedRangeData_odometry_state
  split
  · split <;> rfl
  · rfl

theorem AddAccumulatedRangeData_velocity_nf (E : Ext Rot) (s : Builder E) (time : Time)
    (mp : Rigid3d Rot) :
    AddAccumulatedRangeData_velocity E s time mp =
      { s with
        velocity_estimate_ := (AddAccumulatedRangeData_velocity E s time mp).velocity_estimate_
        last_scan_match_time_ :=
          (AddAccumulatedRangeData_velocity E s time mp).last_scan_match_time_ } := by
  unfold AddAccumulatedRangeData_velocity
  split <;> rfl

theorem AddAccumulatedRangeData_insert_nf (E : Ext Rot) (s : Builder E) (time : Time)
    (tt : Rigid3d Rot) (rd : RangeData) :
    (AddAccumulatedRangeData_insert E s time tt rd).1 =
      { s with
        motion_filter_ := (AddAccumulatedRangeData_insert E s time tt rd).1.motion_filter_
        active_submaps_ := (AddAccumulatedRangeData_insert E s time tt rd).1.active_submaps_ } := by
  unfold AddAccumulatedRangeData_insert
  simp only
  split <;> rfl

/-- The two ways `AddAccumulatedRangeData` returns: with the state untouched when the
filtered returns are empty, or through the scan match and the four blocks after it. -/
theorem AddAccumulatedRangeData_cases (E : Ext Rot) (o : Options) (s s1 : Builder E)
    (time : Time) (rd : RangeData) (res : Option (InsertionResult E))
    (h : AddAccumulatedRangeData E o s time rd = .ok (s1, res)) :
    ((TransformAndFilterRangeData E o
        (tracking_to_tracking_2d E (s.pose_estimate_ * s.odometry_correction_)) rd).returns = [] ∧
      s1 = s ∧ res = none) ∨
    ((TransformAndFilterRangeData E o
        (tracking_to_tracking_2d E (s.pose_estimate_ * s.odometry_correction_)) rd).returns ≠ [] ∧
      ∃ sm, ScanMatch E o s time (s.pose_estimate_ * s.odometry_correction_)
          (tracking_to_tracking_2d E (s.pose_estimate_ * s.odometry_correction_))
          (TransformAndFilterRangeData E o
            (tracking_to_tracking_2d E (s.pose_estimate_ * s.odometry_correction_)) rd) = .ok sm ∧
        (s1, res) = AddAccumulatedRangeData_insert E
          (AddAccumulatedRangeData_pose E
            (AddAccumulatedRangeData_velocity E
              (AddAccumulatedRangeData_odometry_state { sm with odometry_correction_ := 1 } time
                (s.pose_estimate_ * s.odometry_correction_))
              time s.pose_estimate_)
            time (tracking_to_tracking_2d E (s.pose_estimate_ * s.odometry_correction_))
            (TransformAndFilterRangeData E o
              (tracking_to_tracking_2d E (s.pose_estimate_ * s.odometry_correction_)) rd))
          time (tracking_to_tracking_2d E (s.pose_estimate_ * s.odometry_correction_))
          (TransformAndFilterRangeData E o
            (tracking_to_tracking_2d E (s.pose_estimate_ * s.odometry_correction_)) rd)) := by
  unfold AddAccumulatedRangeData at h
  simp only at h
  split at h
  · rename_i he
    simp only [Except.ok.injEq, Prod.mk.injEq] at h
    exact Or.inl ⟨List.isEmpty_iff.mp he, h.1.symm, h.2.symm⟩
  · rename_i he
    split at h
    · cases h
    · rename_i sm hsm
      simp only [Except.ok.injEq] at h
      exact Or.inr ⟨fun hn => he (List.isEmpty_iff.mpr hn), sm, hsm, h.symm⟩

/-- The members `AddAccumulatedRangeData` never writes. -/
theorem AddAccumulatedRangeData_frame (E : Ext Rot) (o : Options) (s s1 : Builder E)
    (time : Time) (rd : RangeData) (res : Option (InsertionResult E))
    (h : AddAccumulatedRangeData E o s time rd = .ok (s1, res)) :
    s1.time_ = s.time_ ∧ s1.imu_tracker_ = s.imu_tracker_ ∧
    s1.pose_tracker_ = s.pose_tracker_ ∧ s1.num_accumulated_ = s.num_accumulated_ ∧
    s1.first_pose_estimate_ = s.first_pose_estimate_ ∧
    s1.accumulated_range_data_ = s.accumulated_range_data_ ∧
    s1.real_time_orientiation_ = s.real_time_orientiation_ ∧
    s1.times_ = s.times_ ∧ s1.mode_odo_first_choice_ = s.mode_odo_first_choice_ := by
  rcases AddAccumulatedRangeData_cases E o s s1 time rd res h with ⟨_, rfl, _⟩ | ⟨_, sm, hsm, h1⟩
  · simp
  · obtain ⟨rt, cm, pe, rfl⟩ := ScanMatch_eq E o _ _ _ _ _ _ hsm
    have h2 := congrArg Prod.fst h1
    simp only at h2
    subst h2
    rw [AddAccumulatedRangeData_insert_nf]
    simp only [AddAccumulatedRangeData_pose]
    rw [AddAccumulatedRangeData_velocity_nf]
    simp only
    rw [AddAccumulatedRangeData_odometry_state_nf]
    simp

theorem InitializeImuTracker_eq (E : Ext Rot) (o : Options) (s : Builder E) (time : Time) :
    InitializeImuTracker E o s time =
      { s with
        imu_tracker_ := some
          (s.imu_tracker_.getD (E.ImuTracker_new o.imu_gravity_time_constant time)) } := by
  unfold InitializeImuTracker
  split
  · rename_i h; simp [h]
  · rename_i imu h
    cases s
    simp only at h
    subst h
    rfl

theorem InitializeImuTracker_isSome (E : Ext Rot) (o : Options) (s : Builder E)
    (time : Time) : (InitializeImuTracker E o s time).imu_tracker_ ≠ none := by
  unfold InitializeImuTracker
  split
  · simp
  · rename_i h; simp [h]

/-- What a returning `Predict` does: the checks passed, the IMU tracker advanced, the pose
extrapolated when the time cursor was set, and the cursor moved to `time`. -/
theorem Predict_ok (E : Ext Rot) (s s1 : Builder E) (time : Time)
    (h : Predict E s time = .ok s1) :
    ∃ imu, s.imu_tracker_ = some imu ∧ s.time_ ≤ time ∧
      s1 = { s with
             imu_tracker_ := some (E.ImuTracker_Advance imu time)
             pose_estimate_ :=
               if s.time_ > Time_min then
                 ⟨Vec3.add s.pose_estimate_.translation
                    (Vec3.smul (E.ToSeconds (time - s.time_))
                      ⟨s.velocity_estimate_.x, s.velocity_estimate_.y, 0⟩),
                  E.quat_mul
                    (E.AngleAxisZ (E.GetYaw s.pose_estimate_.rotation -
                      E.GetYaw (E.ImuTracker_orientation imu)))
                    (E.ImuTracker_orientation (E.ImuTracker_Advance imu time))⟩
               else s.pose_estimate_
             time_ := time } := by
  unfold Predict at h
  split at h
  · cases h
  · rename_i imu himu
    split at h
    · cases h
    · rename_i hle
      simp only [Except.ok.injEq] at h
      refine ⟨imu, himu, not_not.mp hle, ?_⟩
      subst h
      split <;> rfl

/-- `Predict` fails exactly on a null IMU tracker or a time before the cursor. -/
theorem Predict_error (E : Ext Rot) (s : Builder E) (time : Time) (e : Abort)
    (h : Predict E s time = .error e) :
    (s.imu_tracker_ = none ∧ e = .check_imu_tracker) ∨
    (s.imu_tracker_ ≠ none ∧ time < s.time_ ∧ e = .check_time_le) := by
  unfold Predict at h
  split at h
  · rename_i himu
    simp only [Except.error.injEq] at h
    exact Or.inl ⟨himu, h.symm⟩
  · rename_i imu himu
    split at h
    · rename_i hle
      simp only [Except.error.injEq] at h
      exact Or.inr ⟨by simp [himu], not_le.mp hle, h.symm⟩
    · cases h

/-- `Predict` returns when the IMU tracker is set and the time is not before the cursor. -/
theorem Predict_succeeds (E : Ext Rot) (s : Builder E) (time : Time)
    (himu : s.imu_tracker_ ≠ none) (hle : s.time_ ≤ time) :
    ∃ s1, Predict E s time = .ok s1 := by
  unfold Predict
  split
  · rename_i h0; exact absurd h0 himu
  · simp [hle]

/-- The state `AddHorizontalRangeData` calls `Predict` in: the IMU tracker is created when
the IMU is disabled. -/
theorem AddHorizontalRangeData_initialized (E : Ext Rot) (o : Options) (s : Builder E)
    (time : Time) :
    (if ¬ o.use_imu_data = true then InitializeImuTracker E o s time else s) =
      { s with
        imu_tracker_ :=
          if o.use_imu_data = true then s.imu_tracker_
          else some
            (s.imu_tracker_.getD (E.ImuTracker_new o.imu_gravity_time_constant time)) } := by
  by_cases hu : o.use_imu_data = true
  · simp [hu]
  · simp [hu, InitializeImuTracker_eq]

/-- The accumulating part of `AddHorizontalRangeData` on a scan that is not dropped. -/
theorem AddHorizontalRangeData_begin_ok (E : Ext Rot) (o : Options) (s s0 : Builder E)
    (time : Time) (h : AddHorizontalRangeData_begin E o s time = .ok (some s0)) :
    ∃ sp, Predict E
        { s with
          imu_tracker_ :=
            if o.use_imu_data = true then s.imu_tracker_
            else some
              (s.imu_tracker_.getD (E.ImuTracker_new o.imu_gravity_time_constant time)) }
        time = .ok sp ∧
      s0 = (if sp.num_accumulated_ = 0 then
          { sp with
            first_pose_estimate_ := sp.pose_estimate_
            accumulated_range_data_ := ⟨Vec3.Zero, [], []⟩ }
        else sp) := by
  unfold AddHorizontalRangeData_begin at h
  simp only [AddHorizontalRangeData_initialized] at h
  split at h
  · cases h
  · split at h
    · cases h
    · rename_i sp hp
      simp only [Except.ok.injEq, Option.some.injEq] at h
      exact ⟨sp, hp, h.symm⟩

/-- The accumulating part of `AddHorizontalRangeData` once the scan is known not to be
dropped: the returns are inserted, the counter incremented, and the batch handed over when
the counter reaches `scans_per_accumulation`. -/
theorem AddHorizontalRangeData_accumulate_of_begin (E : Ext Rot) (o : Options)
    (s s0 : Builder E) (time : Time) (rd : RangeData)
    (h : AddHorizontalRangeData_begin E o s time = .ok (some s0)) :
    AddHorizontalRangeData_accumulate E o s time rd =
      .ok (if s0.num_accumulated_ + 1 ≥ o.scans_per_accumulation then
          ({ s0 with
             accumulated_range_data_ := AddHorizontalRangeData_loop E o
               (E.TransformRangeData rd (tracking_delta s0)) s0.accumulated_range_data_
             num_accumulated_ := 0 },
            Accumulation.complete (E.TransformRangeData
              (AddHorizontalRangeData_loop E o (E.TransformRangeData rd (tracking_delta s0))
                s0.accumulated_range_data_) (tracking_delta s0)⁻¹))
        else
          ({ s0 with
             accumulated_range_data_ := AddHorizontalRangeData_loop E o
               (E.TransformRangeData rd (tracking_delta s0)) s0.accumulated_range_data_
             num_accumulated_ := s0.num_accumulated_ + 1 }, Accumulation.pending)) := by
  unfold AddHorizontalRangeData_accumulate
  rw [h]
  simp only
  split <;> rfl

/-- The accumulator after a call of `AddHorizontalRangeData` that did not drop the scan. -/
theorem AddHorizontalRangeData_accumulated (E : Ext Rot) (o : Options)
    (s s0 s1 : Builder E) (time : Time) (rd : RangeData) (res : Option (InsertionResult E))
    (hbegin : AddHorizontalRangeData_begin E o s time = .ok (some s0))
    (hcall : AddHorizontalRangeData E o s time rd = .ok (s1, res)) :
    s1.accumulated_range_data_ = AddHorizontalRangeData_loop E o
      (E.TransformRangeData rd (tracking_delta s0)) s0.accumulated_range_data_ := by
  unfold AddHorizontalRangeData at hcall
  rw [AddHorizontalRangeData_accumulate_of_begin E o s s0 time rd hbegin] at hcall
  by_cases hN : s0.num_accumulated_ + 1 ≥ o.scans_per_accumulation
  · rw [if_pos hN] at hcall
    simp only at hcall
    have := (AddAccumulatedRangeData_frame E o _ s1 time _ res hcall).2.2.2.2.2.1
    rw [this]
  · rw [if_neg hN] at hcall
    simp only [Except.ok.injEq, Prod.mk.injEq] at hcall
    rw [← hcall.1]

/-- The accumulator before the returns of a scan are inserted: empty at the first scan of a
batch, what it was otherwise. -/
theorem AddHorizontalRangeData_begin_accumulated (E : Ext Rot) (o : Options)
    (s s0 : Builder E) (time : Time)
    (h : AddHorizontalRangeData_begin E o s time = .ok (some s0)) :
    s0.accumulated_range_data_ =
        (if s.num_accumulated_ = 0 then ⟨Vec3.Zero, [], []⟩ else s.accumulated_range_data_) ∧
      s0.num_accumulated_ = s.num_accumulated_ := by
  obtain ⟨sp, hp, rfl⟩ := AddHorizontalRangeData_begin_ok E o s s0 time h
  obtain ⟨imu, _, _, rfl⟩ := Predict_ok E _ sp time hp
  clear hp h
  by_cases hn : s.num_accumulated_ = 0 <;> simp [hn]

/-- `Predict` aborts on `CHECK_LE(time_, time)` when the IMU tracker is set and the time
is before the cursor. -/
theorem Predict_before_cursor (E : Ext Rot) (s : Builder E) (time : Time)
    (himu : s.imu_tracker_ ≠ none) (hlt : time < s.time_) :
    Predict E s time = .error .check_time_le := by
  unfold Predict
  split
  · rename_i h0; exact absurd h0 himu
  · simp [not_le.mpr hlt]

/-- The first lines of `AddHorizontalRangeData` for a time before the cursor. -/
theorem AddHorizontalRangeData_begin_before_cursor (E : Ext Rot) (o : Options)
    (s : Builder E) (time : Time) (h : time < s.time_) :
    AddHorizontalRangeData_begin E o s time =
      if o.use_imu_data = true ∧ s.imu_tracker_.isSome = false then .ok none
      else .error Abort.check_time_le := by
  unfold AddHorizontalRangeData_begin
  by_cases hu : o.use_imu_data = true
  · have hs : (if ¬ o.use_imu_data = true then InitializeImuTracker E o s time else s) = s := by
      simp [hu]
    simp only [hs]
    cases himu : s.imu_tracker_ with
    | none => simp [hu]
    | some imu =>
      simp only
      rw [Predict_before_cursor E s time (by simp [himu]) h]
      simp
  · have hs : (if ¬ o.use_imu_data = true then InitializeImuTracker E o s time else s) =
        InitializeImuTracker E o s time := by simp [hu]
    simp only [hs]
    have hi := InitializeImuTracker_isSome E o s time
    have hp : Predict E (InitializeImuTracker E o s time) time = .error .check_time_le := by
      apply Predict_before_cursor _ _ _ hi
      rw [InitializeImuTracker_eq]
      exact h
    cases h0 : (InitializeImuTracker E o s time).imu_tracker_ with
    | none => exact absurd h0 hi
    | some imu =>
      simp only
      rw [hp]
      simp [hu]

/-- A returning `AddImuData`: the IMU is enabled, `Predict` returned, and the observations
went to the two trackers. -/
theorem AddImuData_ok (E : Ext Rot) (o : Options) (s s1 : Builder E) (time : Time)
    (a w : Vec3) (q : Rot) (h : AddImuData E o s time a w q = .ok s1) :
    o.use_imu_data = true ∧
    ∃ sp imu pt, Predict E (InitializeImuTracker E o
        { s with pose_tracker_ := some (s.pose_tracker_.getD (E.PoseTracker_new time)) }
        time) time = .ok sp ∧
      s1 = { sp with real_time_orientiation_ := q, imu_tracker_ := some imu,
                     pose_tracker_ := some pt } := by
  unfold AddImuData at h
  split at h
  · cases h
  · rename_i hu
    have hs : (match s.pose_tracker_ with
        | none => { s with pose_tracker_ := some (E.PoseTracker_new time) }
        | some _ => s) =
        { s with pose_tracker_ := some (s.pose_tracker_.getD (E.PoseTracker_new time)) } := by
      split
      · rename_i h0; simp [h0]
      · rename_i pt h0
        cases s
        simp only at h0
        subst h0
        rfl
    simp only [hs] at h
    split at h
    · cases h
    · rename_i sp hp
      split at h
      · simp only [Except.ok.injEq] at h
        exact ⟨not_not.mp hu, sp, _, _, hp, h.symm⟩
      · cases h

/-- A returning `AddOdometerData`: the sample was dropped, or `Predict` returned and the
observation was processed. -/
theorem AddOdometerData_ok (E : Ext Rot) (s s1 : Builder E) (time : Time)
    (p : Rigid3d Rot) (h : AddOdometerData E s time p = .ok s1) :
    ((s.imu_tracker_ = none ∨ s.pose_tracker_ = none) ∧ s1 = s) ∨
    (s.imu_tracker_ ≠ none ∧ s.pose_tracker_ ≠ none ∧
      ∃ sp imu pt, Predict E s time = .ok sp ∧ sp.imu_tracker_ = some imu ∧
        sp.pose_tracker_ = some pt ∧ s1 = AddOdometerData_observe E sp imu pt time p) := by
  unfold AddOdometerData at h
  split at h
  · rename_i h0
    simp only [Except.ok.injEq] at h
    exact Or.inl ⟨Or.inl h0, h.symm⟩
  · rename_i h0 h1
    simp only [Except.ok.injEq] at h
    exact Or.inl ⟨Or.inr h1, h.symm⟩
  · rename_i imu0 pt0 h0 h1
    split at h
    · cases h
    · rename_i sp hp
      split at h
      · rename_i imu pt hi hpt
        simp only [Except.ok.injEq] at h
        exact Or.inr ⟨by simp [h0], by simp [h1], sp, imu, pt, hp, hi, hpt, h.symm⟩
      · cases h

theorem AddOdometerData_correction_nf {E : Ext Rot} (s : Builder E) (p q : Rigid3d Rot) :
    AddOdometerData_correction s p q =
      { s with
        odometry_correction_ := (AddOdometerData_correction s p q).odometry_correction_
        times_ := (AddOdometerData_correction s p q).times_
        mode_odo_first_choice_ := (AddOdometerData_correction s p q).mode_odo_first_choice_ } := by
  unfold AddOdometerData_correction
  split
  · simp only
    split <;> split <;> rfl
  · rfl

theorem AddOdometerData_observe_nf (E : Ext Rot) (s : Builder E) (imu : E.ImuTracker)
    (pt : E.PoseTracker) (time : Time) (p : Rigid3d Rot) :
    AddOdometerData_observe E s imu pt time p =
      { s with
        pose_tracker_ := (AddOdometerData_observe E s imu pt time p).pose_tracker_
        odometry_state_tracker_ :=
          (AddOdometerData_observe E s imu pt time p).odometry_state_tracker_
        odometry_correction_ := (AddOdometerData_observe E s imu pt time p).odometry_correction_
        times_ := (AddOdometerData_observe E s imu pt time p).times_
        mode_odo_first_choice_ :=
          (AddOdometerData_observe E s imu pt time p).mode_odo_first_choice_ } := by
  unfold AddOdometerData_observe
  simp only
  rw [AddOdometerData_correction_nf]

/-- The first lines of `AddHorizontalRangeData` drop the scan exactly when the IMU is
enabled and the IMU tracker is not set. -/
theorem AddHorizontalRangeData_begin_none (E : Ext Rot) (o : Options) (s : Builder E)
    (time : Time) (h : AddHorizontalRangeData_begin E o s time = .ok none) :
    o.use_imu_data = true ∧ s.imu_tracker_ = none := by
  unfold AddHorizontalRangeData_begin at h
  by_cases hu : o.use_imu_data = true
  · have hs : (if ¬ o.use_imu_data = true then InitializeImuTracker E o s time else s) = s := by
      simp [hu]
    simp only [hs] at h
    split at h
    · rename_i h0; exact ⟨hu, h0⟩
    · split at h <;> cases h
  · have hs : (if ¬ o.use_imu_data = true then InitializeImuTracker E o s time else s) =
        InitializeImuTracker E o s time := by simp [hu]
    simp only [hs] at h
    split at h
    · rename_i h0; exact absurd h0 (InitializeImuTracker_isSome E o s time)
    · split at h <;> cases h

/-- A scan that is not dropped finds the IMU disabled or the IMU tracker set. -/
theorem AddHorizontalRangeData_begin_some (E : Ext Rot) (o : Options) (s s0 : Builder E)
    (time : Time) (h : AddHorizontalRangeData_begin E o s time = .ok (some s0)) :
    ¬ (o.use_imu_data = true ∧ s.imu_tracker_ = none) := by
  rintro ⟨hu, hn⟩
  unfold AddHorizontalRangeData_begin at h
  have hs : (if ¬ o.use_imu_data = true then InitializeImuTracker E o s time else s) = s := by
    simp [hu]
  simp only [hs] at h
  split at h
  · cases h
  · rename_i imu hi; rw [hn] at hi; cases hi

/-- A returning `AddHorizontalRangeData`: the scan was dropped, or it was accumulated in
the state `s0` that `Predict` and the reset of a new batch produce. -/
theorem AddHorizontalRangeData_ok (E : Ext Rot) (o : Options) (s s1 : Builder E)
    (time : Time) (rd : RangeData) (res : Option (InsertionResult E))
    (h : AddHorizontalRangeData E o s time rd = .ok (s1, res)) :
    (AddHorizontalRangeData_begin E o s time = .ok none ∧ s1 = s ∧ res = none) ∨
    (∃ s0, AddHorizontalRangeData_begin E o s time = .ok (some s0)) := by
  rcases hb : AddHorizontalRangeData_begin E o s time with e | (_ | s0)
  · unfold AddHorizontalRangeData AddHorizontalRangeData_accumulate at h
    rw [hb] at h
    cases h
  · unfold AddHorizontalRangeData AddHorizontalRangeData_accumulate at h
    rw [hb] at h
    simp only [Except.ok.injEq, Prod.mk.injEq] at h
    exact Or.inl ⟨rfl, h.1.symm, h.2.symm⟩
  · exact Or.inr ⟨s0, rfl⟩

/-- The time cursor and the insertion result of a call of `AddHorizontalRangeData` that
accumulated its scan. -/
theorem AddHorizontalRangeData_time (E : Ext Rot) (o : Options) (s s0 s1 : Builder E)
    (time : Time) (rd : RangeData) (res : Option (InsertionResult E))
    (hbegin : AddHorizontalRangeData_begin E o s time = .ok (some s0))
    (hcall : AddHorizontalRangeData E o s time rd = .ok (s1, res)) :
    s.time_ ≤ time ∧ s0.time_ = time ∧ s1.time_ = time := by
  have h0 : s.time_ ≤ time ∧ s0.time_ = time := by
    obtain ⟨sp, hp, rfl⟩ := AddHorizontalRangeData_begin_ok E o s s0 time hbegin
    obtain ⟨imu, _, hle, rfl⟩ := Predict_ok E _ sp time hp
    refine ⟨hle, ?_⟩
    simp only
    split <;> rfl
  refine ⟨h0.1, h0.2, ?_⟩
  unfold AddHorizontalRangeData at hcall
  rw [AddHorizontalRangeData_accumulate_of_begin E o s _ time rd hbegin] at hcall
  by_cases hN : s0.num_accumulated_ + 1 ≥ o.scans_per_accumulation
  · rw [if_pos hN] at hcall
    rw [(AddAccumulatedRangeData_frame E o _ s1 time _ res hcall).1]
    exact h0.2
  · rw [if_neg hN] at hcall
    simp only [Except.ok.injEq, Prod.mk.injEq] at hcall
    rw [← hcall.1]
    exact h0.2

/-- A returning run of a non-empty sequence: its first call returned, and so did the run
of the rest. -/
theorem run_cons (E : Ext Rot) (o : Options) (s s2 : Builder E) (c : Call Rot)
    (cs : List (Call Rot)) (rs : List (InsertionResult E))
    (h : run E o s (c :: cs) = .ok (s2, rs)) :
    ∃ s1 r rs1, step E o s c = .ok (s1, r) ∧ run E o s1 cs = .ok (s2, rs1) ∧
      rs = r.toList ++ rs1 := by
  unfold run at h
  split at h
  · cases h
  · rename_i s1 r hs
    split at h
    · cases h
    · rename_i s3 rs1 hr
      simp only [Except.ok.injEq, Prod.mk.injEq] at h
      obtain ⟨rfl, rfl⟩ := h
      exact ⟨s1, r, rs1, hs, hr, rfl⟩

/-- The time cursor after a returning `AddImuData`. -/
theorem AddImuData_time (E : Ext Rot) (o : Options) (s s1 : Builder E) (time : Time)
    (a w : Vec3) (q : Rot) (h : AddImuData E o s time a w q = .ok s1) :
    s.time_ ≤ time ∧ s1.time_ = time := by
  obtain ⟨_, sp, imu, pt, hp, rfl⟩ := AddImuData_ok E o s s1 time a w q h
  obtain ⟨imu0, _, hle, rfl⟩ := Predict_ok E _ sp time hp
  rw [InitializeImuTracker_eq] at hle
  exact ⟨hle, rfl⟩

/-- The time cursor after a returning `AddOdometerData` that was not dropped. -/
theorem AddOdometerData_time (E : Ext Rot) (s s1 : Builder E) (time : Time)
    (p : Rigid3d Rot) (h : AddOdometerData E s time p = .ok s1)
    (hi : s.imu_tracker_ ≠ none) (hpt : s.pose_tracker_ ≠ none) :
    s.time_ ≤ time ∧ s1.time_ = time := by
  rcases AddOdometerData_ok E s s1 time p h with ⟨h0 | h0, _⟩ | ⟨_, _, sp, imu, pt, hp, _, _, rfl⟩
  · exact absurd h0 hi
  · exact absurd h0 hpt
  · obtain ⟨imu0, _, hle, rfl⟩ := Predict_ok E _ sp time hp
    rw [AddOdometerData_observe_nf]
    exact ⟨hle, rfl⟩

/-- The time cursor after one call. -/
theorem step_time (E : Ext Rot) (o : Options) (s s1 : Builder E) (c : Call Rot)
    (r : Option (InsertionResult E)) (h : step E o s c = .ok (s1, r)) :
    s.time_ ≤ s1.time_ ∧ (dropped o s c = false → s1.time_ = c.time) ∧
      (dropped o s c = true → s1 = s) := by
  cases c with
  | imu t a w q =>
    simp only [step] at h
    split at h
    · cases h
    · rename_i s2 h2
      simp only [Except.ok.injEq, Prod.mk.injEq] at h
      obtain ⟨rfl, _⟩ := h
      have := AddImuData_time E o s s2 t a w q h2
      exact ⟨this.2 ▸ this.1, fun _ => this.2, fun hd => by simp [dropped] at hd⟩
  | odometer t p =>
    simp only [step] at h
    split at h
    · cases h
    · rename_i s2 h2
      simp only [Except.ok.injEq, Prod.mk.injEq] at h
      obtain ⟨rfl, _⟩ := h
      rcases AddOdometerData_ok E s s2 t p h2 with ⟨h0, rfl⟩ | ⟨hi, hpt, _⟩
      · refine ⟨le_refl _, fun hd => ?_, fun _ => rfl⟩
        rcases h0 with h0 | h0 <;> simp [dropped, h0] at hd
      · have := AddOdometerData_time E s s2 t p h2 hi hpt
        refine ⟨this.2 ▸ this.1, fun _ => this.2, fun hd => ?_⟩
        simp only [dropped, Bool.or_eq_true, Option.isNone_iff_eq_none] at hd
        rcases hd with hd | hd
        · exact absurd hd hi
        · exact absurd hd hpt
  | range t rd =>
    simp only [step] at h
    rcases AddHorizontalRangeData_ok E o s s1 t rd r h with ⟨hb, rfl, _⟩ | ⟨s0, hb⟩
    · have := AddHorizontalRangeData_begin_none E o s1 t hb
      refine ⟨le_refl _, fun hd => ?_, fun _ => rfl⟩
      simp [dropped, this.1, this.2] at hd
    · have := AddHorizontalRangeData_time E o s s0 s1 t rd r hb h
      refine ⟨this.2.2 ▸ this.1, fun _ => this.2.2, fun hd => ?_⟩
      simp only [dropped, Bool.and_eq_true, Option.isNone_iff_eq_none] at hd
      exact absurd hd (AddHorizontalRangeData_begin_some E o s s0 t hb)

/-- The time cursor after a returning run is not before the cursor it started with. -/
theorem run_time (E : Ext Rot) (o : Options) (cs : List (Call Rot)) (s s1 : Builder E)
    (rs : List (InsertionResult E)) (h : run E o s cs = .ok (s1, rs)) :
    s.time_ ≤ s1.time_ := by
  induction cs generalizing s rs with
  | nil =>
    simp only [run, Except.ok.injEq, Prod.mk.injEq] at h
    rw [h.1]
  | cons c cs ih =>
    obtain ⟨s2, r, rs1, hs, hr, _⟩ := run_cons E o s s1 c cs rs h
    exact le_trans (step_time E o s s2 c r hs).1 (ih s2 rs1 hr)

/-- An insertion result built by `AddAccumulatedRangeData` carries the time of the call. -/
theorem AddAccumulatedRangeData_result_time (E : Ext Rot) (o : Options) (s s1 : Builder E)
    (time : Time) (rd : RangeData) (r : InsertionResult E)
    (h : AddAccumulatedRangeData E o s time rd = .ok (s1, some r)) : r.time = time := by
  rcases AddAccumulatedRangeData_cases E o s s1 time rd (some r) h with
    ⟨_, _, h0⟩ | ⟨_, sm, _, h1⟩
  · cases h0
  · have h2 := congrArg Prod.snd h1
    simp only at h2
    unfold AddAccumulatedRangeData_insert at h2
    simp only at h2
    split at h2
    · cases h2
    · simp only [Option.some.injEq] at h2
      rw [h2]

/-- An insertion result returned by `AddHorizontalRangeData` carries the time of the call,
which is also the time cursor after the call and not before the cursor it found. -/
theorem AddHorizontalRangeData_result_time (E : Ext Rot) (o : Options) (s s1 : Builder E)
    (time : Time) (rd : RangeData) (r : InsertionResult E)
    (h : AddHorizontalRangeData E o s time rd = .ok (s1, some r)) :
    r.time = time ∧ s.time_ ≤ time ∧ s1.time_ = time := by
  rcases AddHorizontalRangeData_ok E o s s1 time rd (some r) h with ⟨_, _, h0⟩ | ⟨s0, hb⟩
  · cases h0
  · have ht := AddHorizontalRangeData_time E o s s0 s1 time rd (some r) hb h
    refine ⟨?_, ht.1, ht.2.2⟩
    unfold AddHorizontalRangeData at h
    rw [AddHorizontalRangeData_accumulate_of_begin E o s _ time rd hb] at h
    by_cases hN : s0.num_accumulated_ + 1 ≥ o.scans_per_accumulation
    · rw [if_pos hN] at h
      exact AddAccumulatedRangeData_result_time E o _ s1 time _ r h
    · rw [if_neg hN] at h
      simp only [Except.ok.injEq, Prod.mk.injEq] at h
      cases h.2

/-- The insertion result of one call, if any, carries the time cursor reached by it. -/
theorem step_result_time (E : Ext Rot) (o : Options) (s s1 : Builder E) (c : Call Rot)
    (r : InsertionResult E) (h : step E o s c = .ok (s1, some r)) :
    r.time = s1.time_ ∧ s.time_ ≤ r.time := by
  cases c with
  | imu t a w q =>
    simp only [step] at h
    split at h
    · cases h
    · simp only [Except.ok.injEq, Prod.mk.injEq] at h
      cases h.2
  | odometer t p =>
    simp only [step] at h
    split at h
    · cases h
    · simp only [Except.ok.injEq, Prod.mk.injEq] at h
      cases h.2
  | range t rd =>
    simp only [step] at h
    have := AddHorizontalRangeData_result_time E o s s1 t rd r h
    exact ⟨this.1.trans this.2.2.symm, this.1 ▸ this.2.1⟩

/-- The insertion results of a returning run lie between the cursor at its start and the
cursor at its end, in non-decreasing order of time. -/
theorem run_results_sorted (E : Ext Rot) (o : Options) (cs : List (Call Rot))
    (s s1 : Builder E) (rs : List (InsertionResult E)) (h : run E o s cs = .ok (s1, rs)) :
    (∀ r ∈ rs, s.time_ ≤ r.time ∧ r.time ≤ s1.time_) ∧
      List.Pairwise (fun a b => a.time ≤ b.time) rs := by
  induction cs generalizing s rs with
  | nil =>
    simp only [run, Except.ok.injEq, Prod.mk.injEq] at h
    rw [← h.2]
    simp
  | cons c cs ih =>
    obtain ⟨s2, r, rs1, hs, hr, rfl⟩ := run_cons E o s s1 c cs rs h
    obtain ⟨hb, hp⟩ := ih s2 rs1 hr
    have hst := (step_time E o s s2 c r hs).1
    have hrt := run_time E o cs s2 s1 rs1 hr
    cases r with
    | none =>
      simp only [Option.toList, List.nil_append]
      exact ⟨fun r hr => ⟨le_trans hst (hb r hr).1, (hb r hr).2⟩, hp⟩
    | some r0 =>
      have h0 := step_result_time E o s s2 c r0 hs
      simp only [Option.toList, List.singleton_append, List.mem_cons, List.pairwise_cons]
      refine ⟨?_, ?_, hp⟩
      · rintro r (rfl | hr)
        · exact ⟨h0.2, h0.1 ▸ hrt⟩
        · exact ⟨le_trans hst (hb r hr).1, (hb r hr).2⟩
      · intro r hr
        rw [h0.1]
        exact (hb r hr).1

/-- `Predict` moves the pose in the plane only, and does not touch the last pose estimate. -/
theorem Predict_z (E : Ext Rot) (s s1 : Builder E) (time : Time)
    (h : Predict E s time = .ok s1) :
    s1.pose_estimate_.translation.z = s.pose_estimate_.translation.z ∧
      s1.last_pose_estimate_ = s.last_pose_estimate_ := by
  obtain ⟨imu, _, _, rfl⟩ := Predict_ok E s s1 time h
  refine ⟨?_, rfl⟩
  simp only
  split
  · simp [Vec3.add, Vec3.smul]
  · rfl

/-- After an accumulated scan that got past the check for empty returns, the z component of
the pose is 0 and the last pose estimate holds that pose. -/
theorem AddAccumulatedRangeData_z (E : Ext Rot) (o : Options) (s s1 : Builder E)
    (time : Time) (rd : RangeData) (res : Option (InsertionResult E))
    (h : AddAccumulatedRangeData E o s time rd = .ok (s1, res)) :
    ((TransformAndFilterRangeData E o
        (tracking_to_tracking_2d E (s.pose_estimate_ * s.odometry_correction_)) rd).returns = [] ∧
      s1 = s ∧ res = none) ∨
    (s1.pose_estimate_.translation.z = 0 ∧ s1.last_pose_estimate_.pose = s1.pose_estimate_ ∧
      s1.last_pose_estimate_.time = time) := by
  rcases AddAccumulatedRangeData_cases E o s s1 time rd res h with
    ⟨he, h0, h1⟩ | ⟨_, sm, _, h1⟩
  · exact Or.inl ⟨he, h0, h1⟩
  · right
    have h2 := congrArg Prod.fst h1
    simp only at h2
    subst h2
    rw [AddAccumulatedRangeData_insert_nf]
    simp [AddAccumulatedRangeData_pose]

/-- One call keeps the z component of the pose and of the last pose estimate at 0. -/
theorem step_z (E : Ext Rot) (o : Options) (s s1 : Builder E) (c : Call Rot)
    (r : Option (InsertionResult E)) (h : step E o s c = .ok (s1, r))
    (hz : s.pose_estimate_.translation.z = 0 ∧ s.last_pose_estimate_.pose.translation.z = 0) :
    s1.pose_estimate_.translation.z = 0 ∧ s1.last_pose_estimate_.pose.translation.z = 0 := by
  cases c with
  | imu t a w q =>
    simp only [step] at h
    split at h
    · cases h
    · rename_i s2 h2
      simp only [Except.ok.injEq, Prod.mk.injEq] at h
      obtain ⟨rfl, _⟩ := h
      obtain ⟨_, sp, imu, pt, hp, rfl⟩ := AddImuData_ok E o s s2 t a w q h2
      have := Predict_z E _ sp t hp
      rw [InitializeImuTracker_eq] at this
      simp only at this ⊢
      rw [this.1, this.2]
      exact hz
  | odometer t p =>
    simp only [step] at h
    split at h
    · cases h
    · rename_i s2 h2
      simp only [Except.ok.injEq, Prod.mk.injEq] at h
      obtain ⟨rfl, _⟩ := h
      rcases AddOdometerData_ok E s s2 t p h2 with ⟨_, rfl⟩ | ⟨_, _, sp, imu, pt, hp, _, _, rfl⟩
      · exact hz
      · have := Predict_z E s sp t hp
        rw [AddOdometerData_observe_nf]
        simp only
        rw [this.1, this.2]
        exact hz
  | range t rd =>
    simp only [step] at h
    rcases AddHorizontalRangeData_ok E o s s1 t rd r h with ⟨_, rfl, _⟩ | ⟨s0, hb⟩
    · exact hz
    · have hz0 : s0.pose_estimate_.translation.z = 0 ∧
          s0.last_pose_estimate_.pose.translation.z = 0 := by
        obtain ⟨sp, hp, rfl⟩ := AddHorizontalRangeData_begin_ok E o s s0 t hb
        have := Predict_z E _ sp t hp
        simp only at this
        by_cases hn : sp.num_accumulated_ = 0
        · rw [if_pos hn]
          simp only
          rw [this.1, this.2]
          exact hz
        · rw [if_neg hn, this.1, this.2]
          exact hz
      unfold AddHorizontalRangeData at h
      rw [AddHorizontalRangeData_accumulate_of_begin E o s _ t rd hb] at h
      by_cases hN : s0.num_accumulated_ + 1 ≥ o.scans_per_accumulation
      · rw [if_pos hN] at h
        rcases AddAccumulatedRangeData_z E o _ s1 t _ r h with ⟨_, rfl, _⟩ | ⟨h1, h2, _⟩
        · exact hz0
        · exact ⟨h1, h2 ▸ h1⟩
      · rw [if_neg hN] at h
        simp only [Except.ok.injEq, Prod.mk.injEq] at h
        rw [← h.1]
        exact hz0

/-- A returning run keeps the z component of the pose and of the last pose estimate at 0. -/
theorem run_z (E : Ext Rot) (o : Options) (cs : List (Call Rot)) (s s1 : Builder E)
    (rs : List (InsertionResult E)) (h : run E o s cs = .ok (s1, rs))
    (hz : s.pose_estimate_.translation.z = 0 ∧ s.last_pose_estimate_.pose.translation.z = 0) :
    s1.pose_estimate_.translation.z = 0 ∧ s1.last_pose_estimate_.pose.translation.z = 0 := by
  induction cs generalizing s rs with
  | nil =>
    simp only [run, Except.ok.injEq, Prod.mk.injEq] at h
    rw [← h.1]
    exact hz
  | cons c cs ih =>
    obtain ⟨s2, r, rs1, hs, hr, _⟩ := run_cons E o s s1 c cs rs h
    exact ih s2 rs1 hr (step_z E o s s2 c r hs hz)

/-- The loop over the returns of a scan, in terms of the accepted returns and the misses
made of the returns beyond the maximum range. -/
theorem AddHorizontalRangeData_loop_eq (E : Ext Rot) (o : Options) (scan acc : RangeData) :
    AddHorizontalRangeData_loop E o scan acc =
      ⟨acc.origin, acc.returns ++ acceptedReturns E o scan,
        acc.misses ++ convertedMisses E o scan⟩ := by
  unfold AddHorizontalRangeData_loop acceptedReturns convertedMisses
  exact loop_foldl E o scan.origin scan.returns acc

/-- Inserting one more scan into the composite of a batch gives the composite of the
longer batch. -/
theorem composite_snoc (E : Ext Rot) (o : Options) (batch : List RangeData)
    (scan : RangeData) :
    AddHorizontalRangeData_loop E o scan (composite E o batch) =
      composite E o (batch ++ [scan]) := by
  rw [AddHorizontalRangeData_loop_eq]
  simp [composite]

/-- The record of a scan that is accumulated. -/
theorem accumulated_range (E : Ext Rot) (o : Options) (s s0 s2 : Builder E) (t : Time)
    (rd : RangeData) (out : Accumulation)
    (hb : AddHorizontalRangeData_begin E o s t = .ok (some s0))
    (ha : AddHorizontalRangeData_accumulate E o s t rd = .ok (s2, out)) :
    accumulated E o s (.range t rd) =
      some ⟨E.TransformRangeData rd (tracking_delta s0), tracking_delta s0, out, t, s2,
        AddHorizontalRangeData E o s t rd⟩ := by
  simp only [accumulated, hb, ha]

/-- What one returning call does to the accumulator and its counter. -/
theorem step_accumulated (E : Ext Rot) (o : Options) (s s1 : Builder E) (c : Call Rot)
    (r : Option (InsertionResult E)) (h : step E o s c = .ok (s1, r)) :
    (accumulated E o s c = none ∧ s1.num_accumulated_ = s.num_accumulated_ ∧
      s1.accumulated_range_data_ = s.accumulated_range_data_) ∨
    (∃ a, accumulated E o s c = some a ∧
      ((s.num_accumulated_ + 1 ≥ o.scans_per_accumulation ∧
          a.outcome = .complete (E.TransformRangeData
            (AddHorizontalRangeData_loop E o a.scan
              (if s.num_accumulated_ = 0 then ⟨Vec3.Zero, [], []⟩
                else s.accumulated_range_data_)) a.delta⁻¹) ∧
          s1.num_accumulated_ = 0) ∨
        (¬ s.num_accumulated_ + 1 ≥ o.scans_per_accumulation ∧
          a.outcome = .pending ∧ s1.num_accumulated_ = s.num_accumulated_ + 1 ∧
          s1.accumulated_range_data_ = AddHorizontalRangeData_loop E o a.scan
            (if s.num_accumulated_ = 0 then ⟨Vec3.Zero, [], []⟩
              else s.accumulated_range_data_)))) := by
  cases c with
  | imu t a w q =>
    left
    simp only [step] at h
    split at h
    · cases h
    · rename_i s2 h2
      simp only [Except.ok.injEq, Prod.mk.injEq] at h
      obtain ⟨rfl, _⟩ := h
      obtain ⟨_, sp, imu, pt, hp, rfl⟩ := AddImuData_ok E o s s2 t a w q h2
      obtain ⟨imu0, _, _, rfl⟩ := Predict_ok E _ sp t hp
      rw [InitializeImuTracker_eq]
      exact ⟨rfl, rfl, rfl⟩
  | odometer t p =>
    left
    simp only [step] at h
    split at h
    · cases h
    · rename_i s2 h2
      simp only [Except.ok.injEq, Prod.mk.injEq] at h
      obtain ⟨rfl, _⟩ := h
      rcases AddOdometerData_ok E s s2 t p h2 with ⟨_, rfl⟩ | ⟨_, _, sp, imu, pt, hp, _, _, rfl⟩
      · exact ⟨rfl, rfl, rfl⟩
      · obtain ⟨imu0, _, _, rfl⟩ := Predict_ok E _ sp t hp
        rw [AddOdometerData_observe_nf]
        exact ⟨rfl, rfl, rfl⟩
  | range t rd =>
    simp only [step] at h
    rcases AddHorizontalRangeData_ok E o s s1 t rd r h with ⟨hb, rfl, _⟩ | ⟨s0, hb⟩
    · left
      refine ⟨?_, rfl, rfl⟩
      simp only [accumulated, hb]
    · right
      have hacc := AddHorizontalRangeData_accumulate_of_begin E o s s0 t rd hb
      obtain ⟨hb1, hb2⟩ := AddHorizontalRangeData_begin_accumulated E o s s0 t hb
      unfold AddHorizontalRangeData at h
      rw [hacc] at h
      by_cases hN : s0.num_accumulated_ + 1 ≥ o.scans_per_accumulation
      · rw [if_pos hN] at hacc h
        refine ⟨_, accumulated_range E o s s0 _ t rd _ hb hacc, Or.inl ⟨hb2 ▸ hN, ?_, ?_⟩⟩
        · simp only [hb1]
        · rw [(AddAccumulatedRangeData_frame E o _ s1 t _ r h).2.2.2.1]
      · rw [if_neg hN] at hacc h
        simp only [Except.ok.injEq, Prod.mk.injEq] at h
        refine ⟨_, accumulated_range E o s s0 _ t rd _ hb hacc,
          Or.inr ⟨hb2 ▸ hN, rfl, ?_, ?_⟩⟩
        · rw [← h.1, ← hb2]
        · rw [← h.1, ← hb1]

theorem run_nil (E : Ext Rot) (o : Options) (s : Builder E) :
    run E o s [] = .ok (s, []) := by
  simp [run]

/-- A returning run followed by a returning call is a returning run. -/
theorem run_append_one (E : Ext Rot) (o : Options) (cs : List (Call Rot)) (c : Call Rot)
    (s s2 : Builder E) (rs : List (InsertionResult E))
    (h : run E o s (cs ++ [c]) = .ok (s2, rs)) :
    ∃ s1 rs1 r, run E o s cs = .ok (s1, rs1) ∧ step E o s1 c = .ok (s2, r) := by
  induction cs generalizing s rs with
  | nil =>
    obtain ⟨s1, r, rs1, hs, hr, _⟩ := run_cons E o s s2 c [] rs h
    simp only [run, Except.ok.injEq, Prod.mk.injEq] at hr
    exact ⟨s, [], r, run_nil E o s, hr.1 ▸ hs⟩
  | cons d cs ih =>
    obtain ⟨s1, r, rs1, hs, hr, _⟩ := run_cons E o s s2 d (cs ++ [c]) rs h
    obtain ⟨s3, rs3, r3, hr3, hs3⟩ := ih s1 rs1 hr
    refine ⟨s3, r.toList ++ rs3, r3, ?_, hs3⟩
    simp only [run, hs, hr3]

/-- The records of a run extended by one returning call. -/
theorem accumulations_append_one (E : Ext Rot) (o : Options) (cs : List (Call Rot))
    (c : Call Rot) (s s1 : Builder E) (rs1 : List (InsertionResult E))
    (h : run E o s cs = .ok (s1, rs1)) (s2 : Builder E) (r : Option (InsertionResult E))
    (hs : step E o s1 c = .ok (s2, r)) :
    accumulations E o s (cs ++ [c]) = accumulations E o s cs ++ (accumulated E o s1 c).toList := by
  induction cs generalizing s rs1 with
  | nil =>
    simp only [run, Except.ok.injEq, Prod.mk.injEq] at h
    obtain ⟨rfl, _⟩ := h
    simp [accumulations, hs]
  | cons d cs ih =>
    obtain ⟨s3, r3, rs3, hs3, hr3, _⟩ := run_cons E o s s1 d cs rs1 h
    have := ih s3 rs3 hr3
    simp only [List.cons_append, accumulations, hs3]
    change _ ++ accumulations E o s3 (cs ++ [c]) = _
    rw [this, List.append_assoc]

theorem succ_mod_of_lt (L n : Nat) (h : L % n + 1 < n) : (L + 1) % n = L % n + 1 := by
  conv_lhs => rw [← Nat.div_add_mod L n, Nat.add_assoc, Nat.mul_add_mod]
  exact Nat.mod_eq_of_lt h

theorem succ_mod_of_eq (L n : Nat) (h : L % n + 1 = n) : (L + 1) % n = 0 := by
  conv_lhs => rw [← Nat.div_add_mod L n, Nat.add_assoc, Nat.mul_add_mod, h]
  exact Nat.mod_self n

/-- The invariant of the batching: after a returning run from a fresh builder the counter is
the number of accumulated scans modulo the batch size, the accumulator (read as empty when
the counter is 0) is the composite of the scans of the unfinished batch, and every
accumulated scan so far ended a batch exactly when its number was a multiple of the batch
size. -/
theorem batching_invariant (E : Ext Rot) (o : Options)
    (hN : 1 ≤ o.scans_per_accumulation) (mode0 : Int) (cs : List (Call Rot)) :
    ∀ (s1 : Builder E) (rs : List (InsertionResult E)),
      run E o (Builder.fresh E o mode0) cs = .ok (s1, rs) →
      s1.num_accumulated_ =
        (((accumulations E o (Builder.fresh E o mode0) cs).length %
          o.scans_per_accumulation.toNat : Nat) : Int) ∧
      (if s1.num_accumulated_ = 0 then ⟨Vec3.Zero, [], []⟩ else s1.accumulated_range_data_) =
        composite E o (((accumulations E o (Builder.fresh E o mode0) cs).drop
          ((accumulations E o (Builder.fresh E o mode0) cs).length -
            (accumulations E o (Builder.fresh E o mode0) cs).length %
              o.scans_per_accumulation.toNat)).map (fun a => a.scan)) ∧
      ∀ (k : Nat) (a : Accumulated E),
        (accumulations E o (Builder.fresh E o mode0) cs)[k]? = some a →
        a.outcome =
          if o.scans_per_accumulation.toNat ∣ k + 1 then
            .complete (E.TransformRangeData
              (composite E o
                ((((accumulations E o (Builder.fresh E o mode0) cs).take (k + 1)).drop
                  (k + 1 - o.scans_per_accumulation.toNat)).map (fun a => a.scan)))
              a.delta⁻¹)
          else .pending := by
  have hn1 : 1 ≤ o.scans_per_accumulation.toNat := by omega
  have hnN : (o.scans_per_accumulation.toNat : Int) = o.scans_per_accumulation := by omega
  induction cs using List.reverseRecOn with
  | nil =>
    intro s1 rs h
    simp only [run, Except.ok.injEq, Prod.mk.injEq] at h
    obtain ⟨rfl, _⟩ := h
    simp [accumulations, Builder.fresh, composite]
  | append_singleton cs c ih =>
    intro s2 rs h
    obtain ⟨s1, rs1, r, hr, hs⟩ := run_append_one E o cs c _ s2 rs h
    obtain ⟨ih1, ih2, ih3⟩ := ih s1 rs1 hr
    rw [accumulations_append_one E o cs c _ s1 rs1 hr s2 r hs]
    generalize accumulations E o (Builder.fresh E o mode0) cs = tr at ih1 ih2 ih3 ⊢
    generalize hn : o.scans_per_accumulation.toNat = n at ih1 ih2 ih3 hn1 hnN ⊢
    have hj : tr.length % n < n := Nat.mod_lt _ (by omega)
    rcases step_accumulated E o s1 s2 c r hs with ⟨hnone, h1, h2⟩ | ⟨a, hsome, hcase⟩
    · rw [hnone]
      simp only [Option.toList, List.append_nil]
      rw [h1, h2]
      exact ⟨ih1, ih2, ih3⟩
    · rw [hsome]
      simp only [Option.toList]
      have hold : ∀ (k : Nat) (b : Accumulated E), k < tr.length →
          (tr ++ [a])[k]? = some b →
          b.outcome =
            if n ∣ k + 1 then
              .complete (E.TransformRangeData
                (composite E o ((((tr ++ [a]).take (k + 1)).drop (k + 1 - n)).map
                  (fun a => a.scan))) b.delta⁻¹)
            else .pending := by
        intro k b hk hb
        rw [List.getElem?_append_left hk] at hb
        rw [List.take_append_of_le_length (by omega)]
        exact ih3 k b hb
      have hwin : ((tr ++ [a]).drop (tr.length - tr.length % n)).map (fun a => a.scan) =
          (tr.drop (tr.length - tr.length % n)).map (fun a => a.scan) ++ [a.scan] := by
        rw [List.drop_append_of_le_length (by omega)]
        simp
      rcases hcase with ⟨hge, hout, hnum⟩ | ⟨hlt, hout, hnum, hacc⟩
      · have hjn : tr.length % n + 1 = n := by
          rw [ih1] at hge
          omega
        have hmod := succ_mod_of_eq tr.length n hjn
        refine ⟨?_, ?_, ?_⟩
        · rw [hnum, List.length_append, List.length_singleton, hmod]
          rfl
        · rw [hnum, List.length_append, List.length_singleton, hmod]
          simp [composite]
        · intro k b hb
          by_cases hk : k < tr.length
          · exact hold k b hk hb
          · have hk2 : k = tr.length := by
              have := (List.getElem?_eq_some_iff.mp hb).1
              simp only [List.length_append, List.length_singleton] at this
              omega
            subst hk2
            have hba : b = a := by
              simp at hb
              exact hb.symm
            subst hba
            rw [if_pos (Nat.dvd_of_mod_eq_zero hmod), hout, ih2, composite_snoc]
            have hw : (tr ++ [b]).take (tr.length + 1) = tr ++ [b] := by
              apply List.take_of_length_le
              simp
            rw [hw]
            have hd : tr.length + 1 - n = tr.length - tr.length % n := by omega
            rw [hd, hwin]
      · have hjn : tr.length % n + 1 < n := by
          rw [ih1] at hlt
          omega
        have hmod := succ_mod_of_lt tr.length n hjn
        refine ⟨?_, ?_, ?_⟩
        · rw [hnum, ih1, List.length_append, List.length_singleton, hmod]
          push_cast
          rfl
        · have hne : s2.num_accumulated_ ≠ 0 := by
            rw [hnum, ih1]
            omega
          rw [if_neg hne, hacc, ih2, composite_snoc, List.length_append,
            List.length_singleton, hmod]
          have hd : tr.length + 1 - (tr.length % n + 1) = tr.length - tr.length % n := by
            omega
          rw [hd, hwin]
        · intro k b hb
          by_cases hk : k < tr.length
          · exact hold k b hk hb
          · have hk2 : k = tr.length := by
              have := (List.getElem?_eq_some_iff.mp hb).1
              simp only [List.length_append, List.length_singleton] at this
              omega
            subst hk2
            have hba : b = a := by
              simp at hb
              exact hb.symm
            subst hba
            have hnd : ¬ n ∣ tr.length + 1 := by
              intro hdvd
              have := Nat.mod_eq_zero_of_dvd hdvd
              omega
            rw [if_neg hnd, hout]

/-- The counter and the mode flag after the correction block of `AddOdometerData`, when
the history is not empty. -/
theorem AddOdometerData_correction_mode {E : Ext Rot} (s : Builder E)
    (p q : Rigid3d Rot) (prev : OdometryState Rot)
    (hprev : s.odometry_state_tracker_.newest = some prev) :
    (((p.translation.x - s.pose_estimate_.translation.x) *
          (p.translation.x - s.pose_estimate_.translation.x) +
        (p.translation.y - s.pose_estimate_.translation.y) *
          (p.translation.y - s.pose_estimate_.translation.y) > 5) →
      (AddOdometerData_correction s p q).mode_odo_first_choice_ = 1 ∧
        (AddOdometerData_correction s p q).times_ = 299) ∧
    (¬ ((p.translation.x - s.pose_estimate_.translation.x) *
          (p.translation.x - s.pose_estimate_.translation.x) +
        (p.translation.y - s.pose_estimate_.translation.y) *
          (p.translation.y - s.pose_estimate_.translation.y) > 5) →
      (s.times_ > 1 →
        (AddOdometerData_correction s p q).times_ = s.times_ - 1 ∧
        (AddOdometerData_correction s p q).mode_odo_first_choice_ =
          s.mode_odo_first_choice_) ∧
      (¬ s.times_ > 1 →
        (AddOdometerData_correction s p q).mode_odo_first_choice_ = 0 ∧
        (AddOdometerData_correction s p q).times_ = s.times_)) := by
  unfold AddOdometerData_correction
  rw [hprev]
  simp only
  constructor
  · intro hd
    rw [if_pos hd]
    simp
  · intro hd
    rw [if_neg hd]
    constructor
    · intro ht
      rw [if_pos ht]
      exact ⟨rfl, rfl⟩
    · intro ht
      rw [if_neg ht]
      exact ⟨rfl, rfl⟩

/-- `AddAccumulatedRangeData` leaves the velocity estimate alone while the counter is 299. -/
theorem AddAccumulatedRangeData_velocity_299 (E : Ext Rot) (o : Options) (s s1 : Builder E)
    (time : Time) (rd : RangeData) (res : Option (InsertionResult E))
    (h : AddAccumulatedRangeData E o s time rd = .ok (s1, res)) (ht : s.times_ = 299) :
    s1.velocity_estimate_ = s.velocity_estimate_ ∧
      s1.last_scan_match_time_ = s.last_scan_match_time_ := by
  rcases AddAccumulatedRangeData_cases E o s s1 time rd res h with
    ⟨_, rfl, _⟩ | ⟨_, sm, hsm, h1⟩
  · exact ⟨rfl, rfl⟩
  · obtain ⟨rt, cm, pe, rfl⟩ := ScanMatch_eq E o _ _ _ _ _ _ hsm
    have h2 := congrArg Prod.fst h1
    simp only at h2
    subst h2
    rw [AddAccumulatedRangeData_insert_nf]
    simp only [AddAccumulatedRangeData_pose]
    have hv : ∀ (s3 : Builder E) (mp : Rigid3d Rot), s3.times_ = 299 →
        AddAccumulatedRangeData_velocity E s3 time mp = s3 := by
      intro s3 mp h3
      unfold AddAccumulatedRangeData_velocity
      rw [if_neg (by simp [h3])]
    rw [hv _ _ (by rw [AddAccumulatedRangeData_odometry_state_nf]; exact ht)]
    rw [AddAccumulatedRangeData_odometry_state_nf]
    exact ⟨rfl, rfl⟩

/-- A call that is not an odometer sample leaves the counter and the mode flag alone. -/
theorem step_mode (E : Ext Rot) (o : Options) (s s1 : Builder E) (c : Call Rot)
    (r : Option (InsertionResult E)) (h : step E o s c = .ok (s1, r))
    (hc : ∀ t p, c ≠ .odometer t p) :
    s1.times_ = s.times_ ∧ s1.mode_odo_first_choice_ = s.mode_odo_first_choice_ := by
  cases c with
  | imu t a w q =>
    simp only [step] at h
    split at h
    · cases h
    · rename_i s2 h2
      simp only [Except.ok.injEq, Prod.mk.injEq] at h
      obtain ⟨rfl, _⟩ := h
      obtain ⟨_, sp, imu, pt, hp, rfl⟩ := AddImuData_ok E o s s2 t a w q h2
      obtain ⟨imu0, _, _, rfl⟩ := Predict_ok E _ sp t hp
      rw [InitializeImuTracker_eq]
      exact ⟨rfl, rfl⟩
  | odometer t p => exact absurd rfl (hc t p)
  | range t rd =>
    simp only [step] at h
    rcases AddHorizontalRangeData_ok E o s s1 t rd r h with ⟨_, rfl, _⟩ | ⟨s0, hb⟩
    · exact ⟨rfl, rfl⟩
    · have h0 : s0.times_ = s.times_ ∧
          s0.mode_odo_first_choice_ = s.mode_odo_first_choice_ := by
        obtain ⟨sp, hp, rfl⟩ := AddHorizontalRangeData_begin_ok E o s s0 t hb
        obtain ⟨imu, _, _, rfl⟩ := Predict_ok E _ sp t hp
        simp only
        split <;> exact ⟨rfl, rfl⟩
      unfold AddHorizontalRangeData at h
      rw [AddHorizontalRangeData_accumulate_of_begin E o s _ t rd hb] at h
      by_cases hN : s0.num_accumulated_ + 1 ≥ o.scans_per_accumulation
      · rw [if_pos hN] at h
        have hf := AddAccumulatedRangeData_frame E o _ s1 t _ r h
        rw [hf.2.2.2.2.2.2.2.1, hf.2.2.2.2.2.2.2.2]
        exact h0
      · rw [if_neg hN] at h
        simp only [Except.ok.injEq, Prod.mk.injEq] at h
        rw [← h.1]
        exact h0

/-- The counter and the mode flag after a processed odometer sample, when the history is
not empty. -/
theorem AddOdometerData_observe_mode (E : Ext Rot) (s : Builder E) (imu : E.ImuTracker)
    (pt : E.PoseTracker) (time : Time) (p : Rigid3d Rot) (prev : OdometryState Rot)
    (hprev : s.odometry_state_tracker_.newest = some prev) :
    (((p.translation.x - s.pose_estimate_.translation.x) *
          (p.translation.x - s.pose_estimate_.translation.x) +
        (p.translation.y - s.pose_estimate_.translation.y) *
          (p.translation.y - s.pose_estimate_.translation.y) > 5) →
      (AddOdometerData_observe E s imu pt time p).mode_odo_first_choice_ = 1 ∧
        (AddOdometerData_observe E s imu pt time p).times_ = 299) ∧
    (¬ ((p.translation.x - s.pose_estimate_.translation.x) *
          (p.translation.x - s.pose_estimate_.translation.x) +
        (p.translation.y - s.pose_estimate_.translation.y) *
          (p.translation.y - s.pose_estimate_.translation.y) > 5) →
      (s.times_ > 1 →
        (AddOdometerData_observe E s imu pt time p).times_ = s.times_ - 1 ∧
        (AddOdometerData_observe E s imu pt time p).mode_odo_first_choice_ =
          s.mode_odo_first_choice_) ∧
      (¬ s.times_ > 1 →
        (AddOdometerData_observe E s imu pt time p).mode_odo_first_choice_ = 0 ∧
        (AddOdometerData_observe E s imu pt time p).times_ = s.times_)) := by
  unfold AddOdometerData_observe
  simp only
  exact AddOdometerData_correction_mode
    { s with
      pose_tracker_ := some (E.PoseTracker_GetPoseEstimateMeanAndCovariance
        (E.PoseTracker_AddPoseObservation pt time
          ⟨p.translation, E.ImuTracker_orientation imu⟩) time) }
    p ⟨p.translation, E.ImuTracker_orientation imu⟩ prev hprev

/-- The first lines of `AddHorizontalRangeData` accumulate the scan when the IMU tracker
is set and the time is not before the cursor. -/
theorem AddHorizontalRangeData_begin_succeeds (E : Ext Rot) (o : Options) (s : Builder E)
    (time : Time) (hi : s.imu_tracker_ ≠ none) (ht : s.time_ ≤ time) :
    ∃ s0, AddHorizontalRangeData_begin E o s time = .ok (some s0) := by
  unfold AddHorizontalRangeData_begin
  simp only [AddHorizontalRangeData_initialized]
  have hi2 : (if o.use_imu_data = true then s.imu_tracker_
      else some (s.imu_tracker_.getD (E.ImuTracker_new o.imu_gravity_time_constant time)))
      ≠ none := by
    split
    · exact hi
    · simp
  obtain ⟨sp, hp⟩ := Predict_succeeds E
    { s with
      imu_tracker_ := if o.use_imu_data = true then s.imu_tracker_
        else some (s.imu_tracker_.getD (E.ImuTracker_new o.imu_gravity_time_constant time)) }
    time hi2 ht
  split
  · rename_i h0; exact absurd h0 hi2
  · rw [hp]
    exact ⟨_, rfl⟩

/-- The newest entry of a history of positive capacity after an entry is added. -/
theorem AddOdometryState_newest (tr : OdometryStateTracker Rot) (st : OdometryState Rot)
    (hw : 0 < tr.window_size) : (tr.AddOdometryState st).newest = some st := by
  unfold OdometryStateTracker.AddOdometryState OdometryStateTracker.newest
  simp only
  rw [List.drop_append_of_le_length (by simp only [List.length_append, List.length_singleton]; omega)]
  simp

/-- The correction computed by the correction block of `AddOdometerData`, when the
history is not empty. -/
theorem AddOdometerData_correction_value {E : Ext Rot} (s : Builder E)
    (p q : Rigid3d Rot) (prev : OdometryState Rot)
    (hprev : s.odometry_state_tracker_.newest = some prev) :
    ((((p.translation.x - s.pose_estimate_.translation.x) *
          (p.translation.x - s.pose_estimate_.translation.x) +
        (p.translation.y - s.pose_estimate_.translation.y) *
          (p.translation.y - s.pose_estimate_.translation.y) > 5) ∨ s.times_ > 1) →
      (AddOdometerData_correction s p q).odometry_correction_ = s.pose_estimate_⁻¹ * q) ∧
    (¬ ((p.translation.x - s.pose_estimate_.translation.x) *
          (p.translation.x - s.pose_estimate_.translation.x) +
        (p.translation.y - s.pose_estimate_.translation.y) *
          (p.translation.y - s.pose_estimate_.translation.y) > 5) → s.times_ ≤ 1 →
      (AddOdometerData_correction s p q).odometry_correction_ =
        s.pose_estimate_⁻¹ * (prev.state_pose * (prev.odometer_pose⁻¹ * q))) := by
  unfold AddOdometerData_correction
  rw [hprev]
  simp only
  constructor
  · intro hd
    by_cases h5 : (p.translation.x - s.pose_estimate_.translation.x) *
          (p.translation.x - s.pose_estimate_.translation.x) +
        (p.translation.y - s.pose_estimate_.translation.y) *
          (p.translation.y - s.pose_estimate_.translation.y) > 5
    · rw [if_pos h5]
      simp
    · rw [if_neg h5]
      rcases hd with hd | hd
      · exact absurd hd h5
      · rw [if_pos hd]
  · intro h5 ht
    rw [if_neg h5, if_neg (by omega)]

theorem AddOdometerData_correction_frame {E : Ext Rot} (s : Builder E) (p q : Rigid3d Rot) :
    (AddOdometerData_correction s p q).pose_estimate_ = s.pose_estimate_ ∧
      (AddOdometerData_correction s p q).odometry_state_tracker_ =
        s.odometry_state_tracker_ := by
  rw [AddOdometerData_correction_nf]
  exact ⟨rfl, rfl⟩

/-- A processed odometer sample: the pose is the one `Predict` left, the correction is the
one of the correction block, and one entry is added to the history. -/
theorem AddOdometerData_observe_eq (E : Ext Rot) (s : Builder E) (imu : E.ImuTracker)
    (pt : E.PoseTracker) (time : Time) (p : Rigid3d Rot) :
    (AddOdometerData_observe E s imu pt time p).pose_estimate_ = s.pose_estimate_ ∧
    (AddOdometerData_observe E s imu pt time p).odometry_correction_ =
      (AddOdometerData_correction
        { s with
          pose_tracker_ := some (E.PoseTracker_GetPoseEstimateMeanAndCovariance
            (E.PoseTracker_AddPoseObservation pt time
              ⟨p.translation, E.ImuTracker_orientation imu⟩) time) }
        p ⟨p.translation, E.ImuTracker_orientation imu⟩).odometry_correction_ ∧
    (AddOdometerData_observe E s imu pt time p).odometry_state_tracker_ =
      s.odometry_state_tracker_.AddOdometryState
        ⟨time, ⟨p.translation, E.ImuTracker_orientation imu⟩,
          s.pose_estimate_ *
            (AddOdometerData_observe E s imu pt time p).odometry_correction_⟩ := by
  refine ⟨?_, rfl, ?_⟩
  · rw [AddOdometerData_observe_nf]
  · unfold AddOdometerData_observe
    simp only [(AddOdometerData_correction_frame _ _ _).1,
      (AddOdometerData_correction_frame _ _ _).2]

/-- The correction after a processed odometer sample, when the history is not empty. -/
theorem AddOdometerData_observe_value (E : Ext Rot) (s : Builder E) (imu : E.ImuTracker)
    (pt : E.PoseTracker) (time : Time) (p : Rigid3d Rot) (prev : OdometryState Rot)
    (hprev : s.odometry_state_tracker_.newest = some prev) :
    ((((p.translation.x - s.pose_estimate_.translation.x) *
          (p.translation.x - s.pose_estimate_.translation.x) +
        (p.translation.y - s.pose_estimate_.translation.y) *
          (p.translation.y - s.pose_estimate_.translation.y) > 5) ∨ s.times_ > 1) →
      (AddOdometerData_observe E s imu pt time p).odometry_correction_ =
        s.pose_estimate_⁻¹ * ⟨p.translation, E.ImuTracker_orientation imu⟩) ∧
    (¬ ((p.translation.x - s.pose_estimate_.translation.x) *
          (p.translation.x - s.pose_estimate_.translation.x) +
        (p.translation.y - s.pose_estimate_.translation.y) *
          (p.translation.y - s.pose_estimate_.translation.y) > 5) → s.times_ ≤ 1 →
      (AddOdometerData_observe E s imu pt time p).odometry_correction_ =
        s.pose_estimate_⁻¹ * (prev.state_pose * (prev.odometer_pose⁻¹ *
          ⟨p.translation, E.ImuTracker_orientation imu⟩))) := by
  unfold AddOdometerData_observe
  simp only
  exact AddOdometerData_correction_value
    { s with
      pose_tracker_ := some (E.PoseTracker_GetPoseEstimateMeanAndCovariance
        (E.PoseTracker_AddPoseObservation pt time
          ⟨p.translation, E.ImuTracker_orientation imu⟩) time) }
    p ⟨p.translation, E.ImuTracker_orientation imu⟩ prev hprev

/-- `AddAccumulatedRangeData` leaves the velocity estimate and the time of the last scan
match alone while that time is `Time_min`: the guard of the velocity block asks for a
later time. -/
theorem AddAccumulatedRangeData_velocity_unset (E : Ext Rot) (o : Options)
    (s s1 : Builder E) (time : Time) (rd : RangeData) (res : Option (InsertionResult E))
    (h : AddAccumulatedRangeData E o s time rd = .ok (s1, res))
    (ht : s.last_scan_match_time_ = Time_min) :
    s1.velocity_estimate_ = s.velocity_estimate_ ∧
      s1.last_scan_match_time_ = s.last_scan_match_time_ := by
  rcases AddAccumulatedRangeData_cases E o s s1 time rd res h with
    ⟨_, rfl, _⟩ | ⟨_, sm, hsm, h1⟩
  · exact ⟨rfl, rfl⟩
  · obtain ⟨rt, cm, pe, rfl⟩ := ScanMatch_eq E o _ _ _ _ _ _ hsm
    have h2 := congrArg Prod.fst h1
    simp only at h2
    subst h2
    rw [AddAccumulatedRangeData_insert_nf]
    simp only [AddAccumulatedRangeData_pose]
    have hv : ∀ (s3 : Builder E) (mp : Rigid3d Rot), s3.last_scan_match_time_ = Time_min →
        AddAccumulatedRangeData_velocity E s3 time mp = s3 := by
      intro s3 mp h3
      unfold AddAccumulatedRangeData_velocity
      rw [if_neg (by simp [h3])]
    rw [hv _ _ (by rw [AddAccumulatedRangeData_odometry_state_nf]; exact ht)]
    rw [AddAccumulatedRangeData_odometry_state_nf]
    exact ⟨rfl, rfl⟩

/-- `Predict` keeps the translation of the pose when the velocity estimate is zero, and
never writes the velocity estimate or the time of the last scan match. -/
theorem Predict_translation (E : Ext Rot) (s s1 : Builder E) (time : Time)
    (h : Predict E s time = .ok s1) :
    s1.velocity_estimate_ = s.velocity_estimate_ ∧
    s1.last_scan_match_time_ = s.last_scan_match_time_ ∧
    (s.velocity_estimate_ = Vec2.Zero →
      s1.pose_estimate_.translation = s.pose_estimate_.translation) := by
  obtain ⟨imu, _, _, rfl⟩ := Predict_ok E s s1 time h
  refine ⟨rfl, rfl, fun hv => ?_⟩
  simp only
  split
  · simp only [hv, Vec2.Zero, Vec3.add, Vec3.smul, mul_zero, add_zero]
  · rfl

/-- One call keeps the time of the last scan match at `Time_min` and the velocity estimate
at zero. -/
theorem step_velocity (E : Ext Rot) (o : Options) (s s1 : Builder E) (c : Call Rot)
    (r : Option (InsertionResult E)) (h : step E o s c = .ok (s1, r))
    (hv : s.last_scan_match_time_ = Time_min ∧ s.velocity_estimate_ = Vec2.Zero) :
    s1.last_scan_match_time_ = Time_min ∧ s1.velocity_estimate_ = Vec2.Zero := by
  cases c with
  | imu t a w q =>
    simp only [step] at h
    split at h
    · cases h
    · rename_i s2 h2
      simp only [Except.ok.injEq, Prod.mk.injEq] at h
      obtain ⟨rfl, _⟩ := h
      obtain ⟨_, sp, imu, pt, hp, rfl⟩ := AddImuData_ok E o s s2 t a w q h2
      have := Predict_translation E _ sp t hp
      rw [InitializeImuTracker_eq] at this
      simp only at this ⊢
      rw [this.1, this.2.1]
      exact hv
  | odometer t p =>
    simp only [step] at h
    split at h
    · cases h
    · rename_i s2 h2
      simp only [Except.ok.injEq, Prod.mk.injEq] at h
      obtain ⟨rfl, _⟩ := h
      rcases AddOdometerData_ok E s s2 t p h2 with ⟨_, rfl⟩ | ⟨_, _, sp, imu, pt, hp, _, _, rfl⟩
      · exact hv
      · have := Predict_translation E s sp t hp
        rw [AddOdometerData_observe_nf]
        simp only
        rw [this.1, this.2.1]
        exact hv
  | range t rd =>
    simp only [step] at h
    rcases AddHorizontalRangeData_ok E o s s1 t rd r h with ⟨_, rfl, _⟩ | ⟨s0, hb⟩
    · exact hv
    · have hv0 : s0.last_scan_match_time_ = Time_min ∧ s0.velocity_estimate_ = Vec2.Zero := by
        obtain ⟨sp, hp, rfl⟩ := AddHorizontalRangeData_begin_ok E o s s0 t hb
        have := Predict_translation E _ sp t hp
        simp only at this
        by_cases hn : sp.num_accumulated_ = 0
        · rw [if_pos hn]
          simp only
          rw [this.1, this.2.1]
          exact hv
        · rw [if_neg hn, this.1, this.2.1]
          exact hv
      unfold AddHorizontalRangeData at h
      rw [AddHorizontalRangeData_accumulate_of_begin E o s _ t rd hb] at h
      by_cases hN : s0.num_accumulated_ + 1 ≥ o.scans_per_accumulation
      · rw [if_pos hN] at h
        have := AddAccumulatedRangeData_velocity_unset E o _ s1 t _ r h hv0.1
        simp only at this
        rw [this.1, this.2]
        exact hv0
      · rw [if_neg hN] at h
        simp only [Except.ok.injEq, Prod.mk.injEq] at h
        rw [← h.1]
        exact hv0

/-- A returning run keeps the time of the last scan match at `Time_min` and the velocity
estimate at zero. -/
theorem run_velocity (E : Ext Rot) (o : Options) (cs : List (Call Rot)) (s s1 : Builder E)
    (rs : List (InsertionResult E)) (h : run E o s cs = .ok (s1, rs))
    (hv : s.last_scan_match_time_ = Time_min ∧ s.velocity_estimate_ = Vec2.Zero) :
    s1.last_scan_match_time_ = Time_min ∧ s1.velocity_estimate_ = Vec2.Zero := by
  induction cs generalizing s rs with
  | nil =>
    simp only [run, Except.ok.injEq, Prod.mk.injEq] at h
    rw [← h.1]
    exact hv
  | cons c cs ih =>
    obtain ⟨s2, r, rs1, hs, hr, _⟩ := run_cons E o s s1 c cs rs h
    exact ih s2 rs1 hr (step_velocity E o s s2 c r hs hv)

/-- With a zero velocity estimate, an IMU or odometer call leaves the translation of the
pose where it was. -/
theorem step_translation (E : Ext Rot) (o : Options) (s s1 : Builder E) (c : Call Rot)
    (r : Option (InsertionResult E)) (h : step E o s c = .ok (s1, r))
    (hv : s.velocity_estimate_ = Vec2.Zero) (hc : ∀ t rd, c ≠ .range t rd) :
    s1.pose_estimate_.translation = s.pose_estimate_.translation := by
  cases c with
  | imu t a w q =>
    simp only [step] at h
    split at h
    · cases h
    · rename_i s2 h2
      simp only [Except.ok.injEq, Prod.mk.injEq] at h
      obtain ⟨rfl, _⟩ := h
      obtain ⟨_, sp, imu, pt, hp, rfl⟩ := AddImuData_ok E o s s2 t a w q h2
      have := (Predict_translation E _ sp t hp).2.2
      rw [InitializeImuTracker_eq] at this
      exact this hv
  | odometer t p =>
    simp only [step] at h
    split at h
    · cases h
    · rename_i s2 h2
      simp only [Except.ok.injEq, Prod.mk.injEq] at h
      obtain ⟨rfl, _⟩ := h
      rcases AddOdometerData_ok E s s2 t p h2 with ⟨_, rfl⟩ | ⟨_, _, sp, imu, pt, hp, _, _, rfl⟩
      · rfl
      · rw [AddOdometerData_observe_nf]
        exact (Predict_translation E s sp t hp).2.2 hv
  | range t rd => exact absurd rfl (hc t rd)

/-- With a zero velocity estimate, the state a scan is accumulated in has the translation
of the pose where it was before `Predict`. -/
theorem AddHorizontalRangeData_begin_translation (E : Ext Rot) (o : Options)
    (s s0 : Builder E) (time : Time)
    (h : AddHorizontalRangeData_begin E o s time = .ok (some s0))
    (hv : s.velocity_estimate_ = Vec2.Zero) :
    s0.pose_estimate_.translation = s.pose_estimate_.translation := by
  obtain ⟨sp, hp, rfl⟩ := AddHorizontalRangeData_begin_ok E o s s0 time h
  have := (Predict_translation E _ sp time hp).2.2 hv
  simp only at this
  by_cases hn : sp.num_accumulated_ = 0
  · rw [if_pos hn]
    exact this
  · rw [if_neg hn]
    exact this

/-- `AddOdometerData` drops the sample and returns the state it was called on when the
pose tracker is not set. -/
theorem AddOdometerData_dropped (E : Ext Rot) (s : Builder E) (time : Time)
    (p : Rigid3d Rot) (hpt : s.pose_tracker_ = none) :
    AddOdometerData E s time p = .ok s := by
  unfold AddOdometerData
  split
  · rfl
  · rfl
  · rename_i pt _ h2
    rw [hpt] at h2
    cases h2

/-- With the IMU disabled, a returning call leaves the pose tracker unset. -/
theorem step_pose_tracker (E : Ext Rot) (o : Options) (hu : o.use_imu_data = false)
    (s s1 : Builder E) (c : Call Rot) (r : Option (InsertionResult E))
    (h : step E o s c = .ok (s1, r)) (hpt : s.pose_tracker_ = none) :
    s1.pose_tracker_ = none := by
  cases c with
  | imu t a w q =>
    simp only [step] at h
    split at h
    · cases h
    · rename_i s2 h2
      have := (AddImuData_ok E o s s2 t a w q h2).1
      rw [hu] at this
      cases this
  | odometer t p =>
    simp only [step] at h
    rw [AddOdometerData_dropped E s t p hpt] at h
    simp only [Except.ok.injEq, Prod.mk.injEq] at h
    rw [← h.1]
    exact hpt
  | range t rd =>
    simp only [step] at h
    rcases AddHorizontalRangeData_ok E o s s1 t rd r h with ⟨_, rfl, _⟩ | ⟨s0, hb⟩
    · exact hpt
    · have h0 : s0.pose_tracker_ = none := by
        obtain ⟨sp, hp, rfl⟩ := AddHorizontalRangeData_begin_ok E o s s0 t hb
        obtain ⟨imu, _, _, rfl⟩ := Predict_ok E _ sp t hp
        simp only
        split <;> exact hpt
      unfold AddHorizontalRangeData at h
      rw [AddHorizontalRangeData_accumulate_of_begin E o s _ t rd hb] at h
      by_cases hN : s0.num_accumulated_ + 1 ≥ o.scans_per_accumulation
      · rw [if_pos hN] at h
        rw [(AddAccumulatedRangeData_frame E o _ s1 t _ r h).2.2.1]
        exact h0
      · rw [if_neg hN] at h
        simp only [Except.ok.injEq, Prod.mk.injEq] at h
        rw [← h.1]
        exact h0

/-- With the IMU disabled, a returning run from a state whose pose tracker is unset ends
with the pose tracker unset, and returns the same state and results when its odometer
samples are left out. -/
theorem run_without_odometer (E : Ext Rot) (o : Options) (hu : o.use_imu_data = false)
    (cs : List (Call Rot)) (s s1 : Builder E) (rs : List (InsertionResult E))
    (h : run E o s cs = .ok (s1, rs)) (hpt : s.pose_tracker_ = none) :
    s1.pose_tracker_ = none ∧
      run E o s (cs.filter (fun c => !isOdometer c)) = .ok (s1, rs) := by
  induction cs generalizing s rs with
  | nil =>
    simp only [run, Except.ok.injEq, Prod.mk.injEq] at h
    refine ⟨h.1 ▸ hpt, ?_⟩
    simp only [List.filter_nil, run, h.1, h.2]
  | cons c cs ih =>
    obtain ⟨s2, r, rs1, hs, hr, rfl⟩ := run_cons E o s s1 c cs rs h
    have hpt2 := step_pose_tracker E o hu s s2 c r hs hpt
    obtain ⟨ih1, ih2⟩ := ih s2 rs1 hr hpt2
    refine ⟨ih1, ?_⟩
    cases c with
    | odometer t p =>
      simp only [step] at hs
      rw [AddOdometerData_dropped E s t p hpt] at hs
      simp only [Except.ok.injEq, Prod.mk.injEq] at hs
      obtain ⟨rfl, rfl⟩ := hs
      rw [List.filter_cons_of_neg (by simp [isOdometer])]
      simpa using ih2
    | imu t a w q =>
      rw [List.filter_cons_of_pos (by rfl)]
      simp only [run, hs, ih2]
    | range t rd =>
      rw [List.filter_cons_of_pos (by rfl)]
      simp only [run, hs, ih2]

/-- What a scan returns, by what its accumulating part ends with: a finished batch is handed
to `AddAccumulatedRangeData`, at the time of the call and in the builder that the
accumulating part leaves, and the call returns what `AddAccumulatedRangeData` returns; a
pending or dropped scan returns no insertion result and runs no accumulated processing. -/
theorem AddHorizontalRangeData_of_accumulate (E : Ext Rot) (o : Options) (s s2 : Builder E)
    (time : Time) (rd : RangeData) (out : Accumulation)
    (h : AddHorizontalRangeData_accumulate E o s time rd = .ok (s2, out)) :
    (∀ comp, out = .complete comp →
      AddHorizontalRangeData E o s time rd = AddAccumulatedRangeData E o s2 time comp) ∧
    ((∀ comp, out ≠ .complete comp) →
      AddHorizontalRangeData E o s time rd = .ok (s2, none)) := by
  unfold AddHorizontalRangeData
  rw [h]
  cases out with
  | dropped => exact ⟨fun comp hc => (by cases hc), fun _ => rfl⟩
  | pending => exact ⟨fun comp hc => (by cases hc), fun _ => rfl⟩
  | complete c =>
    refine ⟨fun comp hc => ?_, fun hne => absurd rfl (hne c)⟩
    cases hc
    rfl

/-- The result recorded for an accumulated scan: what `AddAccumulatedRangeData` returns on
the composite, when the scan finished a batch, and no insertion result otherwise. -/
theorem accumulated_result (E : Ext Rot) (o : Options) (s : Builder E) (c : Call Rot)
    (a : Accumulated E) (h : accumulated E o s c = some a) :
    (∀ comp, a.outcome = .complete comp →
      a.result = AddAccumulatedRangeData E o a.state a.time comp) ∧
    ((∀ comp, a.outcome ≠ .complete comp) → a.result = .ok (a.state, none)) := by
  cases c with
  | imu t acc w q => simp [accumulated] at h
  | odometer t p => simp [accumulated] at h
  | range t rd =>
    simp only [accumulated] at h
    split at h
    · rename_i s0 s2 out hb hacc
      simp only [Option.some.injEq] at h
      subst h
      exact AddHorizontalRangeData_of_accumulate E o s s2 t rd out hacc
    · cases h

/-- The result recorded for every accumulated scan of a run. -/
theorem accumulations_result (E : Ext Rot) (o : Options) (cs : List (Call Rot))
    (s : Builder E) (a : Accumulated E) (h : a ∈ accumulations E o s cs) :
    (∀ comp, a.outcome = .complete comp →
      a.result = AddAccumulatedRangeData E o a.state a.time comp) ∧
    ((∀ comp, a.outcome ≠ .complete comp) → a.result = .ok (a.state, none)) := by
  induction cs generalizing s with
  | nil => simp [accumulations] at h
  | cons c cs ih =>
    simp only [accumulations] at h
    split at h
    · simp at h
    · rename_i s1 r hs
      rcases List.mem_append.mp h with h1 | h1
      · exact accumulated_result E o s c a (by simpa using h1)
      · exact ih s1 h1

/-- The accumulating part of a scan keeps the time of the last scan match at `Time_min` and
the velocity estimate at zero. -/
theorem AddHorizontalRangeData_accumulate_velocity (E : Ext Rot) (o : Options)
    (s s2 : Builder E) (time : Time) (rd : RangeData) (out : Accumulation)
    (h : AddHorizontalRangeData_accumulate E o s time rd = .ok (s2, out))
    (hv : s.last_scan_match_time_ = Time_min ∧ s.velocity_estimate_ = Vec2.Zero) :
    s2.last_scan_match_time_ = Time_min ∧ s2.velocity_estimate_ = Vec2.Zero := by
  cases hb : AddHorizontalRangeData_begin E o s time with
  | error e =>
    unfold AddHorizontalRangeData_accumulate at h
    rw [hb] at h
    cases h
  | ok x =>
    cases x with
    | none =>
      unfold AddHorizontalRangeData_accumulate at h
      rw [hb] at h
      simp only [Except.ok.injEq, Prod.mk.injEq] at h
      rw [← h.1]
      exact hv
    | some s0 =>
      have hv0 : s0.last_scan_match_time_ = Time_min ∧ s0.velocity_estimate_ = Vec2.Zero := by
        obtain ⟨sp, hp, rfl⟩ := AddHorizontalRangeData_begin_ok E o s s0 time hb
        have := Predict_translation E _ sp time hp
        simp only at this
        by_cases hn : sp.num_accumulated_ = 0
        · rw [if_pos hn]
          simp only
          rw [this.1, this.2.1]
          exact hv
        · rw [if_neg hn, this.1, this.2.1]
          exact hv
      rw [AddHorizontalRangeData_accumulate_of_begin E o s s0 time rd hb] at h
      by_cases hN : s0.num_accumulated_ + 1 ≥ o.scans_per_accumulation
      · rw [if_pos hN] at h
        simp only [Except.ok.injEq, Prod.mk.injEq] at h
        rw [← h.1]
        exact hv0
      · rw [if_neg hN] at h
        simp only [Except.ok.injEq, Prod.mk.injEq] at h
        rw [← h.1]
        exact hv0

/-- A returning run splits at any point into two returning runs. -/
theorem run_append (E : Ext Rot) (o : Options) (pre rest : List (Call Rot))
    (s s2 : Builder E) (rs : List (InsertionResult E))
    (h : run E o s (pre ++ rest) = .ok (s2, rs)) :
    ∃ s1 rs1 rs2, run E o s pre = .ok (s1, rs1) ∧ run E o s1 rest = .ok (s2, rs2) := by
  induction pre generalizing s rs with
  | nil => exact ⟨s, [], rs, run_nil E o s, h⟩
  | cons d pre ih =>
    obtain ⟨s1, r, rs1, hs, hr, _⟩ := run_cons E o s s2 d (pre ++ rest) rs h
    obtain ⟨s3, rs3, rs4, h3, h4⟩ := ih s1 rs1 hr
    refine ⟨s3, r.toList ++ rs3, rs4, ?_, h4⟩
    simp only [run, hs, h3]

/-- The records of a run are those of its first part followed by those of the rest. -/
theorem accumulations_append (E : Ext Rot) (o : Options) (pre rest : List (Call Rot))
    (s s1 : Builder E) (rs1 : List (InsertionResult E))
    (h : run E o s pre = .ok (s1, rs1)) :
    accumulations E o s (pre ++ rest) =
      accumulations E o s pre ++ accumulations E o s1 rest := by
  induction pre generalizing s rs1 with
  | nil =>
    simp only [run, Except.ok.injEq, Prod.mk.injEq] at h
    obtain ⟨rfl, _⟩ := h
    simp [accumulations]
  | cons d pre ih =>
    obtain ⟨s3, r3, rs3, hs3, hr3, _⟩ := run_cons E o s s1 d pre rs1 h
    have := ih s3 rs3 hr3
    simp only [List.cons_append, accumulations, hs3]
    change _ ++ accumulations E o s3 (pre ++ rest) = _
    rw [this, List.append_assoc]

/-- The record of an accumulated scan carries the time of the call and what the call
returns. -/
theorem accumulated_call (E : Ext Rot) (o : Options) (s : Builder E) (t : Time)
    (rd : RangeData) (a : Accumulated E) (h : accumulated E o s (.range t rd) = some a) :
    a.time = t ∧ a.result = AddHorizontalRangeData E o s t rd := by
  simp only [accumulated] at h
  split at h
  · simp only [Option.some.injEq] at h
    subst h
    exact ⟨rfl, rfl⟩
  · cases h

/-- The place of a call in the records of a run: a scan that is accumulated after a first
part of the run is recorded right after the records of that first part. -/
theorem accumulations_at (E : Ext Rot) (o : Options) (pre post : List (Call Rot))
    (c : Call Rot) (s0 s s2 : Builder E) (rs0 rs : List (InsertionResult E))
    (hcs : run E o s0 (pre ++ c :: post) = .ok (s2, rs))
    (hpre : run E o s0 pre = .ok (s, rs0)) (a : Accumulated E)
    (ha : accumulated E o s c = some a) :
    (accumulations E o s0 (pre ++ c :: post))[(accumulations E o s0 pre).length]? =
      some a := by
  rw [accumulations_append E o pre (c :: post) s0 s rs0 hpre]
  obtain ⟨s1, rs1, rs2, h1, h2⟩ := run_append E o pre (c :: post) s0 s2 rs hcs
  rw [hpre] at h1
  simp only [Except.ok.injEq, Prod.mk.injEq] at h1
  obtain ⟨rfl, _⟩ := h1
  obtain ⟨s3, r, rs3, hs, _, _⟩ := run_cons E o s s2 c post rs2 h2
  simp only [accumulations, hs, ha]
  rw [List.getElem?_append_right (le_refl _)]
  simp

end Lemmas

section Claims

variable {Rot : Type} [Mul (Rigid3d Rot)] [Inv (Rigid3d Rot)] [One (Rigid3d Rot)]

/-- C1. Range acceptance policy of `AddHorizontalRangeData`.  For a call that accumulates
its scan (the scan is not dropped and the call returns), write `scan` for the scan in the
first tracking frame and `r p` for the range of a return `p` of it.  The accumulator after
the call is the accumulator before the insertion (empty at the first scan of a batch, the
old one otherwise) with exactly these points appended, in the order of the scan: to the
returns the returns with `min_range ≤ r p ≤ max_range`; to the misses, for each return
that is not below `min_range` and has `r p > max_range`, the point
`origin + (missing_data_ray_length / r p) * (p - origin)`.  A return with `r p < min_range`
is in neither list.  With `min_range ≤ max_range` the returns turned into misses are
exactly those with `r p > max_range`. -/
theorem range_acceptance_policy (E : Ext Rot) (o : Options) (s s0 s1 : Builder E)
    (time : Time) (range_data : RangeData) (res : Option (InsertionResult E))
    (hbegin : AddHorizontalRangeData_begin E o s time = .ok (some s0))
    (hcall : AddHorizontalRangeData E o s time range_data = .ok (s1, res)) :
    let scan := E.TransformRangeData range_data (tracking_delta s0)
    let r := fun p => E.norm (Vec3.sub p scan.origin)
    let before : RangeData :=
      if s.num_accumulated_ = 0 then ⟨Vec3.Zero, [], []⟩ else s.accumulated_range_data_
    let after := s1.accumulated_range_data_
    after.origin = before.origin ∧
    after.returns = before.returns ++
      scan.returns.filter (fun p => decide (o.min_range ≤ r p ∧ r p ≤ o.max_range)) ∧
    after.misses = before.misses ++
      (scan.returns.filter (fun p => decide (o.min_range ≤ r p ∧ o.max_range < r p))).map
        (fun p => Vec3.add scan.origin
          (Vec3.smul (o.missing_data_ray_length / r p) (Vec3.sub p scan.origin))) ∧
    (o.min_range ≤ o.max_range →
      after.misses = before.misses ++
        (scan.returns.filter (fun p => decide (o.max_range < r p))).map
          (fun p => Vec3.add scan.origin
            (Vec3.smul (o.missing_data_ray_length / r p) (Vec3.sub p scan.origin)))) := by
  intro scan r before after
  have hacc := AddHorizontalRangeData_accumulated E o s s0 s1 time range_data res hbegin hcall
  have hb := (AddHorizontalRangeData_begin_accumulated E o s s0 time hbegin).1
  have hloop := loop_foldl E o scan.origin scan.returns s0.accumulated_range_data_
  have hafter : after = _ := hacc.trans hloop
  rw [hb] at hafter
  have hm : after.misses = before.misses ++
      (scan.returns.filter (fun p => decide (o.min_range ≤ r p ∧ o.max_range < r p))).map
        (fun p => Vec3.add scan.origin
          (Vec3.smul (o.missing_data_ray_length / r p) (Vec3.sub p scan.origin))) := by
    rw [hafter]; rfl
  refine ⟨by rw [hafter], by rw [hafter], hm, fun hband => ?_⟩
  rw [hm]
  congr 2
  apply List.filter_congr
  intro p _
  simp only [decide_eq_decide]
  constructor
  · exact fun h => h.2
  · exact fun h => ⟨le_trans hband (le_of_lt h), h⟩

/-- Witness for C1 at the concrete collaborators: bounds 1 and 10, misses at 5, a scan at
the origin with returns at ranges 12, 5 and 1/2.  The first becomes the miss (5,0,0), the
second is kept as a return, the third is dropped. -/
theorem range_acceptance_policy_witness :
    ∃ s0 s1 res,
      AddHorizontalRangeData_begin demoExt demoOptions (Builder.fresh demoExt demoOptions 0) 10
        = .ok (some s0) ∧
      AddHorizontalRangeData demoExt demoOptions (Builder.fresh demoExt demoOptions 0) 10
        ⟨Vec3.Zero, [⟨12, 0, 0⟩, ⟨3, 4, 0⟩, ⟨1/2, 0, 0⟩], []⟩ = .ok (s1, res) ∧
      s1.accumulated_range_data_ = ⟨Vec3.Zero, [⟨3, 4, 0⟩], [⟨5, 0, 0⟩]⟩ := by
  obtain ⟨s0, hb⟩ := begun_isSome (AddHorizontalRangeData_begin demoExt
    demoOptions (Builder.fresh demoExt demoOptions 0) 10) (by decide!)
  obtain ⟨⟨s1, res⟩, hc⟩ := returned_isSome (AddHorizontalRangeData demoExt
    demoOptions (Builder.fresh demoExt demoOptions 0) 10
    ⟨Vec3.Zero, [⟨12, 0, 0⟩, ⟨3, 4, 0⟩, ⟨1/2, 0, 0⟩], []⟩) (by decide!)
  have key := range_acceptance_policy demoExt demoOptions _ s0 s1 10 _ res hb hc
  have e0 : (begun (AddHorizontalRangeData_begin demoExt demoOptions
      (Builder.fresh demoExt demoOptions 0) 10)).map tracking_delta = some 1 := by decide!
  rw [hb] at e0
  simp only [begun, Option.map_some', Option.some.injEq] at e0
  simp only [e0] at key
  obtain ⟨k1, k2, k3, k4⟩ := key
  refine ⟨s0, s1, res, hb, hc, ?_⟩
  have hs : s1.accumulated_range_data_ = ⟨s1.accumulated_range_data_.origin,
    s1.accumulated_range_data_.returns, s1.accumulated_range_data_.misses⟩ := rfl
  rw [hs, k1, k2, k3]
  decide!

/-- C2, as the code has it.  A return of `AddAccumulatedRangeData` that got past the check
for empty returns (whether or not the motion filter lets the scan through) leaves
`odometry_correction_` equal to the identity; the return taken when the filtered returns
are empty leaves the whole state, `odometry_correction_` included, as it was. -/
theorem odometry_correction_after_accumulated (E : Ext Rot) (o : Options)
    (s s1 : Builder E) (time : Time) (range_data : RangeData)
    (res : Option (InsertionResult E))
    (h : AddAccumulatedRangeData E o s time range_data = .ok (s1, res)) :
    ((TransformAndFilterRangeData E o
        (tracking_to_tracking_2d E (s.pose_estimate_ * s.odometry_correction_))
        range_data).returns ≠ [] → s1.odometry_correction_ = 1) ∧
    ((TransformAndFilterRangeData E o
        (tracking_to_tracking_2d E (s.pose_estimate_ * s.odometry_correction_))
        range_data).returns = [] → s1 = s ∧ res = none) := by
  rcases AddAccumulatedRangeData_cases E o s s1 time range_data res h with
    ⟨he, rfl, rfl⟩ | ⟨hne, sm, _, h1⟩
  · exact ⟨fun hn => absurd he hn, fun _ => ⟨rfl, rfl⟩⟩
  · refine ⟨fun _ => ?_, fun he => absurd he hne⟩
    have h2 := congrArg Prod.fst h1
    simp only at h2
    subst h2
    rw [AddAccumulatedRangeData_insert_nf]
    simp only [AddAccumulatedRangeData_pose]
    rw [AddAccumulatedRangeData_velocity_nf]
    simp only
    rw [AddAccumulatedRangeData_odometry_state_nf]

/-- Witness for C2: in the state reached through `demoOdometryCalls` the odometry
correction is not the identity; an accumulated scan with returns left after filtering
resets it. -/
theorem odometry_correction_after_accumulated_witness :
    ∃ s1 res,
      AddAccumulatedRangeData demoExt demoImuOptions demoAfterOdometry 3 demoScan
        = .ok (s1, res) ∧
      demoAfterOdometry.odometry_correction_ ≠ 1 ∧
      (TransformAndFilterRangeData demoExt demoImuOptions
        (tracking_to_tracking_2d demoExt
          (demoAfterOdometry.pose_estimate_ * demoAfterOdometry.odometry_correction_))
        demoScan).returns ≠ [] ∧
      s1.odometry_correction_ = 1 := by
  obtain ⟨⟨s1, res⟩, hc⟩ := returned_isSome (AddAccumulatedRangeData demoExt demoImuOptions
    demoAfterOdometry 3 demoScan) (by decide!)
  have hne : (TransformAndFilterRangeData demoExt demoImuOptions
        (tracking_to_tracking_2d demoExt
          (demoAfterOdometry.pose_estimate_ * demoAfterOdometry.odometry_correction_))
        demoScan).returns ≠ [] := by decide!
  exact ⟨s1, res, hc, by decide!, hne,
    (odometry_correction_after_accumulated demoExt demoImuOptions demoAfterOdometry s1 3
      demoScan res hc).1 hne⟩

/-- Counterexample to C2 as stated: in the state reached through `demoOdometryCalls`,
`AddAccumulatedRangeData` on a scan without returns returns, and `odometry_correction_` is
the translation by (1,0,0) after it, not the identity. -/
theorem odometry_correction_kept_on_empty_scan :
    (returned (AddAccumulatedRangeData demoExt demoImuOptions demoAfterOdometry 3
      emptyScan)).map (fun p => (p.1.odometry_correction_, p.2.isSome))
      = some (⟨⟨1, 0, 0⟩, 0⟩, false) ∧
    (⟨⟨1, 0, 0⟩, 0⟩ : Rigid3d QuarterTurn) ≠ 1 ∧
    succeeded (run demoExt demoImuOptions (Builder.fresh demoExt demoImuOptions 0)
      demoOdometryCalls) = true := by
  decide!

/-- C3, as the code has it.  For a time strictly before the time cursor: `AddImuData`
always aborts (on `CHECK_LE` in `Predict` when the IMU is enabled, on the check of
`use_imu_data` otherwise); `AddOdometerData` aborts on `CHECK_LE` when both the IMU tracker
and the pose tracker are set, and otherwise returns with the state unchanged, the sample
being dropped; `AddHorizontalRangeData` aborts on `CHECK_LE` unless the IMU is enabled and
the IMU tracker is not set yet, in which case it returns no result and leaves the state
unchanged. -/
theorem sample_before_cursor (E : Ext Rot) (o : Options) (s : Builder E) (time : Time)
    (h : time < s.time_) :
    (∀ a w q, AddImuData E o s time a w q =
      .error (if o.use_imu_data = true then Abort.check_time_le
        else Abort.check_use_imu_data)) ∧
    (∀ p, AddOdometerData E s time p =
      if s.imu_tracker_.isSome = true ∧ s.pose_tracker_.isSome = true
      then .error Abort.check_time_le else .ok s) ∧
    (∀ rd, AddHorizontalRangeData E o s time rd =
      if o.use_imu_data = true ∧ s.imu_tracker_.isSome = false then .ok (s, none)
      else .error Abort.check_time_le) := by
  refine ⟨fun a w q => ?_, fun p => ?_, fun rd => ?_⟩
  · unfold AddImuData
    by_cases hu : o.use_imu_data = true
    · have hp : Predict E (InitializeImuTracker E o
          (match s.pose_tracker_ with
          | none => { s with pose_tracker_ := some (E.PoseTracker_new time) }
          | some _ => s) time) time = .error .check_time_le := by
        apply Predict_before_cursor
        · exact InitializeImuTracker_isSome E o _ time
        · rw [InitializeImuTracker_eq]
          split <;> exact h
      simp only [hu, not_true_eq_false, if_false, if_true]
      rw [hp]
    · simp [hu]
  · unfold AddOdometerData
    split
    · rename_i h1; simp [h1]
    · rename_i h1 h2; simp [h2]
    · rename_i imu pt h1 h2
      rw [Predict_before_cursor E s time (by simp [h1]) h]
      simp [h1, h2]
  · unfold AddHorizontalRangeData AddHorizontalRangeData_accumulate
    rw [AddHorizontalRangeData_begin_before_cursor E o s time h]
    by_cases hc : o.use_imu_data = true ∧ s.imu_tracker_.isSome = false
    · rw [if_pos hc, if_pos hc]
    · rw [if_neg hc, if_neg hc]

/-- Witness for C3: the state reached through `demoOdometryCalls` has its cursor at 2 and
both trackers set; a sample at time 1 makes each of the three operations abort on
`CHECK_LE`. -/
theorem sample_before_cursor_witness :
    (1 : Time) < demoAfterOdometry.time_ ∧
    AddImuData demoExt demoImuOptions demoAfterOdometry 1 ⟨0, 0, 0⟩ ⟨0, 0, 0⟩ 0
      = .error Abort.check_time_le ∧
    AddOdometerData demoExt demoAfterOdometry 1 ⟨⟨0, 0, 0⟩, 0⟩
      = .error Abort.check_time_le ∧
    AddHorizontalRangeData demoExt demoImuOptions demoAfterOdometry 1 demoScan
      = .error Abort.check_time_le := by
  have hlt : (1 : Time) < demoAfterOdometry.time_ := by decide!
  have key := sample_before_cursor demoExt demoImuOptions demoAfterOdometry 1 hlt
  refine ⟨hlt, ?_, ?_, ?_⟩
  · rw [key.1]; rfl
  · rw [key.2.1, if_pos (by decide!)]
  · rw [key.2.2, if_neg (by decide!)]

/-- Counterexample to C3 as stated: without IMU, a scan at time 10 moves the cursor to 10;
the odometer sample at time 5 that follows is not rejected: `AddOdometerData` returns, the
pose tracker being unset, and the cursor is still 10. -/
theorem odometer_sample_before_cursor_dropped :
    succeeded (run demoExt demoOptions (Builder.fresh demoExt demoOptions 0)
      [.range 10 demoScan]) = true ∧
    demoAfterScan.time_ = 10 ∧
    (returned (AddOdometerData demoExt demoAfterScan 5 ⟨⟨0, 0, 0⟩, 0⟩)).map
      (fun s => s.time_) = some 10 := by
  decide!

/-- C4. Time cursor monotonicity.  A call of `AddImuData`, `AddOdometerData` or
`AddHorizontalRangeData` that returns leaves `time_` at least what it was; a call that is
not dropped (it reaches `Predict`) leaves `time_` equal to its time argument, and a dropped
call leaves the state, the cursor included, unchanged.  Hence over every sequence of calls
none of which aborts the cursor never decreases. -/
theorem time_cursor_monotone (E : Ext Rot) (o : Options) :
    (∀ (s s1 : Builder E) (c : Call Rot) (r : Option (InsertionResult E)),
      step E o s c = .ok (s1, r) →
        s.time_ ≤ s1.time_ ∧ (dropped o s c = false → s1.time_ = c.time) ∧
          (dropped o s c = true → s1.time_ = s.time_)) ∧
    (∀ (cs : List (Call Rot)) (s s1 : Builder E) (rs : List (InsertionResult E)),
      run E o s cs = .ok (s1, rs) → s.time_ ≤ s1.time_) := by
  refine ⟨fun s s1 c r h => ?_, fun cs s s1 rs h => run_time E o cs s s1 rs h⟩
  have := step_time E o s s1 c r h
  exact ⟨this.1, this.2.1, fun hd => by rw [this.2.2 hd]⟩

/-- Witness for C4: the three calls of `demoOdometryCalls` return from a fresh builder and
move the cursor from `Time_min` to 2. -/
theorem time_cursor_monotone_witness :
    ∃ s1 rs,
      run demoExt demoImuOptions (Builder.fresh demoExt demoImuOptions 0) demoOdometryCalls
        = .ok (s1, rs) ∧
      (Builder.fresh demoExt demoImuOptions 0).time_ ≤ s1.time_ ∧
      (returned (run demoExt demoImuOptions (Builder.fresh demoExt demoImuOptions 0)
        demoOdometryCalls)).map (fun p => p.1.time_) = some 2 := by
  obtain ⟨⟨s1, rs⟩, hr⟩ := returned_isSome (run demoExt demoImuOptions
    (Builder.fresh demoExt demoImuOptions 0) demoOdometryCalls) (by decide!)
  exact ⟨s1, rs, hr,
    (time_cursor_monotone demoExt demoImuOptions).2 demoOdometryCalls _ s1 rs hr, by decide!⟩

/-- C5. Every insertion result returned by `AddHorizontalRangeData` at time `t` carries
the time `t`; over every sequence of calls none of which aborts, the insertion results,
in the order they were emitted, have non-decreasing times. -/
theorem insertion_result_times (E : Ext Rot) (o : Options) :
    (∀ (s s1 : Builder E) (t : Time) (rd : RangeData) (r : InsertionResult E),
      AddHorizontalRangeData E o s t rd = .ok (s1, some r) → r.time = t) ∧
    (∀ (cs : List (Call Rot)) (s s1 : Builder E) (rs : List (InsertionResult E)),
      run E o s cs = .ok (s1, rs) → List.Pairwise (fun a b => a.time ≤ b.time) rs) := by
  exact ⟨fun s s1 t rd r h => (AddHorizontalRangeData_result_time E o s s1 t rd r h).1,
    fun cs s s1 rs h => (run_results_sorted E o cs s s1 rs h).2⟩

/-- Witness for C5: the run of `demoMixedCalls` from a fresh builder returns and emits two
insertion results, at the times 2 and 4 of its two scans. -/
theorem insertion_result_times_witness :
    ∃ s1 rs,
      run demoExt demoImuOptions (Builder.fresh demoExt demoImuOptions 0) demoMixedCalls
        = .ok (s1, rs) ∧
      rs.map (fun r => r.time) = [2, 4] ∧
      List.Pairwise (fun a b => a.time ≤ b.time) rs := by
  obtain ⟨⟨s1, rs⟩, hr⟩ := returned_isSome (run demoExt demoImuOptions
    (Builder.fresh demoExt demoImuOptions 0) demoMixedCalls) (by decide!)
  have ht : (returned (run demoExt demoImuOptions (Builder.fresh demoExt demoImuOptions 0)
      demoMixedCalls)).map (fun p => p.2.map (fun r => r.time)) = some [2, 4] := by decide!
  rw [hr] at ht
  simp only [returned, Option.map_some', Option.some.injEq] at ht
  exact ⟨s1, rs, hr, ht,
    (insertion_result_times demoExt demoImuOptions).2 demoMixedCalls _ s1 rs hr⟩

/-- C6. The z component of the translation of `pose_estimate().pose` is 0 after every
accumulated scan.  Provided the identity transform has z component 0: an accumulated scan
that gets past the check for empty returns leaves the pose returned by `pose_estimate()`
and the internal `pose_estimate_` with z component 0, from whatever state; and in every
state reached from a freshly constructed builder by calls none of which aborts, both have
z component 0. -/
theorem pose_estimate_z_zero (E : Ext Rot) (o : Options)
    (hI : (1 : Rigid3d Rot).translation.z = 0) :
    (∀ (s s1 : Builder E) (t : Time) (rd : RangeData) (res : Option (InsertionResult E)),
      AddAccumulatedRangeData E o s t rd = .ok (s1, res) →
      (TransformAndFilterRangeData E o
        (tracking_to_tracking_2d E (s.pose_estimate_ * s.odometry_correction_)) rd).returns ≠ [] →
      (pose_estimate s1).pose.translation.z = 0 ∧ s1.pose_estimate_.translation.z = 0) ∧
    (∀ (mode0 : Int) (cs : List (Call Rot)) (s : Builder E) (rs : List (InsertionResult E)),
      run E o (Builder.fresh E o mode0) cs = .ok (s, rs) →
      (pose_estimate s).pose.translation.z = 0 ∧ s.pose_estimate_.translation.z = 0) := by
  constructor
  · intro s s1 t rd res h hne
    rcases AddAccumulatedRangeData_z E o s s1 t rd res h with ⟨he, _, _⟩ | ⟨h1, h2, _⟩
    · exact absurd he hne
    · exact ⟨by unfold pose_estimate; rw [h2]; exact h1, h1⟩
  · intro mode0 cs s rs h
    have := run_z E o cs _ s rs h ⟨hI, hI⟩
    exact ⟨this.2, this.1⟩

/-- Witness for C6: the identity of the concrete transforms has z component 0, and after
the run of `demoMixedCalls` the pose returned by `pose_estimate()` is the translation by
(1,0,0). -/
theorem pose_estimate_z_zero_witness :
    (1 : Rigid3d QuarterTurn).translation.z = 0 ∧
    ∃ s rs,
      run demoExt demoImuOptions (Builder.fresh demoExt demoImuOptions 0) demoMixedCalls
        = .ok (s, rs) ∧
      (pose_estimate s).pose.translation.z = 0 ∧ s.pose_estimate_.translation.z = 0 ∧
      (returned (run demoExt demoImuOptions (Builder.fresh demoExt demoImuOptions 0)
        demoMixedCalls)).map (fun p => (pose_estimate p.1).pose) = some ⟨⟨1, 0, 0⟩, 0⟩ := by
  have hI : (1 : Rigid3d QuarterTurn).translation.z = 0 := by decide!
  obtain ⟨⟨s, rs⟩, hr⟩ := returned_isSome (run demoExt demoImuOptions
    (Builder.fresh demoExt demoImuOptions 0) demoMixedCalls) (by decide!)
  have key := (pose_estimate_z_zero demoExt demoImuOptions hI).2 0 demoMixedCalls s rs hr
  exact ⟨hI, s, rs, hr, key.1, key.2, by decide!⟩

/-- C7. Empty observation.  When the returns of the accumulated range data are empty after
the transform, the crop and the voxel filter, `AddAccumulatedRangeData` returns no
insertion result and the builder it returns is the builder it was called on: no member is
changed, the two scan matchers included, so neither matcher was invoked. -/
theorem empty_observation (E : Ext Rot) (o : Options) (s : Builder E) (time : Time)
    (range_data : RangeData)
    (h : (TransformAndFilterRangeData E o
      (tracking_to_tracking_2d E (s.pose_estimate_ * s.odometry_correction_))
      range_data).returns = []) :
    AddAccumulatedRangeData E o s time range_data = .ok (s, none) := by
  unfold AddAccumulatedRangeData
  simp [h]

/-- Witness for C7: the only return of `highScan` is cropped away, and the call leaves the
matchers of the state reached through `demoOdometryCalls` with the invocation counts they
had. -/
theorem empty_observation_witness :
    (TransformAndFilterRangeData demoExt demoImuOptions
      (tracking_to_tracking_2d demoExt
        (demoAfterOdometry.pose_estimate_ * demoAfterOdometry.odometry_correction_))
      highScan).returns = [] ∧
    AddAccumulatedRangeData demoExt demoImuOptions demoAfterOdometry 3 highScan
      = .ok (demoAfterOdometry, none) :=
  ⟨by decide!, empty_observation demoExt demoImuOptions demoAfterOdometry 3 highScan
    (by decide!)⟩

/-- C8. Batching.  With `scans_per_accumulation = N ≥ 1`, take any sequence of calls from a
freshly constructed builder none of which aborts, and number from 1 the scans that are
accumulated (the calls of `AddHorizontalRangeData` that are not dropped).  After the
sequence the counter `num_accumulated_` is the number of accumulated scans modulo `N`, so
it lies in `[0, N)`.  The `k`-th accumulated scan hands a composite to
`AddAccumulatedRangeData` exactly when `N` divides `k`: the call then returns what
`AddAccumulatedRangeData` returns, at the time of the call and in the builder the
accumulating part leaves, on `TransformRangeData` by the inverse of `tracking_delta` of the
range data whose origin is zero and whose returns and misses are those the range policy
makes of the `N` scans numbered `k - N + 1, ..., k`, nothing else; otherwise the call
returns no insertion result and leaves the builder of the accumulating part.  This is said
twice: of the record of every accumulated scan, and of the call `AddHorizontalRangeData`
itself at every place of the sequence, the scans accumulated before that place being
counted.  For `N = 1` every accumulated scan is handed to `AddAccumulatedRangeData`.
(Indices `k` below count from 0.) -/
theorem batching (E : Ext Rot) (o : Options) (hN : 1 ≤ o.scans_per_accumulation)
    (mode0 : Int) (cs : List (Call Rot)) (s1 : Builder E) (rs : List (InsertionResult E))
    (h : run E o (Builder.fresh E o mode0) cs = .ok (s1, rs)) :
    (0 ≤ s1.num_accumulated_ ∧ s1.num_accumulated_ < o.scans_per_accumulation ∧
      s1.num_accumulated_ =
        (((accumulations E o (Builder.fresh E o mode0) cs).length %
          o.scans_per_accumulation.toNat : Nat) : Int)) ∧
    (∀ (k : Nat) (a : Accumulated E),
      (accumulations E o (Builder.fresh E o mode0) cs)[k]? = some a →
      (a.outcome =
        if o.scans_per_accumulation.toNat ∣ k + 1 then
          .complete (E.TransformRangeData
            (composite E o
              ((((accumulations E o (Builder.fresh E o mode0) cs).take (k + 1)).drop
                (k + 1 - o.scans_per_accumulation.toNat)).map (fun a => a.scan)))
            a.delta⁻¹)
        else .pending) ∧
      (a.result =
        if o.scans_per_accumulation.toNat ∣ k + 1 then
          AddAccumulatedRangeData E o a.state a.time (E.TransformRangeData
            (composite E o
              ((((accumulations E o (Builder.fresh E o mode0) cs).take (k + 1)).drop
                (k + 1 - o.scans_per_accumulation.toNat)).map (fun a => a.scan)))
            a.delta⁻¹)
        else .ok (a.state, none))) ∧
    (∀ (pre post : List (Call Rot)) (t : Time) (rd : RangeData) (s : Builder E)
        (rs0 : List (InsertionResult E)) (a : Accumulated E),
      cs = pre ++ .range t rd :: post →
      run E o (Builder.fresh E o mode0) pre = .ok (s, rs0) →
      accumulated E o s (.range t rd) = some a →
      (accumulations E o (Builder.fresh E o mode0) cs)[
          (accumulations E o (Builder.fresh E o mode0) pre).length]? = some a ∧
      AddHorizontalRangeData E o s t rd =
        if o.scans_per_accumulation.toNat ∣
            (accumulations E o (Builder.fresh E o mode0) pre).length + 1 then
          AddAccumulatedRangeData E o a.state t (E.TransformRangeData
            (composite E o
              ((((accumulations E o (Builder.fresh E o mode0) cs).take
                  ((accumulations E o (Builder.fresh E o mode0) pre).length + 1)).drop
                ((accumulations E o (Builder.fresh E o mode0) pre).length + 1 -
                  o.scans_per_accumulation.toNat)).map (fun a => a.scan)))
            a.delta⁻¹)
        else .ok (a.state, none)) ∧
    (o.scans_per_accumulation = 1 →
      ∀ a ∈ accumulations E o (Builder.fresh E o mode0) cs,
        ∃ c, a.outcome = .complete c ∧
          a.result = AddAccumulatedRangeData E o a.state a.time c) := by
  obtain ⟨h1, _, h3⟩ := batching_invariant E o hN mode0 cs s1 rs h
  have hlt : (accumulations E o (Builder.fresh E o mode0) cs).length %
      o.scans_per_accumulation.toNat < o.scans_per_accumulation.toNat :=
    Nat.mod_lt _ (by omega)
  have hrec : ∀ (k : Nat) (a : Accumulated E),
      (accumulations E o (Builder.fresh E o mode0) cs)[k]? = some a →
      (a.outcome =
        if o.scans_per_accumulation.toNat ∣ k + 1 then
          .complete (E.TransformRangeData
            (composite E o
              ((((accumulations E o (Builder.fresh E o mode0) cs).take (k + 1)).drop
                (k + 1 - o.scans_per_accumulation.toNat)).map (fun a => a.scan)))
            a.delta⁻¹)
        else .pending) ∧
      (a.result =
        if o.scans_per_accumulation.toNat ∣ k + 1 then
          AddAccumulatedRangeData E o a.state a.time (E.TransformRangeData
            (composite E o
              ((((accumulations E o (Builder.fresh E o mode0) cs).take (k + 1)).drop
                (k + 1 - o.scans_per_accumulation.toNat)).map (fun a => a.scan)))
            a.delta⁻¹)
        else .ok (a.state, none)) := by
    intro k a hk
    have ho := h3 k a hk
    have hr := accumulations_result E o cs _ a (List.mem_iff_getElem?.mpr ⟨k, hk⟩)
    refine ⟨ho, ?_⟩
    by_cases hd : o.scans_per_accumulation.toNat ∣ k + 1
    · rw [if_pos hd] at ho ⊢
      exact hr.1 _ ho
    · rw [if_neg hd] at ho ⊢
      refine hr.2 (fun comp hc => ?_)
      rw [ho] at hc
      cases hc
  refine ⟨⟨by omega, by omega, h1⟩, hrec, ?_, fun hone a ha => ?_⟩
  · intro pre post t rd s rs0 a hcs hpre ha
    have hat : (accumulations E o (Builder.fresh E o mode0) cs)[
        (accumulations E o (Builder.fresh E o mode0) pre).length]? = some a := by
      rw [hcs]
      exact accumulations_at E o pre post (.range t rd) _ s s1 rs0 rs (hcs ▸ h) hpre a ha
    obtain ⟨ht, hres⟩ := accumulated_call E o s t rd a ha
    have := (hrec _ a hat).2
    rw [hres, ht] at this
    exact ⟨hat, this⟩
  · obtain ⟨k, hk⟩ := List.mem_iff_getElem?.mp ha
    have := hrec k a hk
    rw [hone] at this
    rw [if_pos (by simp), if_pos (by simp)] at this
    exact ⟨_, this.1, this.2⟩

/-- Witness for C8: with two scans per accumulation and no IMU, two scans from a fresh
builder give one accumulated processing, by the second scan, on the composite of both
scans, and one insertion result; the counter is 0 again afterwards.  The first call
returns no insertion result; the second call returns what `AddAccumulatedRangeData`
returns on the composite of both scans. -/
theorem batching_witness :
    (1 : Int) ≤ demoPairOptions.scans_per_accumulation ∧
    ∃ s1 rs,
      run demoExt demoPairOptions (Builder.fresh demoExt demoPairOptions 0)
        [.range 1 demoScan, .range 2 demoScan] = .ok (s1, rs) ∧
      (0 ≤ s1.num_accumulated_ ∧ s1.num_accumulated_ < 2) ∧
      rs.length = 1 ∧
      (accumulations demoExt demoPairOptions (Builder.fresh demoExt demoPairOptions 0)
        [.range 1 demoScan, .range 2 demoScan]).map (fun a => a.outcome) =
        [.pending,
          .complete ⟨Vec3.Zero, [⟨3, 4, 0⟩, ⟨3, 4, 0⟩], [⟨5, 0, 0⟩, ⟨5, 0, 0⟩]⟩] ∧
      (∃ a0,
        accumulated demoExt demoPairOptions (Builder.fresh demoExt demoPairOptions 0)
          (.range 1 demoScan) = some a0 ∧
        AddHorizontalRangeData demoExt demoPairOptions
          (Builder.fresh demoExt demoPairOptions 0) 1 demoScan = .ok (a0.state, none)) ∧
      (∃ rs0 a,
        run demoExt demoPairOptions (Builder.fresh demoExt demoPairOptions 0)
          [.range 1 demoScan] = .ok (demoAfterFirstOfPair, rs0) ∧
        accumulated demoExt demoPairOptions demoAfterFirstOfPair (.range 2 demoScan) = some a ∧
        AddHorizontalRangeData demoExt demoPairOptions demoAfterFirstOfPair 2 demoScan =
          AddAccumulatedRangeData demoExt demoPairOptions a.state 2
            ⟨Vec3.Zero, [⟨3, 4, 0⟩, ⟨3, 4, 0⟩], [⟨5, 0, 0⟩, ⟨5, 0, 0⟩]⟩) := by
  have hN : (1 : Int) ≤ demoPairOptions.scans_per_accumulation := by decide
  obtain ⟨⟨s1, rs⟩, hr⟩ := returned_isSome (run demoExt demoPairOptions
    (Builder.fresh demoExt demoPairOptions 0) [.range 1 demoScan, .range 2 demoScan])
    (by decide!)
  have key := batching demoExt demoPairOptions hN 0 _ s1 rs hr
  have hl : (returned (run demoExt demoPairOptions (Builder.fresh demoExt demoPairOptions 0)
      [.range 1 demoScan, .range 2 demoScan])).map (fun p => p.2.length) = some 1 := by
    decide!
  rw [hr] at hl
  simp only [returned, Option.map_some', Option.some.injEq] at hl
  refine ⟨hN, s1, rs, hr, ⟨key.1.1, key.1.2.1⟩, hl, by decide!, ?_, ?_⟩
  · obtain ⟨a0, ha0⟩ := Option.isSome_iff_exists.mp
      (show (accumulated demoExt demoPairOptions (Builder.fresh demoExt demoPairOptions 0)
        (.range 1 demoScan)).isSome = true by decide!)
    have k0 := (key.2.2.1 [] [.range 2 demoScan] 1 demoScan _ [] a0 rfl
      (run_nil demoExt demoPairOptions _) ha0).2
    rw [if_neg (by decide!)] at k0
    exact ⟨a0, ha0, k0⟩
  · obtain ⟨⟨s, rs0⟩, hpre⟩ := returned_isSome (run demoExt demoPairOptions
      (Builder.fresh demoExt demoPairOptions 0) [.range 1 demoScan]) (by decide!)
    have hs : demoAfterFirstOfPair = s := by
      unfold demoAfterFirstOfPair
      rw [hpre]
    rw [← hs] at hpre
    obtain ⟨a, ha⟩ := Option.isSome_iff_exists.mp
      (show (accumulated demoExt demoPairOptions demoAfterFirstOfPair
        (.range 2 demoScan)).isSome = true by decide!)
    have k1 := key.2.2.1 [.range 1 demoScan] [] 2 demoScan demoAfterFirstOfPair rs0 a rfl hpre ha
    have hd : demoPairOptions.scans_per_accumulation.toNat ∣
        (accumulations demoExt demoPairOptions (Builder.fresh demoExt demoPairOptions 0)
          [.range 1 demoScan]).length + 1 := by decide!
    have ho := (key.2.1 _ a k1.1).1
    have hres := k1.2
    rw [if_pos hd] at ho hres
    have ho2 : (accumulated demoExt demoPairOptions demoAfterFirstOfPair
        (.range 2 demoScan)).map (fun a => a.outcome) =
        some (.complete ⟨Vec3.Zero, [⟨3, 4, 0⟩, ⟨3, 4, 0⟩], [⟨5, 0, 0⟩, ⟨5, 0, 0⟩]⟩) := by
      decide!
    rw [ha] at ho2
    simp only [Option.map_some', Option.some.injEq] at ho2
    rw [Accumulation.complete.inj (ho.symm.trans ho2)] at hres
    exact ⟨rs0, a, hpre, ha, hres⟩

/-- C9, as the code has it.  (1) A processed `AddOdometerData` call with a non-empty
history, `sp` being the state after its `Predict`: when the squared planar distance between
the raw odometer translation and `pose_estimate_` exceeds 5, the mode flag is 1 and the
counter `times_` is 299 after the call (set to 300 and decremented by the priority branch
of the same call); when the distance does not exceed 5, the call decrements the counter by
one and keeps the flag if the counter is above 1, and clears the flag and keeps the counter
otherwise.  (2) `AddAccumulatedRangeData` never changes the counter or the flag, and
leaves `velocity_estimate_` unchanged when the counter is exactly 299.  (3) No IMU or range
call changes the counter or the flag.  So the window is counted in odometer samples, not
in accumulated scans.  (4) No accumulated scan updates `velocity_estimate_`, during the
window or outside it: in every state reached from a freshly constructed builder by calls
none of which aborts, the accumulating part of a scan leaves `velocity_estimate_` as it
was, `AddAccumulatedRangeData` run in the builder the accumulating part leaves does so
too, and so does every call as a whole. -/
theorem odometer_priority_window (E : Ext Rot) (o : Options) :
    (∀ (s sp s1 : Builder E) (time : Time) (p : Rigid3d Rot) (prev : OdometryState Rot),
      Predict E s time = .ok sp → s.pose_tracker_ ≠ none →
      s.odometry_state_tracker_.newest = some prev →
      AddOdometerData E s time p = .ok s1 →
      (((p.translation.x - sp.pose_estimate_.translation.x) *
            (p.translation.x - sp.pose_estimate_.translation.x) +
          (p.translation.y - sp.pose_estimate_.translation.y) *
            (p.translation.y - sp.pose_estimate_.translation.y) > 5) →
        s1.mode_odo_first_choice_ = 1 ∧ s1.times_ = 299) ∧
      (¬ ((p.translation.x - sp.pose_estimate_.translation.x) *
            (p.translation.x - sp.pose_estimate_.translation.x) +
          (p.translation.y - sp.pose_estimate_.translation.y) *
            (p.translation.y - sp.pose_estimate_.translation.y) > 5) →
        (s.times_ > 1 →
          s1.times_ = s.times_ - 1 ∧ s1.mode_odo_first_choice_ = s.mode_odo_first_choice_) ∧
        (¬ s.times_ > 1 → s1.mode_odo_first_choice_ = 0 ∧ s1.times_ = s.times_))) ∧
    (∀ (s s1 : Builder E) (t : Time) (rd : RangeData) (res : Option (InsertionResult E)),
      AddAccumulatedRangeData E o s t rd = .ok (s1, res) →
      s1.times_ = s.times_ ∧ s1.mode_odo_first_choice_ = s.mode_odo_first_choice_ ∧
        (s.times_ = 299 → s1.velocity_estimate_ = s.velocity_estimate_)) ∧
    (∀ (s s1 : Builder E) (c : Call Rot) (r : Option (InsertionResult E)),
      step E o s c = .ok (s1, r) → (∀ t p, c ≠ .odometer t p) →
      s1.times_ = s.times_ ∧ s1.mode_odo_first_choice_ = s.mode_odo_first_choice_) ∧
    (∀ (mode0 : Int) (cs : List (Call Rot)) (s : Builder E) (rs : List (InsertionResult E)),
      run E o (Builder.fresh E o mode0) cs = .ok (s, rs) →
      (∀ (t : Time) (rd : RangeData) (s2 : Builder E) (out : Accumulation),
        AddHorizontalRangeData_accumulate E o s t rd = .ok (s2, out) →
        s2.velocity_estimate_ = s.velocity_estimate_ ∧
        ∀ (comp : RangeData) (s1 : Builder E) (res : Option (InsertionResult E)),
          AddAccumulatedRangeData E o s2 t comp = .ok (s1, res) →
          s1.velocity_estimate_ = s2.velocity_estimate_) ∧
      (∀ (c : Call Rot) (s1 : Builder E) (r : Option (InsertionResult E)),
        step E o s c = .ok (s1, r) → s1.velocity_estimate_ = s.velocity_estimate_)) := by
  refine ⟨?_, ?_, fun s s1 c r h hc => step_mode E o s s1 c r h hc, ?_⟩
  · intro s sp s1 time p prev hp hpt hprev h
    obtain ⟨imu0, himu0, _, hsp⟩ := Predict_ok E s sp time hp
    rcases AddOdometerData_ok E s s1 time p h with
      ⟨h0 | h0, _⟩ | ⟨_, _, sp2, imu, pt, hp2, _, _, rfl⟩
    · rw [himu0] at h0; cases h0
    · exact absurd h0 hpt
    · rw [hp] at hp2
      simp only [Except.ok.injEq] at hp2
      subst hp2
      have hprev2 : sp.odometry_state_tracker_.newest = some prev := by
        rw [hsp]
        exact hprev
      have key := AddOdometerData_observe_mode E sp imu pt time p prev hprev2
      have ht : sp.times_ = s.times_ := by rw [hsp]
      have hm : sp.mode_odo_first_choice_ = s.mode_odo_first_choice_ := by rw [hsp]
      simp only [ht, hm] at key
      exact key
  · intro s s1 t rd res h
    have hf := AddAccumulatedRangeData_frame E o s s1 t rd res h
    exact ⟨hf.2.2.2.2.2.2.2.1, hf.2.2.2.2.2.2.2.2,
      fun ht => (AddAccumulatedRangeData_velocity_299 E o s s1 t rd res h ht).1⟩
  · intro mode0 cs s rs h
    have hv := run_velocity E o cs _ s rs h ⟨rfl, rfl⟩
    refine ⟨fun t rd s2 out hacc => ?_, fun c s1 r hs => ?_⟩
    · have hv2 := AddHorizontalRangeData_accumulate_velocity E o s s2 t rd out hacc hv
      exact ⟨hv2.2.trans hv.2.symm, fun comp s1 res hA =>
        (AddAccumulatedRangeData_velocity_unset E o s2 s1 t comp res hA hv2.1).1⟩
    · exact (step_velocity E o s s1 c r hs hv).2.trans hv.2.symm

/-- With the concrete collaborators `AddAccumulatedRangeData` always returns: the active
submaps are never empty. -/
theorem demo_AddAccumulatedRangeData_returns (o : Options) (s : Builder demoExt)
    (time : Time) (rd : RangeData) :
    ∃ s1 r, AddAccumulatedRangeData demoExt o s time rd = .ok (s1, r) := by
  unfold AddAccumulatedRangeData
  simp only
  split
  · exact ⟨_, _, rfl⟩
  · have hsm : ∃ sm, ScanMatch demoExt o s time (s.pose_estimate_ * s.odometry_correction_)
        (tracking_to_tracking_2d demoExt (s.pose_estimate_ * s.odometry_correction_))
        (TransformAndFilterRangeData demoExt o
          (tracking_to_tracking_2d demoExt (s.pose_estimate_ * s.odometry_correction_)) rd)
        = .ok sm := by
      unfold ScanMatch
      simp [demoExt]
    obtain ⟨sm, hsm⟩ := hsm
    rw [hsm]
    exact ⟨_, _, rfl⟩

/-- With the concrete collaborators a scan returns when the IMU tracker is set and the time
is not before the cursor. -/
theorem demo_scan_returns (o : Options) (s : Builder demoExt) (time : Time)
    (rd : RangeData) (hi : s.imu_tracker_ ≠ none) (ht : s.time_ ≤ time) :
    ∃ s1 r, step demoExt o s (.range time rd) = .ok (s1, r) := by
  obtain ⟨s0, hb⟩ := AddHorizontalRangeData_begin_succeeds demoExt o s time hi ht
  simp only [step]
  unfold AddHorizontalRangeData
  rw [AddHorizontalRangeData_accumulate_of_begin demoExt o s s0 time rd hb]
  by_cases hN : s0.num_accumulated_ + 1 ≥ o.scans_per_accumulation
  · rw [if_pos hN]
    exact demo_AddAccumulatedRangeData_returns o _ time _
  · rw [if_neg hN]
    exact ⟨_, _, rfl⟩

/-- With the concrete collaborators and one scan per accumulation, any number of scans at
one time return, each of them is handed to `AddAccumulatedRangeData`, and the counter and
the mode flag are afterwards what they were. -/
theorem demo_scans_keep_mode (o : Options) (hN : o.scans_per_accumulation = 1)
    (time : Time) (rd : RangeData) (n : Nat) :
    ∀ s : Builder demoExt, s.imu_tracker_ ≠ none → s.time_ ≤ time →
      s.num_accumulated_ = 0 →
      ∃ s1 rs, run demoExt o s (List.replicate n (.range time rd)) = .ok (s1, rs) ∧
        s1.times_ = s.times_ ∧ s1.mode_odo_first_choice_ = s.mode_odo_first_choice_ ∧
        (accumulations demoExt o s (List.replicate n (.range time rd))).length = n ∧
        ∀ a ∈ accumulations demoExt o s (List.replicate n (.range time rd)),
          ∃ c, a.outcome = .complete c := by
  induction n with
  | zero =>
    intro s _ _ _
    exact ⟨s, [], by simp [run], rfl, rfl, by simp [accumulations], by simp [accumulations]⟩
  | succ n ih =>
    intro s hi ht hn
    obtain ⟨s1, r, hs⟩ := demo_scan_returns o s time rd hi ht
    obtain ⟨s0, hb⟩ := AddHorizontalRangeData_begin_succeeds demoExt o s time hi ht
    have hmode := step_mode demoExt o s s1 (.range time rd) r hs (by simp)
    have htime := AddHorizontalRangeData_time demoExt o s s0 s1 time rd r hb hs
    have himu : s1.imu_tracker_ ≠ none := by
      have hacc := AddHorizontalRangeData_accumulate_of_begin demoExt o s s0 time rd hb
      have h0 : s0.imu_tracker_ ≠ none := by
        obtain ⟨sp, hp, rfl⟩ := AddHorizontalRangeData_begin_ok demoExt o s s0 time hb
        obtain ⟨imu, _, _, rfl⟩ := Predict_ok demoExt _ sp time hp
        split <;> simp
      have hs2 := hs
      simp only [step] at hs2
      unfold AddHorizontalRangeData at hs2
      rw [hacc] at hs2
      by_cases hc : s0.num_accumulated_ + 1 ≥ o.scans_per_accumulation
      · rw [if_pos hc] at hs2
        rw [(AddAccumulatedRangeData_frame demoExt o _ s1 time _ r hs2).2.1]
        exact h0
      · rw [if_neg hc] at hs2
        simp only [Except.ok.injEq, Prod.mk.injEq] at hs2
        rw [← hs2.1]
        exact h0
    have hrec : ∃ a c, accumulated demoExt o s (.range time rd) = some a ∧
        a.outcome = .complete c ∧ s1.num_accumulated_ = 0 := by
      rcases step_accumulated demoExt o s s1 (.range time rd) r hs with
        ⟨hnone, _, _⟩ | ⟨a, hsome, ⟨_, hout, hnum⟩ | ⟨hlt, _, _, _⟩⟩
      · have hacc := AddHorizontalRangeData_accumulate_of_begin demoExt o s s0 time rd hb
        rw [accumulated_range demoExt o s s0 _ time rd _ hb hacc] at hnone
        cases hnone
      · exact ⟨a, _, hsome, hout, hnum⟩
      · rw [hn, hN] at hlt
        exact absurd (by decide) hlt
    obtain ⟨a, c, hsome, hout, hnum⟩ := hrec
    obtain ⟨s2, rs, hr, h1, h2, h3, h4⟩ := ih s1 himu (le_of_eq htime.2.2) hnum
    refine ⟨s2, r.toList ++ rs, ?_, h1.trans hmode.1, h2.trans hmode.2, ?_, ?_⟩
    · simp only [List.replicate_succ, run, hs, hr]
    · simp only [List.replicate_succ, accumulations, hs, hsome, Option.toList,
        List.singleton_append, List.length_cons, h3]
    · intro b hb
      simp only [List.replicate_succ, accumulations, hs, hsome, Option.toList,
        List.singleton_append, List.mem_cons] at hb
      rcases hb with rfl | hb
      · exact ⟨c, hout⟩
      · exact h4 b hb

/-- Witness for C9: in the state reached through `demoOdometryCalls` the history is not
empty and the pose estimate is at the origin; an odometer sample four metres away
(squared distance 16) engages the mode and leaves the counter at 299.  A scan in the state
so reached, `demoAfterTrigger`, is handed to `AddAccumulatedRangeData`, gives an insertion
result and moves the pose estimate from `x = 0` to `x = 4`, and leaves the velocity
estimate as it was. -/
theorem odometer_priority_window_witness :
    ∃ sp s1 prev,
      Predict demoExt demoAfterOdometry 3 = .ok sp ∧
      demoAfterOdometry.pose_tracker_ ≠ none ∧
      demoAfterOdometry.odometry_state_tracker_.newest = some prev ∧
      AddOdometerData demoExt demoAfterOdometry 3 ⟨⟨4, 0, 0⟩, 0⟩ = .ok s1 ∧
      s1.mode_odo_first_choice_ = 1 ∧ s1.times_ = 299 ∧
      ∃ rs0 s2 r,
        run demoExt demoImuOptions (Builder.fresh demoExt demoImuOptions 0)
          demoTriggerCalls = .ok (demoAfterTrigger, rs0) ∧
        step demoExt demoImuOptions demoAfterTrigger (.range 4 demoScan) = .ok (s2, r) ∧
        r.isSome = true ∧
        demoAfterTrigger.pose_estimate_.translation.x = 0 ∧
        s2.pose_estimate_.translation.x = 4 ∧
        s2.velocity_estimate_ = demoAfterTrigger.velocity_estimate_ := by
  obtain ⟨sp, hp⟩ := returned_isSome (Predict demoExt demoAfterOdometry 3) (by decide!)
  obtain ⟨s1, hs⟩ := returned_isSome
    (AddOdometerData demoExt demoAfterOdometry 3 ⟨⟨4, 0, 0⟩, 0⟩) (by decide!)
  obtain ⟨prev, hprev⟩ := Option.isSome_iff_exists.mp
    (show demoAfterOdometry.odometry_state_tracker_.newest.isSome = true by decide!)
  have hpt : demoAfterOdometry.pose_tracker_ ≠ none :=
    Option.ne_none_iff_isSome.mpr (by decide!)
  have hd : (returned (Predict demoExt demoAfterOdometry 3)).map
      (fun sp => sp.pose_estimate_.translation) = some ⟨0, 0, 0⟩ := by decide!
  rw [hp] at hd
  simp only [returned, Option.map_some', Option.some.injEq] at hd
  have key := ((odometer_priority_window demoExt demoImuOptions).1 demoAfterOdometry sp s1 3
    ⟨⟨4, 0, 0⟩, 0⟩ prev hp hpt hprev hs).1 (by rw [hd]; norm_num)
  obtain ⟨⟨s0, rs0⟩, hrun⟩ := returned_isSome (run demoExt demoImuOptions
    (Builder.fresh demoExt demoImuOptions 0) demoTriggerCalls) (by decide!)
  have hs0 : demoAfterTrigger = s0 := by
    unfold demoAfterTrigger
    rw [hrun]
  rw [← hs0] at hrun
  obtain ⟨⟨s2, r⟩, hstep⟩ := returned_isSome
    (step demoExt demoImuOptions demoAfterTrigger (.range 4 demoScan)) (by decide!)
  have hv := ((odometer_priority_window demoExt demoImuOptions).2.2.2 0 demoTriggerCalls
    demoAfterTrigger rs0 hrun).2 (.range 4 demoScan) s2 r hstep
  have hx : (returned (step demoExt demoImuOptions demoAfterTrigger
      (.range 4 demoScan))).map (fun p => (p.2.isSome, p.1.pose_estimate_.translation.x)) =
      some (true, 4) := by decide!
  rw [hstep] at hx
  simp only [returned, Option.map_some', Option.some.injEq, Prod.mk.injEq] at hx
  exact ⟨sp, s1, prev, hp, hpt, hprev, hs, key.1, key.2, rs0, s2, r, hrun, hstep, hx.1,
    by decide!, hx.2, hv⟩

/-- Counterexample to C9 as stated: the run of `demoTriggerCalls` ends with the mode
engaged and the counter at 299; 300 scans later, each of them handed to
`AddAccumulatedRangeData`, the mode is still engaged and the counter still 299. -/
theorem priority_mode_outlasts_300_scans :
    (returned (run demoExt demoImuOptions (Builder.fresh demoExt demoImuOptions 0)
      demoTriggerCalls)).map (fun p => (p.1.mode_odo_first_choice_, p.1.times_))
      = some (1, 299) ∧
    ∃ s1 rs,
      run demoExt demoImuOptions demoAfterTrigger (List.replicate 300 (.range 4 demoScan))
        = .ok (s1, rs) ∧
      (accumulations demoExt demoImuOptions demoAfterTrigger
        (List.replicate 300 (.range 4 demoScan))).length = 300 ∧
      (∀ a ∈ accumulations demoExt demoImuOptions demoAfterTrigger
        (List.replicate 300 (.range 4 demoScan)), ∃ c, a.outcome = .complete c) ∧
      s1.mode_odo_first_choice_ = 1 ∧ s1.times_ = 299 := by
  refine ⟨by decide!, ?_⟩
  obtain ⟨s1, rs, hr, h1, h2, h3, h4⟩ := demo_scans_keep_mode demoImuOptions rfl 4 demoScan
    300 demoAfterTrigger (Option.ne_none_iff_isSome.mpr (by decide!)) (by decide!)
    (by decide!)
  have hm : demoAfterTrigger.mode_odo_first_choice_ = 1 := by decide!
  have ht : demoAfterTrigger.times_ = 299 := by decide!
  exact ⟨s1, rs, hr, h3, h4, h2.trans hm, h1.trans ht⟩

/-- C11. In every state reached from a freshly constructed builder by calls none of which
aborts, `last_scan_match_time_` is `Time::min()` and `velocity_estimate_` is the zero
vector.  Consequently `Predict` called in such a state returns with the translation of
`pose_estimate_` unchanged, and so does each place `Predict` is called from: an IMU or
odometer call leaves the translation as it was, and the state in which a scan is
accumulated (after `Predict`) has the translation the builder had before the call. -/
theorem velocity_never_estimated (E : Ext Rot) (o : Options) (mode0 : Int)
    (cs : List (Call Rot)) (s : Builder E) (rs : List (InsertionResult E))
    (h : run E o (Builder.fresh E o mode0) cs = .ok (s, rs)) :
    s.last_scan_match_time_ = Time_min ∧ s.velocity_estimate_ = Vec2.Zero ∧
    (∀ (t : Time) (sp : Builder E), Predict E s t = .ok sp →
      sp.pose_estimate_.translation = s.pose_estimate_.translation) ∧
    (∀ (c : Call Rot) (s1 : Builder E) (r : Option (InsertionResult E)),
      step E o s c = .ok (s1, r) → (∀ t rd, c ≠ .range t rd) →
      s1.pose_estimate_.translation = s.pose_estimate_.translation) ∧
    (∀ (t : Time) (s0 : Builder E), AddHorizontalRangeData_begin E o s t = .ok (some s0) →
      s0.pose_estimate_.translation = s.pose_estimate_.translation) := by
  have hv := run_velocity E o cs _ s rs h ⟨rfl, rfl⟩
  exact ⟨hv.1, hv.2, fun t sp hp => (Predict_translation E s sp t hp).2.2 hv.2,
    fun c s1 r hs hc => step_translation E o s s1 c r hs hv.2 hc,
    fun t s0 hb => AddHorizontalRangeData_begin_translation E o s s0 t hb hv.2⟩

/-- Witness for C11: the run of `demoMixedCalls` matches two scans, the second one metre
from the first, and still ends with `last_scan_match_time_` at `Time_min` and a zero
velocity estimate; `Predict` to time 9 then returns with the translation (1,0,0) it
found. -/
theorem velocity_never_estimated_witness :
    ∃ s rs sp,
      run demoExt demoImuOptions (Builder.fresh demoExt demoImuOptions 0) demoMixedCalls
        = .ok (s, rs) ∧
      Predict demoExt s 9 = .ok sp ∧
      s.last_scan_match_time_ = Time_min ∧ s.velocity_estimate_ = Vec2.Zero ∧
      sp.pose_estimate_.translation = s.pose_estimate_.translation ∧
      (returned (run demoExt demoImuOptions (Builder.fresh demoExt demoImuOptions 0)
        demoMixedCalls)).map (fun p => p.1.pose_estimate_.translation) = some ⟨1, 0, 0⟩ := by
  obtain ⟨⟨s, rs⟩, hr⟩ := returned_isSome (run demoExt demoImuOptions
    (Builder.fresh demoExt demoImuOptions 0) demoMixedCalls) (by decide!)
  have hp0 : ((returned (run demoExt demoImuOptions (Builder.fresh demoExt demoImuOptions 0)
      demoMixedCalls)).bind (fun p => returned (Predict demoExt p.1 9))).isSome = true := by
    decide!
  rw [hr] at hp0
  simp only [returned, Option.some_bind] at hp0
  obtain ⟨sp, hp⟩ := returned_isSome (Predict demoExt s 9) hp0
  have key := velocity_never_estimated demoExt demoImuOptions 0 demoMixedCalls s rs hr
  exact ⟨s, rs, sp, hr, hp, key.1, key.2.1, key.2.2.1 9 sp hp, by decide!⟩

/-- C12. With `use_imu_data = false`, in every state reached from a freshly constructed
builder by calls none of which aborts, the pose tracker is unset; so every
`AddOdometerData` call in such a state, for any time and any pose, returns the state it was
called on: no member changes, `odometry_correction_`, the odometry history, the time
cursor and the counter `times_` included.  Over a whole run the odometer samples have no
effect: the run without them returns the same state and the same insertion results. -/
theorem odometry_dropped_without_imu (E : Ext Rot) (o : Options)
    (hu : o.use_imu_data = false) (mode0 : Int) (cs : List (Call Rot)) (s : Builder E)
    (rs : List (InsertionResult E))
    (h : run E o (Builder.fresh E o mode0) cs = .ok (s, rs)) :
    s.pose_tracker_ = none ∧
    (∀ (t : Time) (p : Rigid3d Rot), AddOdometerData E s t p = .ok s) ∧
    run E o (Builder.fresh E o mode0) (cs.filter (fun c => !isOdometer c)) = .ok (s, rs) := by
  obtain ⟨h1, h2⟩ := run_without_odometer E o hu cs _ s rs h rfl
  exact ⟨h1, fun t p => AddOdometerData_dropped E s t p h1, h2⟩

/-- Witness for C12: without IMU, the run of `demoNoImuCalls` returns, its odometer
samples included (one of them earlier than the cursor); afterwards the pose tracker is
unset, the cursor is at 12, the history is empty, the counter is 0 and the odometry
correction is the identity, and a further odometer sample returns the same state. -/
theorem odometry_dropped_without_imu_witness :
    demoOptions.use_imu_data = false ∧
    ∃ s rs,
      run demoExt demoOptions (Builder.fresh demoExt demoOptions 0) demoNoImuCalls
        = .ok (s, rs) ∧
      s.pose_tracker_ = none ∧
      AddOdometerData demoExt s 3 ⟨⟨7, 0, 0⟩, 0⟩ = .ok s ∧
      run demoExt demoOptions (Builder.fresh demoExt demoOptions 0)
        [.range 10 demoScan, .range 12 demoScan] = .ok (s, rs) ∧
      (returned (run demoExt demoOptions (Builder.fresh demoExt demoOptions 0)
        demoNoImuCalls)).map (fun p => (p.1.time_, p.1.times_,
          p.1.odometry_state_tracker_.odometry_states.length, p.1.odometry_correction_))
        = some (12, 0, 0, 1) := by
  obtain ⟨⟨s, rs⟩, hr⟩ := returned_isSome (run demoExt demoOptions
    (Builder.fresh demoExt demoOptions 0) demoNoImuCalls) (by decide!)
  have key := odometry_dropped_without_imu demoExt demoOptions rfl 0 demoNoImuCalls s rs hr
  exact ⟨rfl, s, rs, hr, key.1, key.2.1 3 ⟨⟨7, 0, 0⟩, 0⟩, key.2.2, by decide!⟩

end Claims

section GroupClaims

variable {Rot : Type} [Group (Rigid3d Rot)]

/-- C10. Odometry correction algebra, rigid transforms being a group.  Take a processed
`AddOdometerData` call with a non-empty history whose newest entry is `prev`; let `sp` be
the state after its `Predict`, `pe` the pose estimate of `sp`, and `owi` the odometer pose
with the orientation of the IMU tracker.  The pose estimate after the call is `pe`.  On the
normal branch (distance not above 5 and counter at most 1) the new correction is
`pe⁻¹ * prev.state_pose * prev.odometer_pose⁻¹ * owi`, so the odometry prediction
`pe * odometry_correction` is `prev.state_pose * prev.odometer_pose⁻¹ * owi`, in which `pe`
does not occur.  On the odometer-priority branch (distance above 5 or counter above 1) the
correction is `pe⁻¹ * owi` and the prediction is `owi`.  In both branches the history after
the call is the history before with the one entry `(time, owi, pe * odometry_correction)`
added, which is its newest entry when the capacity is positive. -/
theorem odometry_correction_algebra (E : Ext Rot) (s sp s1 : Builder E)
    (imu : E.ImuTracker) (time : Time) (p : Rigid3d Rot) (prev : OdometryState Rot)
    (hp : Predict E s time = .ok sp) (himu : sp.imu_tracker_ = some imu)
    (hpt : s.pose_tracker_ ≠ none)
    (hprev : s.odometry_state_tracker_.newest = some prev)
    (h : AddOdometerData E s time p = .ok s1) :
    s1.pose_estimate_ = sp.pose_estimate_ ∧
    (¬ ((p.translation.x - sp.pose_estimate_.translation.x) *
          (p.translation.x - sp.pose_estimate_.translation.x) +
        (p.translation.y - sp.pose_estimate_.translation.y) *
          (p.translation.y - sp.pose_estimate_.translation.y) > 5) → s.times_ ≤ 1 →
      s1.odometry_correction_ =
        sp.pose_estimate_⁻¹ * prev.state_pose * prev.odometer_pose⁻¹ *
          ⟨p.translation, E.ImuTracker_orientation imu⟩ ∧
      sp.pose_estimate_ * s1.odometry_correction_ =
        prev.state_pose * prev.odometer_pose⁻¹ *
          ⟨p.translation, E.ImuTracker_orientation imu⟩) ∧
    ((((p.translation.x - sp.pose_estimate_.translation.x) *
          (p.translation.x - sp.pose_estimate_.translation.x) +
        (p.translation.y - sp.pose_estimate_.translation.y) *
          (p.translation.y - sp.pose_estimate_.translation.y) > 5) ∨ s.times_ > 1) →
      s1.odometry_correction_ =
        sp.pose_estimate_⁻¹ * ⟨p.translation, E.ImuTracker_orientation imu⟩ ∧
      sp.pose_estimate_ * s1.odometry_correction_ =
        ⟨p.translation, E.ImuTracker_orientation imu⟩) ∧
    s1.odometry_state_tracker_ =
      s.odometry_state_tracker_.AddOdometryState
        ⟨time, ⟨p.translation, E.ImuTracker_orientation imu⟩,
          sp.pose_estimate_ * s1.odometry_correction_⟩ ∧
    (0 < s.odometry_state_tracker_.window_size →
      s1.odometry_state_tracker_.newest =
        some ⟨time, ⟨p.translation, E.ImuTracker_orientation imu⟩,
          sp.pose_estimate_ * s1.odometry_correction_⟩) := by
  obtain ⟨imu0, himu0, _, hsp⟩ := Predict_ok E s sp time hp
  rcases AddOdometerData_ok E s s1 time p h with
    ⟨h0 | h0, _⟩ | ⟨_, _, sp2, imu2, pt, hp2, himu2, _, rfl⟩
  · rw [himu0] at h0; cases h0
  · exact absurd h0 hpt
  · rw [hp] at hp2
    simp only [Except.ok.injEq] at hp2
    subst hp2
    rw [himu] at himu2
    simp only [Option.some.injEq] at himu2
    subst himu2
    have host : sp.odometry_state_tracker_ = s.odometry_state_tracker_ := by rw [hsp]
    have ht : sp.times_ = s.times_ := by rw [hsp]
    obtain ⟨e1, e2, e3⟩ := AddOdometerData_observe_eq E sp imu pt time p
    have hval := AddOdometerData_observe_value E sp imu pt time p prev (host ▸ hprev)
    rw [ht] at hval
    rw [host] at e3
    refine ⟨e1, fun h5 ht1 => ?_, fun hd => ?_, e3, fun hw => ?_⟩
    · rw [hval.2 h5 ht1]
      constructor
      · simp only [mul_assoc]
      · rw [mul_inv_cancel_left, mul_assoc]
    · rw [hval.1 hd]
      exact ⟨rfl, mul_inv_cancel_left _ _⟩
    · rw [e3]
      exact AddOdometryState_newest _ _ hw

/-- Witness for C10: in the state reached through `demoOdometryCalls` (pose estimate at the
origin, newest history entry with odometer pose and state pose both at (1,0,0)), an odometer
sample at (2,0,0) takes the normal branch; the correction and the odometry prediction are
both the translation by (2,0,0). -/
theorem odometry_correction_algebra_witness :
    ∃ sp s1 imu prev,
      Predict demoExt demoAfterOdometry 3 = .ok sp ∧ sp.imu_tracker_ = some imu ∧
      demoAfterOdometry.pose_tracker_ ≠ none ∧
      demoAfterOdometry.odometry_state_tracker_.newest = some prev ∧
      AddOdometerData demoExt demoAfterOdometry 3 ⟨⟨2, 0, 0⟩, 0⟩ = .ok s1 ∧
      s1.pose_estimate_ = sp.pose_estimate_ ∧
      s1.odometry_state_tracker_ =
        demoAfterOdometry.odometry_state_tracker_.AddOdometryState
          ⟨3, ⟨⟨2, 0, 0⟩, demoExt.ImuTracker_orientation imu⟩,
            sp.pose_estimate_ * s1.odometry_correction_⟩ ∧
      (returned (AddOdometerData demoExt demoAfterOdometry 3 ⟨⟨2, 0, 0⟩, 0⟩)).map
        (fun s1 => (s1.odometry_correction_, s1.pose_estimate_ * s1.odometry_correction_))
        = some (⟨⟨2, 0, 0⟩, 0⟩, ⟨⟨2, 0, 0⟩, 0⟩) := by
  obtain ⟨sp, hp⟩ := returned_isSome (Predict demoExt demoAfterOdometry 3) (by decide!)
  obtain ⟨s1, hs⟩ := returned_isSome
    (AddOdometerData demoExt demoAfterOdometry 3 ⟨⟨2, 0, 0⟩, 0⟩) (by decide!)
  obtain ⟨prev, hprev⟩ := Option.isSome_iff_exists.mp
    (show demoAfterOdometry.odometry_state_tracker_.newest.isSome = true by decide!)
  have hpt : demoAfterOdometry.pose_tracker_ ≠ none :=
    Option.ne_none_iff_isSome.mpr (by decide!)
  have hi : (returned (Predict demoExt demoAfterOdometry 3)).map
      (fun sp => sp.imu_tracker_.isSome) = some true := by decide!
  rw [hp] at hi
  simp only [returned, Option.map_some', Option.some.injEq] at hi
  obtain ⟨imu, himu⟩ := Option.isSome_iff_exists.mp hi
  have key := odometry_correction_algebra demoExt demoAfterOdometry sp s1 imu 3
    ⟨⟨2, 0, 0⟩, 0⟩ prev hp himu hpt hprev hs
  exact ⟨sp, s1, imu, prev, hp, himu, hpt, hprev, hs, key.1, key.2.2.2.1, by decide!⟩

end GroupClaims

end Cartographer
